import Mathlib

/-!
Librtmfp: the sub-message loop of `FlowManager::receive`.

A shallow embedding of `src/sources/FlowManager.cpp`.  Bytes are natural
numbers below 256, a reader is the list of the bytes that are left to read,
unsigned 64-bit values are natural numbers reduced modulo `2 ^ 64`.

The classes `BinaryReader`, `RTMFPFlow`, `RTMFPConnection` (the object behind
`_pConnection`) and `FlashConnection` are not part of the sources at hand:
the reader is modelled from the wire format of the specification, the other
collaborators are parameters gathered in `Env`, and every call made to them is
recorded, sub-message by sub-message, in the trace that `receive` returns.
-/

namespace Librtmfp

/-! ## BinaryReader -/

namespace BinaryReader

/-- Modelled from the spec: `BinaryReader::available()`, the number of bytes left
(`type:u8, size:u16, payload` are read from a finite packet). -/
def available (r : List Nat) : Nat := r.length

/-- Modelled from the spec: `BinaryReader::read8()`, one byte (`type:u8`); an exhausted
reader yields 0 and stays where it is. -/
def read8 (r : List Nat) : Nat × List Nat :=
  match r with
  | [] => (0, [])
  | b :: t => (b, t)

/-- Modelled from the spec: `BinaryReader::read16()`, two bytes in network order
(`size:u16`); bytes missing at the end of the reader count as 0. -/
def read16 (r : List Nat) : Nat × List Nat :=
  match r with
  | [] => (0, [])
  | [a] => (a * 256, [])
  | a :: b :: t => (a * 256 + b, t)

/-- Modelled from the spec: `BinaryReader::next(count)`, skip `count` bytes, clamped to
what is available. -/
def next (count : Nat) (r : List Nat) : List Nat := r.drop count

/-- Modelled from the spec: `BinaryReader::read(size, std::string&)`: the string is
resized to `size` and filled with the bytes available, the rest staying 0. -/
def readString (size : Nat) (r : List Nat) : List Nat × List Nat :=
  (r.take size ++ List.replicate (size - r.length) 0, r.drop size)

/-- Modelled from the spec: the loop of the 7-bit varint decoders of `BinaryReader`;
`w` is the width of the result, `k` the number of continuation bytes still
allowed, `b` the byte just read, `result` the accumulator. -/
def read7BitLoop (w : Nat) : Nat → Nat → Nat → List Nat → Nat × List Nat
  | 0, b, result, r => (((result <<< 8) ||| b) % 2 ^ w, r)
  | k + 1, b, result, r =>
    if b &&& 0x80 ≠ 0 then
      read7BitLoop w k (read8 r).1 ((result <<< 7) ||| (b &&& 0x7F)) (read8 r).2
    else
      (((result <<< 7) ||| b) % 2 ^ w, r)

/-- Modelled from the spec: `BinaryReader::read7BitLongValue()`, the 7-bit varint of
flow ids, stages and deltaNAck: up to 8 bytes carrying 7 bits each behind a
continuation bit, then a last byte (of 8 bits when it is the ninth), as a
64-bit unsigned value. -/
def read7BitLongValue (r : List Nat) : Nat × List Nat :=
  read7BitLoop 64 8 (read8 r).1 0 (read8 r).2

/-- Modelled from the spec: `BinaryReader::read7BitValue()`, the 7-bit varint of a
stream id: up to 3 bytes of 7 bits, then a last byte, as a 32-bit unsigned
value. -/
def read7BitValue (r : List Nat) : Nat × List Nat :=
  read7BitLoop 32 3 (read8 r).1 0 (read8 r).2

end BinaryReader

namespace BinaryWriter

/-- Modelled from the spec: `BinaryWriter::write7BitValue`, the 7-bit varint encoding of a
stream id: groups of 7 bits, the most significant first, each behind a
continuation bit, then a last byte without it; from `2 ^ 21` on the value
takes 4 bytes and the last one carries 8 bits. -/
def write7BitValue (n : Nat) : List Nat :=
  if n < 2 ^ 7 then [n &&& 0x7F]
  else if n < 2 ^ 14 then [0x80 ||| ((n >>> 7) &&& 0x7F), n &&& 0x7F]
  else if n < 2 ^ 21 then
    [0x80 ||| ((n >>> 14) &&& 0x7F), 0x80 ||| ((n >>> 7) &&& 0x7F), n &&& 0x7F]
  else
    [0x80 ||| ((n >>> 22) &&& 0x7F), 0x80 ||| ((n >>> 15) &&& 0x7F),
      0x80 ||| ((n >>> 8) &&& 0x7F), n &&& 0xFF]

end BinaryWriter

open BinaryReader

/-! ## Session state -/

/-- Modelled from the spec: the session status of `RTMFP.h`,
`status ∈ {STOPPED, HANDSHAKE, CONNECTED, NEAR_CLOSED, FAILED}`. -/
inductive Status where
  | STOPPED
  | HANDSHAKE
  | CONNECTED
  | NEAR_CLOSED
  | FAILED
  deriving DecidableEq, Repr

/-- A call made by the session to one of its collaborators. -/
inductive Event where
  /-- Call `itConnection.second->close()` in `close()`. -/
  | connectionClose (address : Nat)
  /-- Call `unsubscribe(itConnection.second)` in `close()`. -/
  | unsubscribe (address : Nat)
  /-- Call `handleP2PAddressExchange(message)`. -/
  | handleP2PAddressExchange (message : List Nat)
  /-- Call `handleProtocolFailed()`. -/
  | handleProtocolFailed
  /-- Call `_pConnection->writeMessage(type, length)`. -/
  | writeMessage (type length : Nat)
  /-- Call `_pConnection->handleWriterFailed(id)`. -/
  | handleWriterFailed (id : Nat)
  /-- Call `_pConnection->handleAcknowledgment(id, message)`. -/
  | handleAcknowledgment (id : Nat) (message : List Nat)
  /-- Call `_pConnection->clearWriters()`. -/
  | clearWriters
  /-- Call `pFlow->receive(stage, deltaNAck, message, flags)` on the flow `id`. -/
  | flowReceive (id stage deltaNAck : Nat) (message : List Nat) (flags : Nat)
  /-- Call `pFlow->commit()` on the flow `id`. -/
  | flowCommit (id : Nat)
  /-- Call `_flows.erase(pFlow->id); delete pFlow` on the flow `id`. -/
  | flowDelete (id : Nat)
  deriving DecidableEq, Repr

/-- The members of `FlowManager` that `receive`, `createFlow` and `close` use.
`F` is the state of an `RTMFPFlow`; a flow pointer is the key of the flow in
`_flows`. -/
structure FlowManager (F : Type) where
  /-- Member `status`. -/
  status : Status
  /-- Member `_flows`, the map from flow id to flow. -/
  _flows : List (Nat × F)
  /-- Member `_pFlowNull`, the null flow. -/
  _pFlowNull : Option F
  /-- Member `_pConnection`, the current connection (its address) when there is one. -/
  _pConnection : Option Nat
  /-- Member `_mapConnections`, the addresses of the subscribed connections. -/
  _mapConnections : List Nat
  /-- Member `_pMainStream` is set. -/
  _pMainStream : Bool
  /-- Member `_lastKeepAlive`. -/
  _lastKeepAlive : Nat
  deriving DecidableEq, Repr

/-- The collaborators of `FlowManager` whose code is not in `FlowManager.cpp`. -/
structure Env (F : Type) where
  /-- Constant `MESSAGE_HEADER`, the flag bit of `RTMFP.h` announcing a header part. -/
  MESSAGE_HEADER : Nat
  /-- Method `RTMFPFlow::receive(stage, deltaNAck, message, flags)`. -/
  flowReceive : F → Nat → Nat → List Nat → Nat → F
  /-- Method `RTMFPFlow::commit()`. -/
  flowCommit : F → F
  /-- Method `RTMFPFlow::consumed()`. -/
  flowConsumed : F → Bool
  /-- Method `RTMFPFlow::critical()`. -/
  flowCritical : F → Bool
  /-- The virtual `createSpecialFlow(ex, id, signature)`. -/
  createSpecialFlow : Nat → List Nat → Option F
  /-- Method `_pMainStream->getStream(idSession, pStream)`: the stream when it exists. -/
  getStream : Nat → Option Nat
  /-- Construction `new RTMFPFlow(id, signature, pStream, ...)`. -/
  newFlow : Nat → List Nat → Nat → F
  /-- The virtual `handleP2PAddressExchange(message)`. -/
  handleP2PAddressExchange : List Nat → FlowManager F → FlowManager F
  /-- The virtual `handleProtocolFailed()`. -/
  handleProtocolFailed : FlowManager F → FlowManager F
  /-- The time stored by `_lastKeepAlive.update()`. -/
  now : Nat

namespace FlowManager

variable {F : Type}

/-- Lookup `_flows.find(id)`. -/
def find (s : FlowManager F) (id : Nat) : Option F :=
  s._flows.lookup id

/-- Apply a method of `RTMFPFlow` to the flow `id` points to. -/
def onFlow (s : FlowManager F) (id : Nat) (f : F → F) : FlowManager F :=
  { s with _flows := s._flows.map (fun p => if p.1 = id then (p.1, f p.2) else p) }

/-- Removal `_flows.erase(id)`. -/
def erase (s : FlowManager F) (id : Nat) : FlowManager F :=
  { s with _flows := s._flows.filter (fun p => p.1 ≠ id) }

/-- Function `FlowManager::close()`: close and unsubscribe every connection of
`_mapConnections`, reset `_pConnection`, set the status to FAILED.  The
second component lists the calls made on the connections. -/
def close (s : FlowManager F) : FlowManager F × List Event :=
  ({ s with _pConnection := none, status := Status.FAILED },
   (s._mapConnections.map
      (fun a => [Event.connectionClose a, Event.unsubscribe a])).flatten)

/-- Function `FlowManager::createFlow(id, signature)`: the flow returned (its key in
`_flows`), if any, and the session afterwards. -/
def createFlow (E : Env F) (s : FlowManager F) (id : Nat) (signature : List Nat) :
    Option Nat × FlowManager F :=
  if s.status = Status.FAILED then (none, s)
  else if s._pMainStream = false then (none, s)
  else if (s.find id).isSome then (some id, s)
  else
    match E.createSpecialFlow id signature with
    | some f => (some id, { s with _flows := (id, f) :: s._flows })
    | none =>
      if signature.length > 3 ∧ signature.take 4 = [0x00, 0x54, 0x43, 0x04] then
        match E.getStream (read7BitValue (signature.drop 4)).1 with
        | some pStream =>
          (some id, { s with _flows := (id, E.newFlow id signature pStream) :: s._flows })
        | none => (none, s)
      else (none, s)

end FlowManager

/-! ## `FlowManager::receive` -/

/-- The local variables of `receive` that live across sub-messages. -/
structure Locals where
  /-- Local `flags`. -/
  flags : Nat
  /-- Local `pFlow`, a key of `_flows` or NULL. -/
  pFlow : Option Nat
  /-- Local `stage`. -/
  stage : Nat
  /-- Local `deltaNAck`. -/
  deltaNAck : Nat
  deriving DecidableEq, Repr

/-- Where control goes at the end of a part of the loop body. -/
inductive Ctl where
  /-- On to the next statement (a `break` out of the switch). -/
  | next
  /-- A `return`. -/
  | ret
  /-- A call through `_pConnection` while it is not set. -/
  | fault
  deriving DecidableEq, Repr

/-- The outcome of a part of the loop body: where control goes, the session,
the locals, and the calls made to the collaborators, oldest first. -/
structure Step (F : Type) where
  /-- Where control goes. -/
  ctl : Ctl
  /-- The session afterwards. -/
  state : FlowManager F
  /-- The locals afterwards. -/
  locals : Locals
  /-- The calls made. -/
  calls : List Event
  deriving DecidableEq, Repr

namespace FlowManager

variable {F : Type}

/-- The loop `while (length>0 && message.available())` over the unknown header
parts; `fuel` bounds the number of iterations, `available message` is enough. -/
def skipHeaderParts : Nat → Nat → List Nat → Nat × List Nat
  | 0, length, message => (length, message)
  | fuel + 1, length, message =>
    if length > 0 ∧ available message > 0 then
      skipHeaderParts fuel (read8 (next length message)).1 (read8 (next length message)).2
    else (length, message)

/-- The case `0x11` of the switch, also reached from `0x10` by fall-through. -/
def request11 (E : Env F) (type : Nat) (message : List Nat) (s : FlowManager F)
    (l : Locals) : Step F :=
  let stage := (l.stage + 1) % 2 ^ 64
  let deltaNAck := (l.deltaNAck + 1) % 2 ^ 64
  let flags := if type = 0x11 then (read8 message).1 else l.flags
  let message := if type = 0x11 then (read8 message).2 else message
  let l1 : Locals := { l with stage := stage, deltaNAck := deltaNAck, flags := flags }
  match l.pFlow with
  | some id =>
    if s.status ≠ Status.FAILED then
      ⟨Ctl.next, s.onFlow id (fun f => E.flowReceive f stage deltaNAck message flags), l1,
        [Event.flowReceive id stage deltaNAck message flags]⟩
    else ⟨Ctl.next, s, l1, []⟩
  | none => ⟨Ctl.next, s, l1, []⟩

/-- The block `if (message.read8()>0)` of the header part: the fullduplex part,
then the unknown parts.  Returns the length left over when the message ends
(it is positive when the header `finished before scheduled`) and the rest of
the message. -/
def headerParts (m : List Nat) : Nat × List Nat :=
  let more := read8 m
  if more.1 > 0 then
    let fd := read8 more.2
    let m1 := if fd.1 ≠ 0x0A then fd.2 else (read7BitLongValue fd.2).2
    let len := read8 m1
    skipHeaderParts (available len.2) len.1 len.2
  else (0, more.2)

/-- The header part of case `0x10`, `if (flags & MESSAGE_HEADER)`: the
signature is read, the flow is created when the lookup found none, the other
parts are skipped.  Returns the flow with the session, and the outcome of
`headerParts`.  `m` is the message after flags, flow id, stage and deltaNAck. -/
def request10Header (E : Env F) (idFlow : Nat) (m : List Nat) (s : FlowManager F)
    (l : Locals) : (Option Nat × FlowManager F) × (Nat × List Nat) :=
  if l.flags &&& E.MESSAGE_HEADER ≠ 0 then
    let sig := readString (read8 m).1 (read8 m).2
    (if l.pFlow.isNone then s.createFlow E idFlow sig.1 else (l.pFlow, s), headerParts sig.2)
  else ((l.pFlow, s), (0, m))

/-- The part of case `0x10` that follows the lookup of the flow: the header
part, its `return` when it is cut short, the test `if (!pFlow) break`, then the
fall-through to `0x11`. -/
def request10Flow (E : Env F) (idFlow : Nat) (m : List Nat) (s : FlowManager F)
    (l : Locals) : Step F :=
  let h := request10Header E idFlow m s l
  let l1 : Locals := { l with pFlow := h.1.1 }
  if h.2.1 > 0 then ⟨Ctl.ret, h.1.2, l1, []⟩
  else if h.1.1.isNone then ⟨Ctl.next, h.1.2, l1, []⟩
  else request11 E 0x10 h.2.2 h.1.2 l1

/-- The case `0x10` of the switch. -/
def request10 (E : Env F) (message : List Nat) (s : FlowManager F) (l : Locals) : Step F :=
  let flags := read8 message
  let idFlow := read7BitLongValue flags.2
  let stage := read7BitLongValue idFlow.2
  let deltaNAck := read7BitLongValue stage.2
  let l1 : Locals := { l with
    flags := flags.1
    stage := (stage.1 + (2 ^ 64 - 1)) % 2 ^ 64
    deltaNAck := (deltaNAck.1 + (2 ^ 64 - 1)) % 2 ^ 64 }
  if s.status = Status.FAILED then ⟨Ctl.next, s, l1, []⟩
  else
    request10Flow E idFlow.1 deltaNAck.2 s
      { l1 with pFlow := if (s.find idFlow.1).isSome then some idFlow.1 else none }

/-- The `switch (type)` of the loop body, on the message of one sub-message. -/
def handle (E : Env F) (type : Nat) (message : List Nat) (s : FlowManager F) (l : Locals) :
    Step F :=
  if type = 0x0f then
    ⟨Ctl.next, E.handleP2PAddressExchange message s, l, [Event.handleP2PAddressExchange message]⟩
  else if type = 0xcc then ⟨Ctl.next, s, l, []⟩
  else if type = 0x0c then ⟨Ctl.next, E.handleProtocolFailed s, l, [Event.handleProtocolFailed]⟩
  else if type = 0x4c then ⟨Ctl.ret, s.close.1, l, s.close.2⟩
  else if type = 0x01 then
    if s._pConnection.isSome then ⟨Ctl.next, s, l, [Event.writeMessage 0x41 0]⟩
    else ⟨Ctl.fault, s, l, []⟩
  else if type = 0x41 then ⟨Ctl.next, { s with _lastKeepAlive := E.now }, l, []⟩
  else if type = 0x5e then
    if s._pConnection.isSome then
      ⟨Ctl.next, s, l, [Event.handleWriterFailed (read7BitLongValue message).1]⟩
    else ⟨Ctl.fault, s, l, []⟩
  else if type = 0x51 then
    if s._pConnection.isSome then
      ⟨Ctl.next, s, l, [Event.handleAcknowledgment (read7BitLongValue message).1
        (read7BitLongValue message).2]⟩
    else ⟨Ctl.fault, s, l, []⟩
  else if type = 0x10 then request10 E message s l
  else if type = 0x11 then request11 E 0x11 message s l
  else ⟨Ctl.ret, s, l, []⟩

/-- The end of the loop body, `// Commit RTMFPFlow`: `type` is the type of the
sub-message that comes next. -/
def commit (E : Env F) (type : Nat) (s : FlowManager F) (l : Locals) : Step F :=
  match l.pFlow with
  | some id =>
    if s.status ≠ Status.FAILED ∧ type ≠ 0x11 then
      let s1 := s.onFlow id E.flowCommit
      match s1.find id with
      | some f =>
        if E.flowConsumed f then
          if E.flowCritical f ∧ s1.status ≠ Status.CONNECTED then
            if s1._pConnection.isSome then
              ⟨Ctl.next, s1.erase id, { l with pFlow := none },
                [Event.flowCommit id, Event.clearWriters, Event.flowDelete id]⟩
            else ⟨Ctl.fault, s1, l, [Event.flowCommit id]⟩
          else
            ⟨Ctl.next, s1.erase id, { l with pFlow := none },
              [Event.flowCommit id, Event.flowDelete id]⟩
        else ⟨Ctl.next, s1, { l with pFlow := none }, [Event.flowCommit id]⟩
      | none => ⟨Ctl.next, s1, { l with pFlow := none }, [Event.flowCommit id]⟩
    else ⟨Ctl.next, s, l, []⟩
  | none => ⟨Ctl.next, s, l, []⟩

end FlowManager

/-- Expression `reader.available()>0 ? reader.read8() : 0xFF`. -/
def nextType (reader : List Nat) : Nat × List Nat :=
  if available reader > 0 then read8 reader else (0xFF, reader)

/-- One pass through the body of the loop `while (type != 0xFF)`. -/
structure Pass (F : Type) where
  /-- How the pass ends. -/
  step : Step F
  /-- The declared size of the sub-message. -/
  size : Nat
  /-- The message handed to the switch. -/
  message : List Nat
  /-- The type read for the next pass (the current one when the pass stops early). -/
  type : Nat
  /-- The reader after the pass. -/
  reader : List Nat
  deriving DecidableEq, Repr

/-- Ghost: what the loop did on one sub-message. -/
structure Visit where
  /-- The type byte. -/
  type : Nat
  /-- The declared size. -/
  size : Nat
  /-- The message handed to the switch. -/
  message : List Nat
  /-- The calls made to the collaborators during the pass. -/
  calls : List Event
  deriving DecidableEq, Repr

/-- How `receive` ended. -/
inductive Exit where
  /-- The loop ended on `type == 0xFF`. -/
  | finished
  /-- A `return` inside the loop. -/
  | returned
  /-- A call through `_pConnection` while it is not set. -/
  | faulted
  /-- The model ran out of fuel. -/
  | outOfFuel
  deriving DecidableEq, Repr

/-- What `receive` leaves behind. -/
structure Result (F : Type) where
  /-- How it ended. -/
  exit : Exit
  /-- The session afterwards. -/
  state : FlowManager F
  /-- The local variables at the end. -/
  locals : Locals
  /-- The bytes the reader has not consumed. -/
  reader : List Nat
  /-- Ghost: the sub-messages the loop body ran on, in order. -/
  trace : List Visit
  deriving DecidableEq, Repr

namespace FlowManager

variable {F : Type}

/-- The body of the loop of `receive` on a sub-message of type `type`; `reader`
stands after the type byte.  `beyond` is the memory that follows the packet,
which `PacketReader message(reader.current(), size)` reaches when `size`
exceeds what is left of the packet. -/
def body (E : Env F) (beyond : List Nat) (type : Nat) (reader : List Nat)
    (s : FlowManager F) (l : Locals) : Pass F :=
  let size := read16 reader
  let message := (size.2 ++ beyond).take size.1
  let h := handle E type message s l
  if h.ctl = Ctl.next then
    let type1 := nextType (next size.1 size.2)
    let c := commit E type1.1 h.state h.locals
    ⟨{ c with calls := h.calls ++ c.calls }, size.1, message, type1.1, type1.2⟩
  else ⟨h, size.1, message, type, size.2⟩

/-- The loop `while (type != 0xFF)` of `receive`, with fuel. -/
def receiveLoop (E : Env F) (beyond : List Nat) :
    Nat → Nat → List Nat → FlowManager F → Locals → Result F
  | 0, _, reader, s, l => ⟨Exit.outOfFuel, s, l, reader, []⟩
  | fuel + 1, type, reader, s, l =>
    if type = 0xFF then ⟨Exit.finished, s, l, reader, []⟩
    else
      let p := body E beyond type reader s l
      let v : Visit := ⟨type, p.size, p.message, p.step.calls⟩
      match p.step.ctl with
      | Ctl.ret => ⟨Exit.returned, p.step.state, p.step.locals, p.reader, [v]⟩
      | Ctl.fault => ⟨Exit.faulted, p.step.state, p.step.locals, p.reader, [v]⟩
      | Ctl.next =>
        let r := receiveLoop E beyond fuel p.type p.reader p.step.state p.step.locals
        { r with trace := v :: r.trace }

/-- Function `FlowManager::receive(reader)` on a reader holding `packet`; the fuel
`available packet + 1` is never used up (`receive_exit_ne_outOfFuel`). -/
def receive (E : Env F) (packet : List Nat) (beyond : List Nat) (s : FlowManager F) :
    Result F :=
  receiveLoop E beyond (available packet + 1) (nextType packet).1 (nextType packet).2 s
    ⟨0, none, 0, 0⟩

end FlowManager

/-! ## Framing of sub-messages -/

/-- The wire form of a sub-message `(type, payload)`: the type byte, the size of
the payload on 2 bytes in network order, the payload. -/
def encode (m : Nat × List Nat) : List Nat :=
  m.1 :: (m.2.length / 256) :: (m.2.length % 256) :: m.2

/-- A chain of sub-messages on the wire. -/
def encodeChain (ms : List (Nat × List Nat)) : List Nat :=
  (ms.map encode).flatten

/-! ## The fields of a request (`0x10`) on the wire -/

/-- The flags of a request: its first byte. -/
def wireFlags (m : List Nat) : Nat := (read8 m).1

/-- The flow id of a request: the varint after the flags. -/
def wireIdFlow (m : List Nat) : Nat := (read7BitLongValue (read8 m).2).1

/-- The stage of a request as written on the wire: the second varint. -/
def wireStage (m : List Nat) : Nat :=
  (read7BitLongValue (read7BitLongValue (read8 m).2).2).1

/-- The deltaNAck of a request as written on the wire: the third varint. -/
def wireDeltaNAck (m : List Nat) : Nat :=
  (read7BitLongValue (read7BitLongValue (read7BitLongValue (read8 m).2).2).2).1

/-- What follows flags, flow id, stage and deltaNAck in a request. -/
def wireHeader (m : List Nat) : List Nat :=
  (read7BitLongValue (read7BitLongValue (read7BitLongValue (read8 m).2).2).2).2

/-- The signature of the header part of a request: a length byte, then that
many bytes. -/
def wireSignature (m : List Nat) : List Nat :=
  (readString (read8 (wireHeader m)).1 (read8 (wireHeader m)).2).1

/-- The flow, stage and deltaNAck of a call to `RTMFPFlow::receive`. -/
def Event.receiveArgs : Event → Option (Nat × Nat × Nat)
  | Event.flowReceive id stage deltaNAck _ _ => some (id, stage, deltaNAck)
  | _ => none

/-- The flow a sub-message was dispatched to, if any. -/
def Visit.dispatched (v : Visit) : Option Nat :=
  ((v.calls.filterMap Event.receiveArgs).head?).map (fun a => a.1)

/-! ## Media packets and `FlowManager::readAsync` -/

namespace BinaryWriter

/-- Modelled from the spec: `BinaryWriter::write24(value)`, the 3 low bytes of the value
in network order. -/
def write24 (value : Nat) : List Nat :=
  [value / 65536 % 256, value / 256 % 256, value % 256]

/-- Modelled from the spec: `BinaryWriter::write32(value)`, the 4 bytes of a 32-bit
unsigned value in network order. -/
def write32 (value : Nat) : List Nat :=
  [value / 16777216 % 256, value / 65536 % 256, value / 256 % 256, value % 256]

end BinaryWriter

/-- The buffer built by `RTMFPMediaPacket::RTMFPMediaPacket(poolBuffers, data,
size, time, audio)`, with `size` the length of `data`: the buffer has
`size + 15` bytes (a 32-bit unsigned sum) and the writer fills it with the type
byte, the size and the time on 3 bytes each, 4 zero bytes, the payload and the
footer `11 + size` on 4 bytes. -/
def RTMFPMediaPacket (data : List Nat) (time : Nat) (audio : Bool) : List Nat :=
  ((if audio then [0x08] else [0x09]) ++ BinaryWriter.write24 data.length
    ++ BinaryWriter.write24 time ++ BinaryWriter.write32 0 ++ data
    ++ BinaryWriter.write32 ((11 + data.length) % 2 ^ 32)).take ((data.length + 15) % 2 ^ 32)

/-- The FLV tag read back from the bytes of a media packet, by the layout of an
FLV tag (type, size of the payload on 3 bytes, time on 3 bytes, 4 bytes that
are not looked at, payload, size of the tag on 4 bytes): whether it is audio,
the time and the payload; none when the bytes are not one whole tag with its
footer. -/
def parseFlvTag (bytes : List Nat) : Option (Bool × Nat × List Nat) :=
  match bytes with
  | type :: s2 :: s1 :: s0 :: t2 :: t1 :: t0 :: _ :: _ :: _ :: _ :: rest =>
    if (type = 0x08 ∨ type = 0x09)
        ∧ rest.length = s2 * 65536 + s1 * 256 + s0 + 4
        ∧ rest.drop (s2 * 65536 + s1 * 256 + s0)
            = BinaryWriter.write32 (11 + (s2 * 65536 + s1 * 256 + s0)) then
      some (decide (type = 0x08), t2 * 65536 + t1 * 256 + t0,
        rest.take (s2 * 65536 + s1 * 256 + s0))
    else none
  | _ => none

/-- The array `FlowManager::_FlvHeader`. -/
def _FlvHeader : List Nat :=
  [0x46, 0x4C, 0x56, 0x01, 0x05, 0x00, 0x00, 0x00, 0x09, 0x00, 0x00, 0x00, 0x00]

/-- The members of `FlowManager` used by `readAsync` and `onMedia`. -/
structure Media where
  /-- Member `_firstRead`. -/
  _firstRead : Bool
  /-- Member `_mediaPackets`: the queue of packet buffers of each peer id. -/
  _mediaPackets : List (List Nat × List (List Nat))
  /-- Member `_firstMedia`. -/
  _firstMedia : Bool
  /-- Member `_timeStart`. -/
  _timeStart : Nat
  /-- Member `_codecInfosRead`. -/
  _codecInfosRead : Bool
  /-- Member `_pOnMedia` is set. -/
  _pOnMedia : Bool
  deriving DecidableEq, Repr

namespace Media

/-- The queue of a peer id, empty when the map has no entry for it. -/
def queue (m : Media) (peerId : List Nat) : List (List Nat) :=
  (m._mediaPackets.lookup peerId).getD []

/-- The map after `_mediaPackets[peerId]`, which adds an empty queue for a new
key. -/
def touch (m : Media) (peerId : List Nat) : Media :=
  if (m._mediaPackets.lookup peerId).isSome then m
  else { m with _mediaPackets := m._mediaPackets ++ [(peerId, [])] }

/-- The map with the queue of `peerId`, which has an entry, replaced. -/
def setQueue (m : Media) (peerId : List Nat) (q : List (List Nat)) : Media :=
  { m with _mediaPackets :=
      m._mediaPackets.map (fun p => if p.1 = peerId then (p.1, q) else p) }

end Media

/-- The call `memcpy(buf + offset, src, src.size())` on the caller's buffer. -/
def memcpy (buf : List Nat) (offset : Nat) (src : List Nat) : List Nat :=
  buf.take offset ++ src ++ buf.drop (offset + src.length)

/-- What the copy loop of `readAsync` leaves. -/
structure Copied where
  /-- Whether the loop ended without its `return false`. -/
  ok : Bool
  /-- The value of `nbRead`. -/
  nbRead : Nat
  /-- The caller's buffer. -/
  buf : List Nat
  /-- The queue. -/
  queue : List (List Nat)
  deriving DecidableEq, Repr

/-- The loop `while (!queue.empty() && (nbRead < size))` of `readAsync`; each
pass pops the front of the queue. -/
def readLoop (size : Nat) : List (List Nat) → Nat → List Nat → Copied
  | [], nbRead, buf => ⟨true, nbRead, buf, []⟩
  | packet :: queue, nbRead, buf =>
    if nbRead < size then
      if packet.length > (size + 2 ^ 32 - nbRead) % 2 ^ 32 then
        ⟨false, nbRead, buf, packet :: queue⟩
      else readLoop size queue (nbRead + packet.length) (memcpy buf nbRead packet)
    else ⟨true, nbRead, buf, packet :: queue⟩

/-- What `readAsync` leaves. -/
structure ReadResult where
  /-- The value returned. -/
  ok : Bool
  /-- The value of `nbRead`. -/
  nbRead : Nat
  /-- The caller's buffer. -/
  buf : List Nat
  /-- The members afterwards. -/
  media : Media
  deriving DecidableEq, Repr

/-- Whether `readAsync` writes the FLV header: `_firstRead && size > sizeof(_FlvHeader)`. -/
def writesHeader (m : Media) (size : Nat) : Bool :=
  m._firstRead && decide (size > _FlvHeader.length)

/-- `FlowManager::readAsync(peerId, buf, size, nbRead)` in a session of status
`status`; `buf` is the content of the caller's buffer. -/
def readAsync (status : Status) (m : Media) (peerId : List Nat) (buf : List Nat) (size : Nat) :
    ReadResult :=
  if status ≠ Status.CONNECTED then ⟨true, 0, buf, m⟩
  else if (m.queue peerId).isEmpty then ⟨true, 0, buf, m.touch peerId⟩
  else
    let r :=
      if writesHeader m size then
        readLoop (size - _FlvHeader.length) (m.queue peerId) _FlvHeader.length
          (memcpy buf 0 _FlvHeader)
      else readLoop size (m.queue peerId) 0 buf
    ⟨r.ok, r.nbRead, r.buf,
      ({ m with _firstRead := m._firstRead && !writesHeader m size }).setQueue peerId r.queue⟩

/-! ## A concrete session for evaluating the model -/

/-- Collaborators for evaluation: a flow counts the messages it received and
adds 100 at each commit, it is consumed from 1000 on and critical from 2000 on;
there is no special flow; the main stream has the streams 0 and 1; the
virtual handlers leave the session as it is, `handleProtocolFailed` closes it. -/
def sampleEnv : Env Nat where
  MESSAGE_HEADER := 0x80
  flowReceive := fun f _ _ _ _ => f + 1
  flowCommit := fun f => f + 100
  flowConsumed := fun f => decide (1000 ≤ f)
  flowCritical := fun f => decide (2000 ≤ f)
  createSpecialFlow := fun _ _ => none
  getStream := fun n => if n ≤ 1 then some n else none
  newFlow := fun _ _ _ => 0
  handleP2PAddressExchange := fun _ s => s
  handleProtocolFailed := fun s => s.close.1
  now := 7

/-- A connected session without flows, with one connection (address 1). -/
def sampleSession : FlowManager Nat :=
  ⟨Status.CONNECTED, [], none, some 1, [1], true, 0⟩

/-- The signature is accepted for a new flow: by `createSpecialFlow`, or as a
signature that begins with `00 54 43 04` and names, by the varint that
follows, a stream the main stream has. -/
def Env.accepts {F : Type} (E : Env F) (id : Nat) (signature : List Nat) : Prop :=
  (E.createSpecialFlow id signature).isSome = true
  ∨ (signature.length > 3 ∧ signature.take 4 = [0x00, 0x54, 0x43, 0x04]
      ∧ (E.getStream (read7BitValue (signature.drop 4)).1).isSome = true)

/-! ## Properties of traces -/

/-- The flow a `0x11` sub-message met in this state is dispatched to: the
flow `pFlow` points to, unless the status is FAILED. -/
def current {F : Type} (s : FlowManager F) (l : Locals) : Option Nat :=
  if s.status = Status.FAILED then none else l.pFlow

/-- Every `0x11` sub-message of the trace is dispatched to the flow of the
request or continuation right before it, `prev` standing for what was
dispatched before the trace begins, and to none when another kind of
sub-message comes before it. -/
def Reuses : Option Nat → List Visit → Prop
  | _, [] => True
  | prev, v :: vs =>
    (v.type = 0x11 → v.dispatched = prev)
    ∧ Reuses (if v.type = 0x10 ∨ v.type = 0x11 then v.dispatched else none) vs

/-! ## The receive side of a flow, from the specification -/

/-- Modelled from the spec: the receive side of a flow (class `RTMFPFlow`, whose code is
not among the sources): the "expected next receive stage" and the
"out-of-order buffer of (stage → fragment)", a fragment being the flags and
the payload.  `delivered` is ghost: what was handed to the stream handler,
oldest first. -/
structure RTMFPFlow where
  /-- The expected next receive stage. -/
  nextExpected : Nat
  /-- The out-of-order buffer. -/
  buffer : List (Nat × Nat × List Nat)
  /-- Ghost: the stages handed to the stream handler, with their fragments. -/
  delivered : List (Nat × Nat × List Nat)
  deriving DecidableEq, Repr

namespace RTMFPFlow

/-- Modelled from the spec: a new flow, which expects the stage 1 (the delivered stages
are `1, 2, 3, …`). -/
def create : RTMFPFlow := ⟨1, [], []⟩

/-- Modelled from the spec: "contiguous stages from next_expected are drained into the
stream handler in order"; `fuel` bounds the number of stages drained. -/
def drain : Nat → RTMFPFlow → RTMFPFlow
  | 0, f => f
  | fuel + 1, f =>
    match f.buffer.lookup f.nextExpected with
    | some fragment =>
      drain fuel ⟨f.nextExpected + 1, f.buffer.filter (fun p => p.1 ≠ f.nextExpected),
        f.delivered ++ [(f.nextExpected, fragment)]⟩
    | none => f

/-- Modelled from the spec: `RTMFPFlow::receive(stage, deltaNAck, message, flags)`:
"messages are buffered by stage; contiguous stages from next_expected are
drained"; a stage that was delivered or is buffered already is a duplicate. -/
def receive (f : RTMFPFlow) (stage _deltaNAck : Nat) (message : List Nat) (flags : Nat) :
    RTMFPFlow :=
  if stage < f.nextExpected then f
  else if (f.buffer.lookup stage).isSome then f
  else drain (f.buffer.length + 1) { f with buffer := (stage, flags, message) :: f.buffer }

/-- The stages handed to the stream handler so far are `1, 2, …, nextExpected - 1`. -/
def Contiguous (f : RTMFPFlow) : Prop :=
  1 ≤ f.nextExpected ∧ f.delivered.map (fun p => p.1) = List.range' 1 (f.nextExpected - 1)

end RTMFPFlow

/-- Collaborators for evaluating sessions whose flows are the flows of the
specification: a commit leaves the receive side as it is, no flow is ever
consumed, the main stream has the streams 0 and 1. -/
def flowEnv : Env RTMFPFlow where
  MESSAGE_HEADER := 0x80
  flowReceive := RTMFPFlow.receive
  flowCommit := fun f => f
  flowConsumed := fun _ => false
  flowCritical := fun _ => false
  createSpecialFlow := fun _ _ => none
  getStream := fun n => if n ≤ 1 then some n else none
  newFlow := fun _ _ _ => RTMFPFlow.create
  handleP2PAddressExchange := fun _ s => s
  handleProtocolFailed := fun s => s.close.1
  now := 7

/-! ## The operations on a session -/

/-- Modelled from the spec: the rank of a status in the order
STOPPED < HANDSHAKE < CONNECTED < NEAR_CLOSED < FAILED. -/
def Status.severity : Status → Nat
  | Status.STOPPED => 0
  | Status.HANDSHAKE => 1
  | Status.CONNECTED => 2
  | Status.NEAR_CLOSED => 3
  | Status.FAILED => 4

/-- The members of `receive`, `createFlow` and `close` after the constructor
`FlowManager::FlowManager`: the status is STOPPED, the main stream is set, no
flow and no connection yet; `now` is the time of construction. -/
def FlowManager.create {F : Type} (now : Nat) : FlowManager F :=
  ⟨Status.STOPPED, [], none, none, [], true, now⟩

/-- The members of `readAsync` and `onMedia` after the constructor:
`_firstRead(true)`, `_firstMedia(true)`, `_timeStart(0)`,
`_codecInfosRead(false)`, no media packet; `pOnMedia` tells whether a media
callback was given. -/
def Media.create (pOnMedia : Bool) : Media :=
  ⟨true, [], true, 0, false, pOnMedia⟩

/-- A `FlowManager` object: the members of the receive side and those of the
media side. -/
structure Session (F : Type) where
  /-- The members `receive`, `createFlow` and `close` use. -/
  core : FlowManager F
  /-- The members `readAsync` and `onMedia` use. -/
  media : Media

/-- A call of one of the operations of `FlowManager.cpp` on a session. -/
inductive Op where
  /-- Call `receive(reader)` on a packet, with the memory behind it. -/
  | receive (packet beyond : List Nat)
  /-- Call `readAsync(peerId, buf, size, nbRead)`. -/
  | readAsync (peerId buf : List Nat) (size : Nat)
  /-- Call `createFlow(id, signature)`. -/
  | createFlow (id : Nat) (signature : List Nat)
  /-- Call `close()`. -/
  | close
  deriving DecidableEq, Repr

namespace Session

variable {F : Type}

/-- The object the constructor builds. -/
def create (now : Nat) (pOnMedia : Bool) : Session F :=
  ⟨FlowManager.create now, Media.create pOnMedia⟩

/-- The session after one operation. -/
def apply (E : Env F) (s : Session F) : Op → Session F
  | Op.receive packet beyond => { s with core := (s.core.receive E packet beyond).state }
  | Op.readAsync peerId buf size =>
    { s with media := (Librtmfp.readAsync s.core.status s.media peerId buf size).media }
  | Op.createFlow id signature => { s with core := (s.core.createFlow E id signature).2 }
  | Op.close => { s with core := s.core.close.1 }

end Session

/-! ## Diffie-Hellman -/

/-- The array `DH1024p` of `DiffieHellman.cpp`. -/
def DH1024p : List Nat :=
  [0xFF, 0xFF, 0xFF, 0xFF, 0xFF, 0xFF, 0xFF, 0xFF,
   0xC9, 0x0F, 0xDA, 0xA2, 0x21, 0x68, 0xC2, 0x34,
   0xC4, 0xC6, 0x62, 0x8B, 0x80, 0xDC, 0x1C, 0xD1,
   0x29, 0x02, 0x4E, 0x08, 0x8A, 0x67, 0xCC, 0x74,
   0x02, 0x0B, 0xBE, 0xA6, 0x3B, 0x13, 0x9B, 0x22,
   0x51, 0x4A, 0x08, 0x79, 0x8E, 0x34, 0x04, 0xDD,
   0xEF, 0x95, 0x19, 0xB3, 0xCD, 0x3A, 0x43, 0x1B,
   0x30, 0x2B, 0x0A, 0x6D, 0xF2, 0x5F, 0x14, 0x37,
   0x4F, 0xE1, 0x35, 0x6D, 0x6D, 0x51, 0xC2, 0x45,
   0xE4, 0x85, 0xB5, 0x76, 0x62, 0x5E, 0x7E, 0xC6,
   0xF4, 0x4C, 0x42, 0xE9, 0xA6, 0x37, 0xED, 0x6B,
   0x0B, 0xFF, 0x5C, 0xB6, 0xF4, 0x06, 0xB7, 0xED,
   0xEE, 0x38, 0x6B, 0xFB, 0x5A, 0x89, 0x9F, 0xA5,
   0xAE, 0x9F, 0x24, 0x11, 0x7C, 0x4B, 0x1F, 0xE6,
   0x49, 0x28, 0x66, 0x51, 0xEC, 0xE6, 0x53, 0x81,
   0xFF, 0xFF, 0xFF, 0xFF, 0xFF, 0xFF, 0xFF, 0xFF]

/-- Modelled from the spec: the call `BN_bin2bn(s, len, ret)` of OpenSSL, the
first `len` bytes of `s` read as a big-endian unsigned integer. -/
def BN_bin2bn (s : List Nat) (len : Nat) : Nat :=
  (s.take len).foldl (fun acc b => acc * 256 + b) 0

/-- Modelled from the spec: the call `BN_num_bytes(a)` of OpenSSL, the number of
bytes of the shortest big-endian form of `a`. -/
def BN_num_bytes (a : Nat) : Nat :=
  (Nat.size a + 7) / 8

/-- The structure `DH` of OpenSSL, as far as `DiffieHellman.cpp` uses it. -/
structure DH where
  /-- The modulus. -/
  p : Nat
  /-- The generator. -/
  g : Nat
  /-- The public key. -/
  pub_key : Nat
  /-- The private key. -/
  priv_key : Nat
  deriving DecidableEq, Repr

/-- The members of `DiffieHellman`. -/
structure DiffieHellman where
  /-- Member `_pDH`. -/
  _pDH : Option DH
  /-- Member `_publicKeySize`. -/
  _publicKeySize : Nat
  /-- Member `_privateKeySize`. -/
  _privateKeySize : Nat
  deriving DecidableEq, Repr

namespace DiffieHellman

/-- Modelled from the spec: the constant `DiffieHellman::SIZE` of the header
`DiffieHellman.h`, the size of the 1024-bit group in bytes. -/
def SIZE : Nat := 128

/-- Function `DiffieHellman::computeKeys(ex)`: a fresh `DH` with the generator 2
and the modulus read from `DH1024p`, then the key pair.  The call
`DH_generate_key` is of OpenSSL: `generate p g` stands for it, with the public
and the private key it sets, or none when it fails.  Returns the value
returned and the members afterwards. -/
def computeKeys (generate : Nat → Nat → Option (Nat × Nat)) (d : DiffieHellman) :
    Bool × DiffieHellman :=
  match generate (BN_bin2bn DH1024p SIZE) 2 with
  | some keys =>
    (true, ⟨some ⟨BN_bin2bn DH1024p SIZE, 2, keys.1, keys.2⟩, BN_num_bytes keys.1,
      BN_num_bytes keys.2⟩)
  | none => (false, { d with _pDH := none })

end DiffieHellman

/-- A FlowManager with a 15-byte packet queued for each of two media ids. -/
def twoPeers : Media :=
  ⟨true, [([1], [RTMFPMediaPacket [] 0 true]), ([2], [RTMFPMediaPacket [] 0 false])],
    false, 0, true, false⟩

/-! ## Fixed-point bounds on the arctangent series

The terms `1 / ((2 i + 1) q ^ (2 i + 1))` of the series of `arctan (1 / q)`,
scaled by `S` and rounded down; they give the digits of pi that the prime
`DH1024p` is made of. -/

/-- The term of rank `i` of the series of `arctan (1 / q)`, times `S`, rounded
down. -/
def arctanTerm (S q i : Nat) : Nat :=
  S / ((2 * i + 1) * q ^ (2 * i + 1))

/-- The sum of the rounded terms of even rank below `2 m`. -/
def evenTerms (S q : Nat) : Nat → Nat
  | 0 => 0
  | m + 1 => evenTerms S q m + arctanTerm S q (2 * m)

/-- The sum of the rounded terms of odd rank below `2 m`. -/
def oddTerms (S q : Nat) : Nat → Nat
  | 0 => 0
  | m + 1 => oddTerms S q m + arctanTerm S q (2 * m + 1)

/-- The integer `floor (2 ^ 894 * pi)`, whose hexadecimal digits are those of pi. -/
def piDigits : Nat :=
  0xc90fdaa22168c234c4c6628b80dc1cd129024e088a67cc74020bbea63b139b22514a08798e3404ddef9519b3cd3a431b302b0a6df25f14374fe1356d6d51c245e485b576625e7ec6f44c42e9a637ed6b0bff5cb6f406b7edee386bfb5a899fa5ae9f24117c4b1fe649286651ece45b3d

/-! ## The shared secret -/

/-- Modular exponentiation by squaring, `base ^ exp % p`; `fuel` bounds the
number of bits of `exp`. -/
def powMod (p : Nat) : Nat → Nat → Nat → Nat
  | 0, _, _ => 1 % p
  | fuel + 1, base, exp =>
    if exp = 0 then 1 % p
    else if exp % 2 = 1 then base * powMod p fuel (base * base % p) (exp / 2) % p
    else powMod p fuel (base * base % p) (exp / 2)

/-- The bytes of `a` from the most significant one on, none for 0; `fuel`
bounds their number. -/
def bn2binLoop : Nat → Nat → List Nat
  | 0, _ => []
  | fuel + 1, a => if a = 0 then [] else bn2binLoop fuel (a / 256) ++ [a % 256]

/-- Modelled from the spec: the call `BN_bn2bin(a, to)` of OpenSSL, which writes
the shortest big-endian form of `a` and returns its number of bytes. -/
def BN_bn2bin (a : Nat) : List Nat :=
  bn2binLoop a a

/-- Modelled from the spec: the call `DH_compute_key(key, pub_key, dh)` of
OpenSSL.  It returns -1 when it refuses the public key (`refuses`: which keys
are refused depends on the version of the library); otherwise it writes the
shared secret `pub_key ^ priv_key mod p` with `BN_bn2bin` and returns the
number of bytes written.  The result is the value returned and the bytes
written to `key`. -/
def DH_compute_key (refuses : Nat → Bool) (pub_key : Nat) (dh : DH) : Int × List Nat :=
  if refuses pub_key then (-1, [])
  else
    (((BN_bn2bin (powMod dh.p dh.priv_key pub_key dh.priv_key)).length : Nat),
      BN_bn2bin (powMod dh.p dh.priv_key pub_key dh.priv_key))

/-- What `computeSecret` leaves. -/
structure Secret where
  /-- The value returned, of type `UInt8`. -/
  ret : Nat
  /-- Whether the exception `ex` was set during the call. -/
  ex : Bool
  /-- The bytes written to `sharedSecret`. -/
  sharedSecret : List Nat
  /-- The members afterwards. -/
  self : DiffieHellman
  deriving DecidableEq, Repr

namespace DiffieHellman

/-- Function `DiffieHellman::computeSecret(ex, farPubKey, farPubKeySize,
sharedSecret)`.  When there is no key pair `computeKeys` is called, which
leaves none exactly when it returns false (and has then set the exception):
this is the `return 0` of the first line.  Then the far public key is read
with `BN_bin2bn`, `DH_compute_key` is called, a size `<= 0` sets the exception
and returns 0, and any other size is returned, converted to `UInt8`. -/
def computeSecret (generate : Nat → Nat → Option (Nat × Nat)) (refuses : Nat → Bool)
    (d : DiffieHellman) (farPubKey : List Nat) (farPubKeySize : Nat) : Secret :=
  let d1 := if d._pDH.isSome then d else (d.computeKeys generate).2
  match d1._pDH with
  | none => ⟨0, true, [], d1⟩
  | some dh =>
    let r := DH_compute_key refuses (BN_bin2bn farPubKey farPubKeySize) dh
    if r.1 ≤ 0 then ⟨0, true, r.2, d1⟩
    else ⟨r.1.toNat % 256, false, r.2, d1⟩

end DiffieHellman

/-! ## The room left in the pending sender -/

/-- Function `FlowManager::availableToWrite()` of `FlowManager.h`,
`RTMFP_MAX_PACKET_SIZE - (_pSender ? _pSender->packet.size() :
RTMFP_HEADER_SIZE)`, a subtraction of 32-bit unsigned values.  The two
constants are of `RTMFP.h` and are parameters here; `_pSender` is the size of
the packet of the pending sender, if there is one. -/
def availableToWrite (RTMFP_MAX_PACKET_SIZE RTMFP_HEADER_SIZE : Nat) (_pSender : Option Nat) :
    Nat :=
  (RTMFP_MAX_PACKET_SIZE + 2 ^ 32
    - (match _pSender with
       | some size => size
       | none => RTMFP_HEADER_SIZE)) % 2 ^ 32

/-! ## Ghost: the subtractions of `readAsync` -/

/-- Ghost: the operands `(size, nbRead)` of every subtraction `size - nbRead`
the loop of `readAsync` evaluates, in order; the control flow is that of
`readLoop`. -/
def readLoopSubs (size : Nat) : List (List Nat) → Nat → List (Nat × Nat)
  | [], _ => []
  | packet :: queue, nbRead =>
    if nbRead < size then
      (size, nbRead) ::
        (if packet.length > (size + 2 ^ 32 - nbRead) % 2 ^ 32 then []
         else readLoopSubs size queue (nbRead + packet.length))
    else []

/-- Ghost: the operands of the subtractions `size - nbRead` of one call of
`readAsync`; the control flow is that of `readAsync`. -/
def readAsyncSubs (status : Status) (m : Media) (peerId : List Nat) (size : Nat) :
    List (Nat × Nat) :=
  if status ≠ Status.CONNECTED then []
  else if (m.queue peerId).isEmpty then []
  else if writesHeader m size then
    readLoopSubs (size - _FlvHeader.length) (m.queue peerId) _FlvHeader.length
  else readLoopSubs size (m.queue peerId) 0

/-- A sequence of calls `readAsync(peerId, buf, size, nbRead)` for one peer id
on a session that stays CONNECTED, each with its buffer and size: the bytes
each call returns (the first `nbRead` bytes of its buffer), and the members
after the last call. -/
def readMany (m : Media) (peerId : List Nat) : List (List Nat × Nat) → List (List Nat) × Media
  | [] => ([], m)
  | call :: calls =>
    ((readAsync Status.CONNECTED m peerId call.1 call.2).buf.take
        (readAsync Status.CONNECTED m peerId call.1 call.2).nbRead
      :: (readMany (readAsync Status.CONNECTED m peerId call.1 call.2).media peerId calls).1,
     (readMany (readAsync Status.CONNECTED m peerId call.1 call.2).media peerId calls).2)

/-- Whether a call is made on a flow: `receive`, `commit` or its deletion. -/
def Event.onFlow : Event → Bool
  | Event.flowReceive _ _ _ _ _ => true
  | Event.flowCommit _ => true
  | Event.flowDelete _ => true
  | _ => false

/-! ## The media handler `onMedia` -/

/-- A media packet as `onMedia` gets it, and as it hands it over: the peer id,
the stream name, the time, the bytes of the packet and whether it is audio.
(The argument `lostRate` is not used.) -/
structure MediaInput where
  /-- The argument `peerId`. -/
  peerId : List Nat
  /-- The argument `stream`. -/
  stream : List Nat
  /-- The argument `time`, a `UInt32`. -/
  time : Nat
  /-- The bytes `packet.current()`, `packet.available()` of them. -/
  data : List Nat
  /-- The argument `audio`. -/
  audio : Bool
  deriving DecidableEq, Repr

namespace Media

/-- The statement `_mediaPackets[peerId].emplace_back(packet)`. -/
def push (m : Media) (peerId : List Nat) (packet : List Nat) : Media :=
  (m.touch peerId).setQueue peerId ((m.touch peerId).queue peerId ++ [packet])

/-- The end of `onMedia`: the packet is handed over with the time
`time - _timeStart` (a 32-bit unsigned subtraction), to the callback `_pOnMedia`
when there is one (synchronous read), else to the queue of the peer as an
`RTMFPMediaPacket` (asynchronous read).  The second component is what is
handed over. -/
def deliver (m : Media) (i : MediaInput) : Media × Option MediaInput :=
  if m._pOnMedia then
    (m, some { i with time := (i.time + 2 ^ 32 - m._timeStart) % 2 ^ 32 })
  else
    (m.push i.peerId
        (RTMFPMediaPacket i.data ((i.time + 2 ^ 32 - m._timeStart) % 2 ^ 32) i.audio),
      some { i with time := (i.time + 2 ^ 32 - m._timeStart) % 2 ^ 32 })

/-- The handler `onMedia` of the constructor of `FlowManager`.  The function
`RTMFP::IsH264CodecInfos` is of `RTMFP.h` and is a parameter.  Returns the
members afterwards and what is handed over, if anything. -/
def onMedia (IsH264CodecInfos : List Nat → Bool) (m : Media) (i : MediaInput) :
    Media × Option MediaInput :=
  if m._codecInfosRead = false ∧ ¬ (i.audio = false ∧ IsH264CodecInfos i.data = true) then
    (m, none)
  else if m._firstMedia then
    deliver { m with _codecInfosRead := true, _firstMedia := false, _timeStart := i.time } i
  else if i.time < m._timeStart then
    ({ m with _codecInfosRead := true }, none)
  else deliver { m with _codecInfosRead := true } i

/-- A sequence of calls of `onMedia`: the members afterwards and the packets
handed over, in order. -/
def onMediaMany (IsH264CodecInfos : List Nat → Bool) :
    Media → List MediaInput → Media × List MediaInput
  | m, [] => (m, [])
  | m, i :: rest =>
    ((onMediaMany IsH264CodecInfos (onMedia IsH264CodecInfos m i).1 rest).1,
      (onMedia IsH264CodecInfos m i).2.toList
        ++ (onMediaMany IsH264CodecInfos (onMedia IsH264CodecInfos m i).1 rest).2)

end Media

/-! ## `GroupStream::process` -/

/-- Modelled from the spec: `BinaryReader::read32()`, four bytes in network
order; bytes missing at the end of the reader count as 0. -/
def BinaryReader.read32 (r : List Nat) : Nat × List Nat :=
  ((BinaryReader.read16 r).1 * 65536 + (BinaryReader.read16 (BinaryReader.read16 r).2).1,
    (BinaryReader.read16 (BinaryReader.read16 r).2).2)

/-- The enumeration `GroupStream::ContentType`; `unknown` stands for every
byte that is none of its values. -/
inductive ContentType where
  /-- Value `GROUP_MEMBER`. -/
  | GROUP_MEMBER
  /-- Value `GROUP_INIT`. -/
  | GROUP_INIT
  /-- Value `GROUP_DATA`. -/
  | GROUP_DATA
  /-- Value `GROUP_NKNOWN2`. -/
  | GROUP_NKNOWN2
  /-- Value `GROUP_REPORT`. -/
  | GROUP_REPORT
  /-- Value `GROUP_PLAY_PUSH`. -/
  | GROUP_PLAY_PUSH
  /-- Value `GROUP_PLAY_PULL`. -/
  | GROUP_PLAY_PULL
  /-- Value `GROUP_INFOS`. -/
  | GROUP_INFOS
  /-- Value `GROUP_FRAGMENTS_MAP`. -/
  | GROUP_FRAGMENTS_MAP
  /-- Value `GROUP_MEDIA_DATA`. -/
  | GROUP_MEDIA_DATA
  /-- Value `GROUP_MEDIA_START`. -/
  | GROUP_MEDIA_START
  /-- Value `GROUP_MEDIA_NEXT`. -/
  | GROUP_MEDIA_NEXT
  /-- Value `GROUP_MEDIA_END`. -/
  | GROUP_MEDIA_END
  /-- No value of the enumeration. -/
  | unknown
  deriving DecidableEq, Repr

/-- The events `GroupStream::process` raises, with the arguments read from the
packet, and its call of `FlashStream::process`. -/
inductive GroupEvent where
  /-- Event `OnNewPeer::raise(_groupId, id)`, `id` naming the member read. -/
  | OnNewPeer (member : List Nat)
  /-- Event `OnGroupHandshake::raise(netGroupId, encryptKey, peerId)`. -/
  | OnGroupHandshake (netGroupId encryptKey peerId : List Nat)
  /-- Event `OnGroupBegin::raise(_peerId, writer)`. -/
  | OnGroupBegin
  /-- Event `OnGroupReport::raise(_peerId, packet, writer)`. -/
  | OnGroupReport (packet : List Nat)
  /-- Event `OnGroupPlayPush::raise(_peerId, packet, writer)`. -/
  | OnGroupPlayPush (packet : List Nat)
  /-- Event `OnGroupPlayPull::raise(_peerId, packet, writer)`. -/
  | OnGroupPlayPull (packet : List Nat)
  /-- Event `OnGroupMedia::raise(_peerId, streamName, data, writer)`. -/
  | OnGroupMedia (streamName data : List Nat)
  /-- Event `OnFragmentsMap::raise(_peerId, packet, writer)`. -/
  | OnFragmentsMap (packet : List Nat)
  /-- Event `OnFragment::raise(_peerId, type, counter, splitNumber, mediaType,
  time, packet, lostRate)`. -/
  | OnFragment (type : ContentType) (counter splitNumber mediaType time : Nat)
      (packet : List Nat)
  /-- The call `FlashStream::process(packet, writer, lostRate)`. -/
  | flashProcess (packet : List Nat)
  deriving DecidableEq, Repr

/-- What `GroupStream::process` takes from code that is not in
`GroupStream.cpp`. -/
structure GroupEnv where
  /-- The value of `GroupStream::ContentType` a byte stands for (`GroupStream.h`). -/
  typeOf : Nat → ContentType
  /-- The constant `PEER_ID_SIZE`. -/
  PEER_ID_SIZE : Nat
  /-- The constant `AMF::AUDIO`. -/
  AUDIO : Nat
  /-- The constant `AMF::VIDEO`. -/
  VIDEO : Nat
  /-- The value `FlashStream::process` returns. -/
  flashProcess : List Nat → Bool

namespace GroupStream

open BinaryReader

/-- The loop `while (size == 1) { packet.next(); size = packet.read8(); }` of
the case `GROUP_REPORT`; `fuel` bounds the number of passes. -/
def skipOnes : Nat → Nat → List Nat → Nat × List Nat
  | 0, size, r => (size, r)
  | fuel + 1, size, r =>
    if size = 1 then skipOnes fuel (read8 (next 1 r)).1 (read8 (next 1 r)).2 else (size, r)

/-- The case `GROUP_INIT` of the switch: the events raised. -/
def groupInit (G : GroupEnv) (r : List Nat) : List GroupEvent :=
  if (read16 r).1 ≠ 0x4100 then []
  else
    let netGroupId := readString 0x40 (read16 r).2
    if (read16 netGroupId.2).1 ≠ 0x2101 then []
    else
      let encryptKey := readString 0x20 (read16 netGroupId.2).2
      if (read32 encryptKey.2).1 ≠ 0x2303210F then []
      else
        [GroupEvent.OnGroupHandshake netGroupId.1 encryptKey.1
          (readString G.PEER_ID_SIZE (read32 encryptKey.2).2).1]

/-- The switch of `GroupStream::process` on the packet behind the type byte:
the events raised, or the call of `FlashStream::process` whose result is
returned at once (second component true). -/
def switch (G : GroupEnv) (type : ContentType) (r : List Nat) : List GroupEvent × Bool :=
  match type with
  | ContentType.GROUP_MEMBER => ([GroupEvent.OnNewPeer (readString G.PEER_ID_SIZE r).1], false)
  | ContentType.GROUP_INIT => (groupInit G r, false)
  | ContentType.GROUP_DATA => ([], false)
  | ContentType.GROUP_NKNOWN2 => ([GroupEvent.OnGroupBegin], false)
  | ContentType.GROUP_REPORT =>
    let s := skipOnes (r.length + 1) (read8 r).1 (read8 r).2
    if s.1 ≠ 8 then ([], false) else ([GroupEvent.OnGroupReport s.2], false)
  | ContentType.GROUP_PLAY_PUSH => ([GroupEvent.OnGroupPlayPush r], false)
  | ContentType.GROUP_PLAY_PULL => ([GroupEvent.OnGroupPlayPull r], false)
  | ContentType.GROUP_INFOS =>
    if (read8 r).1 > 1 then
      let name := readString ((read8 r).1 - 1) (next 1 (read8 r).2)
      ([GroupEvent.OnGroupMedia name.1 (readString (available name.2) name.2).1], false)
    else ([], false)
  | ContentType.GROUP_FRAGMENTS_MAP => ([GroupEvent.OnFragmentsMap r], false)
  | ContentType.GROUP_MEDIA_DATA =>
    let counter := read7BitLongValue r
    if (read8 counter.2).1 = G.AUDIO ∨ (read8 counter.2).1 = G.VIDEO then
      let time := read32 (read8 counter.2).2
      ([GroupEvent.OnFragment type counter.1 0 (read8 counter.2).1 time.1 time.2], false)
    else ([GroupEvent.flashProcess counter.2], true)
  | ContentType.GROUP_MEDIA_START =>
    let counter := read7BitLongValue r
    let splitNumber := read8 counter.2
    let mediaType := read8 splitNumber.2
    let time := read32 mediaType.2
    if mediaType.1 = G.AUDIO ∨ mediaType.1 = G.VIDEO then
      ([GroupEvent.OnFragment type counter.1 splitNumber.1 mediaType.1 time.1 time.2], false)
    else ([], false)
  | ContentType.GROUP_MEDIA_NEXT =>
    let counter := read7BitLongValue r
    let splitNumber := read8 counter.2
    ([GroupEvent.OnFragment type counter.1 splitNumber.1 0 0 splitNumber.2], false)
  | ContentType.GROUP_MEDIA_END =>
    let counter := read7BitLongValue r
    ([GroupEvent.OnFragment type counter.1 1 0 0 counter.2], false)
  | ContentType.unknown => ([], false)

/-- Function `GroupStream::process(packet, writer, lostRate)`: the value
returned and the events raised.  `closed` tells whether the state of the
writer is CLOSED when it is read at the end. -/
def process (G : GroupEnv) (closed : Bool) (packet : List Nat) : Bool × List GroupEvent :=
  let s := switch G (G.typeOf (read8 packet).1) (read8 packet).2
  if s.2 then (G.flashProcess (read7BitLongValue (read8 packet).2).2, s.1)
  else (!closed, s.1)

end GroupStream

/-- Whether an event is the group handshake. -/
def GroupEvent.isHandshake : GroupEvent → Bool
  | GroupEvent.OnGroupHandshake _ _ _ => true
  | _ => false

/-- A decoding of the types and the constants for evaluating the model. -/
def sampleGroup : GroupEnv where
  typeOf := fun b => if b = 0x0B then ContentType.GROUP_MEMBER
    else if b = 0x01 then ContentType.GROUP_INIT
    else if b = 0x0E then ContentType.GROUP_NKNOWN2
    else ContentType.unknown
  PEER_ID_SIZE := 0x20
  AUDIO := 0x08
  VIDEO := 0x09
  flashProcess := fun _ => true

/-! # Theorems -/

section Framing

variable {F : Type}

theorem read16_frame (n : Nat) (t : List Nat) :
    read16 ((n / 256) :: (n % 256) :: t) = (n, t) := by
  simp [read16, Nat.div_add_mod']

theorem nextType_nil : nextType [] = (0xFF, []) := by
  simp [nextType, available]

theorem nextType_cons (b : Nat) (t : List Nat) : nextType (b :: t) = (b, t) := by
  simp [nextType, available, read8]

theorem encodeChain_cons (m : Nat × List Nat) (ms : List (Nat × List Nat)) :
    encodeChain (m :: ms)
      = m.1 :: (m.2.length / 256) :: (m.2.length % 256) :: (m.2 ++ encodeChain ms) := by
  simp [encodeChain, encode]

theorem encodeChain_length (ms : List (Nat × List Nat)) :
    (encodeChain ms).length = (ms.map (fun m => 3 + m.2.length)).sum := by
  induction ms with
  | nil => simp [encodeChain]
  | cons m ms ih =>
    rw [encodeChain_cons]
    simp [ih]
    omega

/-- On a framed sub-message the body of the loop sees the declared size, the
payload as message, and goes on right behind the payload. -/
theorem body_frame (E : Env F) (beyond : List Nat) (type : Nat) (payload rest : List Nat)
    (s : FlowManager F) (l : Locals) :
    (FlowManager.body E beyond type
        ((payload.length / 256) :: (payload.length % 256) :: (payload ++ rest)) s l).size
      = payload.length
    ∧ (FlowManager.body E beyond type
        ((payload.length / 256) :: (payload.length % 256) :: (payload ++ rest)) s l).message
      = payload
    ∧ ((FlowManager.body E beyond type
        ((payload.length / 256) :: (payload.length % 256) :: (payload ++ rest)) s l).step.ctl
          = Ctl.next →
        (FlowManager.body E beyond type
          ((payload.length / 256) :: (payload.length % 256) :: (payload ++ rest)) s l).type
            = (nextType rest).1
        ∧ (FlowManager.body E beyond type
          ((payload.length / 256) :: (payload.length % 256) :: (payload ++ rest)) s l).reader
            = (nextType rest).2) := by
  simp only [FlowManager.body, read16_frame]
  have htake : List.take payload.length (payload ++ rest ++ beyond) = payload := by
    simp [List.append_assoc]
  have hdrop : next payload.length (payload ++ rest) = rest := by
    simp [next]
  refine ⟨?_, ?_, ?_⟩
  · split <;> rfl
  · split <;> simp [htake]
  · split
    · intro _; simp [hdrop]
    · rename_i h; intro h2; exact absurd h2 h

end Framing

section Fuel

variable {F : Type}

theorem read16_length_le (r : List Nat) : (read16 r).2.length ≤ r.length := by
  unfold read16
  split <;> simp
  omega

theorem nextType_fuel (r : List Nat) :
    (nextType r).1 = 0xFF ∨ (nextType r).2.length + 1 ≤ r.length := by
  cases r with
  | nil => left; simp [nextType, available]
  | cons b t => right; simp [nextType, available, read8]

theorem body_reader_fuel (E : Env F) (beyond : List Nat) (type : Nat) (reader : List Nat)
    (s : FlowManager F) (l : Locals)
    (h : (FlowManager.body E beyond type reader s l).step.ctl = Ctl.next) :
    (FlowManager.body E beyond type reader s l).type = 0xFF
    ∨ (FlowManager.body E beyond type reader s l).reader.length + 1 ≤ reader.length := by
  simp only [FlowManager.body] at h ⊢
  split
  · rcases nextType_fuel (next (read16 reader).1 (read16 reader).2) with h1 | h1
    · left; exact h1
    · right
      have := read16_length_le reader
      have h2 : (next (read16 reader).1 (read16 reader).2).length ≤ (read16 reader).2.length := by
        simp [next]
      simp only at h1 ⊢
      omega
  · rename_i hc
    rw [if_neg hc] at h
    exact absurd h hc

/-- The loop never runs out of fuel when it starts with more fuel than bytes. -/
theorem receiveLoop_exit_ne_outOfFuel (E : Env F) (beyond : List Nat) :
    ∀ (fuel type : Nat) (reader : List Nat) (s : FlowManager F) (l : Locals),
      0 < fuel → (type = 0xFF ∨ reader.length + 1 < fuel) →
      (FlowManager.receiveLoop E beyond fuel type reader s l).exit ≠ Exit.outOfFuel := by
  intro fuel
  induction fuel with
  | zero => intro type reader s l h; omega
  | succ n ih =>
    intro type reader s l _ h
    rw [FlowManager.receiveLoop]
    by_cases ht : type = 0xFF
    · simp [ht]
    · rw [if_neg ht]
      have hlen : reader.length + 1 < n + 1 := by
        rcases h with h | h
        · exact absurd h ht
        · exact h
      simp only
      cases hc : (FlowManager.body E beyond type reader s l).step.ctl with
      | ret => simp
      | fault => simp
      | next =>
        simp only
        apply ih
        · omega
        · rcases body_reader_fuel E beyond type reader s l hc with h1 | h1
          · left; exact h1
          · right; omega

/-- The function `receive` is total: its fuel is never used up. -/
theorem receive_exit_ne_outOfFuel (E : Env F) (packet beyond : List Nat) (s : FlowManager F) :
    (FlowManager.receive E packet beyond s).exit ≠ Exit.outOfFuel := by
  unfold FlowManager.receive
  apply receiveLoop_exit_ne_outOfFuel
  · omega
  · cases packet with
    | nil => left; simp [nextType, available]
    | cons b t => right; simp [nextType, available, read8]

end Fuel

section Chain

variable {F : Type}

theorem receiveLoop_chain (E : Env F) (beyond : List Nat) (subs : List (Nat × List Nat)) :
    (∀ m ∈ subs, m.1 ≠ 0xFF) →
    ∀ (fuel : Nat) (s : FlowManager F) (l : Locals),
      (FlowManager.receiveLoop E beyond fuel (nextType (encodeChain subs)).1
          (nextType (encodeChain subs)).2 s l).exit = Exit.finished →
      (FlowManager.receiveLoop E beyond fuel (nextType (encodeChain subs)).1
          (nextType (encodeChain subs)).2 s l).trace.map (fun v => (v.type, v.message, v.size))
        = subs.map (fun m => (m.1, m.2, m.2.length))
      ∧ (FlowManager.receiveLoop E beyond fuel (nextType (encodeChain subs)).1
          (nextType (encodeChain subs)).2 s l).reader = [] := by
  induction subs with
  | nil =>
    intro _ fuel s l h
    cases fuel with
    | zero => simp [FlowManager.receiveLoop] at h
    | succ n => simp [encodeChain, nextType_nil, FlowManager.receiveLoop]
  | cons m ms ih =>
    intro htype fuel s l h
    have hm : m.1 ≠ 0xFF := htype m (List.mem_cons_self _ _)
    have hms : ∀ m ∈ ms, m.1 ≠ 0xFF := fun x hx => htype x (List.mem_cons_of_mem _ hx)
    cases fuel with
    | zero => simp [FlowManager.receiveLoop] at h
    | succ n =>
      rw [encodeChain_cons, nextType_cons] at h ⊢
      simp only at h ⊢
      rw [FlowManager.receiveLoop, if_neg hm] at h ⊢
      obtain ⟨hsz, hmsg, hnext⟩ := body_frame E beyond m.1 m.2 (encodeChain ms) s l
      simp only at h ⊢
      cases hc : (FlowManager.body E beyond m.1
          ((m.2.length / 256) :: (m.2.length % 256) :: (m.2 ++ encodeChain ms)) s l).step.ctl with
      | ret => rw [hc] at h; simp at h
      | fault => rw [hc] at h; simp at h
      | next =>
        rw [hc] at h
        simp only at h ⊢
        obtain ⟨ht, hr⟩ := hnext hc
        rw [ht, hr] at h ⊢
        obtain ⟨h1, h2⟩ := ih hms n _ _ h
        refine ⟨?_, h2⟩
        simp [h1, hsz, hmsg]

/-- C1: on a packet that is a concatenation of framed sub-messages (type byte,
size of the payload on 2 bytes in network order, payload), none of type 0xFF,
which `receive` handles without stopping early, the loop body runs on exactly
these sub-messages, in order, each with its payload as message and the length
of its payload as size; the reader is exhausted at the end, and the sum of
`3 + size` over the visited sub-messages is the length of the packet. -/
theorem receive_visits_chain (E : Env F) (beyond : List Nat) (s : FlowManager F)
    (subs : List (Nat × List Nat))
    (htype : ∀ m ∈ subs, m.1 ≠ 0xFF)
    (hfin : (FlowManager.receive E (encodeChain subs) beyond s).exit = Exit.finished) :
    (FlowManager.receive E (encodeChain subs) beyond s).trace.map
        (fun v => (v.type, v.message, v.size))
      = subs.map (fun m => (m.1, m.2, m.2.length))
    ∧ (FlowManager.receive E (encodeChain subs) beyond s).reader = []
    ∧ ((FlowManager.receive E (encodeChain subs) beyond s).trace.map
        (fun v => 3 + v.size)).sum = (encodeChain subs).length := by
  obtain ⟨h1, h2⟩ := receiveLoop_chain E beyond subs htype _ s ⟨0, none, 0, 0⟩ hfin
  refine ⟨h1, h2, ?_⟩
  have h3 : (FlowManager.receive E (encodeChain subs) beyond s).trace.map (fun v => 3 + v.size)
      = ((FlowManager.receive E (encodeChain subs) beyond s).trace.map
          (fun v => (v.type, v.message, v.size))).map (fun x => 3 + x.2.2) := by
    simp [List.map_map, Function.comp_def]
  rw [h3]
  unfold FlowManager.receive
  rw [h1, encodeChain_length]
  simp [List.map_map, Function.comp_def]

/-- A keep-alive, a keep-alive echo with one byte of payload and a request for
a flow that is not there are visited one after the other. -/
theorem receive_visits_chain_witness :
    (FlowManager.receive sampleEnv
        (encodeChain [(0x01, []), (0x41, [9]), (0x10, [0, 2, 1, 1])]) [] sampleSession).trace.map
        (fun v => (v.type, v.message, v.size))
      = [(0x01, [], 0), (0x41, [9], 1), (0x10, [0, 2, 1, 1], 4)]
    ∧ (FlowManager.receive sampleEnv
        (encodeChain [(0x01, []), (0x41, [9]), (0x10, [0, 2, 1, 1])]) [] sampleSession).reader = []
    ∧ ((FlowManager.receive sampleEnv
        (encodeChain [(0x01, []), (0x41, [9]), (0x10, [0, 2, 1, 1])]) [] sampleSession).trace.map
        (fun v => 3 + v.size)).sum = 14 :=
  receive_visits_chain sampleEnv [] sampleSession [(0x01, []), (0x41, [9]), (0x10, [0, 2, 1, 1])]
    (by decide) (by decide)

end Chain

section Steps

variable {F : Type}

theorem createFlow_cases (E : Env F) (s : FlowManager F) (id : Nat) (sig : List Nat) :
    s.createFlow E id sig = (none, s)
    ∨ (s.createFlow E id sig = (some id, s) ∧ (s.find id).isSome = true)
    ∨ (∃ f, s.createFlow E id sig = (some id, { s with _flows := (id, f) :: s._flows })
        ∧ s.find id = none ∧ s.status ≠ Status.FAILED ∧ s._pMainStream = true) := by
  unfold FlowManager.createFlow
  by_cases h1 : s.status = Status.FAILED
  · simp [h1]
  · by_cases h2 : s._pMainStream = false
    · simp [h1, h2]
    · by_cases h3 : (s.find id).isSome = true
      · simp [h1, h2, h3]
      · have h3' : s.find id = none := by
          cases h : s.find id with
          | none => rfl
          | some f => simp [h] at h3
        have h2' : s._pMainStream = true := by
          cases h : s._pMainStream with
          | true => rfl
          | false => exact absurd h h2
        rw [if_neg h1, if_neg h2, if_neg h3]
        cases hsp : E.createSpecialFlow id sig with
        | some f => right; right; exact ⟨f, rfl, h3', h1, h2'⟩
        | none =>
          simp only
          split
          · cases hg : E.getStream (read7BitValue (List.drop 4 sig)).1 with
            | some st => right; right; exact ⟨_, rfl, h3', h1, h2'⟩
            | none => left; rfl
          · left; rfl

theorem createFlow_status (E : Env F) (s : FlowManager F) (id : Nat) (sig : List Nat) :
    (s.createFlow E id sig).2.status = s.status := by
  rcases createFlow_cases E s id sig with h | ⟨h, _⟩ | ⟨f, h, _⟩ <;> rw [h]

theorem createFlow_fst (E : Env F) (s : FlowManager F) (id : Nat) (sig : List Nat) :
    (s.createFlow E id sig).1 = none ∨ (s.createFlow E id sig).1 = some id := by
  rcases createFlow_cases E s id sig with h | ⟨h, _⟩ | ⟨f, h, _⟩ <;> rw [h] <;> simp

theorem createFlow_none (E : Env F) (s : FlowManager F) (id : Nat) (sig : List Nat)
    (h : (s.createFlow E id sig).1 = none) : (s.createFlow E id sig).2 = s := by
  rcases createFlow_cases E s id sig with h1 | ⟨h1, _⟩ | ⟨f, h1, _⟩
  · rw [h1]
  · rw [h1] at h; simp at h
  · rw [h1] at h; simp at h

theorem request11_some (E : Env F) (type : Nat) (m : List Nat) (s : FlowManager F) (l : Locals)
    (id : Nat) (hp : l.pFlow = some id) (hs : s.status ≠ Status.FAILED) :
    FlowManager.request11 E type m s l
      = ⟨Ctl.next,
          s.onFlow id (fun f => E.flowReceive f ((l.stage + 1) % 2 ^ 64)
            ((l.deltaNAck + 1) % 2 ^ 64) (if type = 0x11 then (read8 m).2 else m)
            (if type = 0x11 then (read8 m).1 else l.flags)),
          { l with stage := (l.stage + 1) % 2 ^ 64, deltaNAck := (l.deltaNAck + 1) % 2 ^ 64,
                   flags := if type = 0x11 then (read8 m).1 else l.flags },
          [Event.flowReceive id ((l.stage + 1) % 2 ^ 64) ((l.deltaNAck + 1) % 2 ^ 64)
            (if type = 0x11 then (read8 m).2 else m)
            (if type = 0x11 then (read8 m).1 else l.flags)]⟩ := by
  simp [FlowManager.request11, hp, hs]

theorem request11_none (E : Env F) (type : Nat) (m : List Nat) (s : FlowManager F) (l : Locals)
    (h : l.pFlow = none ∨ s.status = Status.FAILED) :
    FlowManager.request11 E type m s l
      = ⟨Ctl.next, s,
          { l with stage := (l.stage + 1) % 2 ^ 64, deltaNAck := (l.deltaNAck + 1) % 2 ^ 64,
                   flags := if type = 0x11 then (read8 m).1 else l.flags }, []⟩ := by
  rcases h with h | h
  · simp [FlowManager.request11, h]
  · unfold FlowManager.request11
    cases l.pFlow <;> simp [h]

theorem request10Header_fst (E : Env F) (idFlow : Nat) (m : List Nat) (s : FlowManager F)
    (l : Locals) :
    (FlowManager.request10Header E idFlow m s l).1
      = if l.flags &&& E.MESSAGE_HEADER ≠ 0 ∧ l.pFlow = none
        then s.createFlow E idFlow (readString (read8 m).1 (read8 m).2).1 else (l.pFlow, s) := by
  unfold FlowManager.request10Header
  by_cases hh : l.flags &&& E.MESSAGE_HEADER ≠ 0
  · cases hp : l.pFlow <;> simp [hh]
  · simp [hh]

/-- The three ways the case `0x10` goes on after the lookup of the flow. -/
theorem request10Flow_cases (E : Env F) (idFlow : Nat) (m : List Nat) (s : FlowManager F)
    (l : Locals) :
    FlowManager.request10Flow E idFlow m s l
        = ⟨Ctl.ret, (FlowManager.request10Header E idFlow m s l).1.2,
            { l with pFlow := (FlowManager.request10Header E idFlow m s l).1.1 }, []⟩
    ∨ ((FlowManager.request10Header E idFlow m s l).1.1 = none
        ∧ FlowManager.request10Flow E idFlow m s l
          = ⟨Ctl.next, (FlowManager.request10Header E idFlow m s l).1.2,
              { l with pFlow := none }, []⟩)
    ∨ ((FlowManager.request10Header E idFlow m s l).1.1 ≠ none
        ∧ (FlowManager.request10Header E idFlow m s l).2.1 = 0
        ∧ FlowManager.request10Flow E idFlow m s l
          = FlowManager.request11 E 0x10 (FlowManager.request10Header E idFlow m s l).2.2
              (FlowManager.request10Header E idFlow m s l).1.2
              { l with pFlow := (FlowManager.request10Header E idFlow m s l).1.1 }) := by
  unfold FlowManager.request10Flow
  simp only
  by_cases h1 : (FlowManager.request10Header E idFlow m s l).2.1 > 0
  · left; rw [if_pos h1]
  · right
    rw [if_neg h1]
    cases h2 : (FlowManager.request10Header E idFlow m s l).1.1 with
    | none => left; simp
    | some id => right; simp; omega

theorem request10_failed (E : Env F) (m : List Nat) (s : FlowManager F) (l : Locals)
    (hs : s.status = Status.FAILED) :
    FlowManager.request10 E m s l
      = ⟨Ctl.next, s, { l with flags := wireFlags m,
                                stage := (wireStage m + (2 ^ 64 - 1)) % 2 ^ 64,
                                deltaNAck := (wireDeltaNAck m + (2 ^ 64 - 1)) % 2 ^ 64 }, []⟩ := by
  simp [FlowManager.request10, hs, wireFlags, wireStage, wireDeltaNAck]

theorem request10_alive (E : Env F) (m : List Nat) (s : FlowManager F) (l : Locals)
    (hs : s.status ≠ Status.FAILED) :
    FlowManager.request10 E m s l
      = FlowManager.request10Flow E (wireIdFlow m) (wireHeader m) s
          ⟨wireFlags m, if (s.find (wireIdFlow m)).isSome then some (wireIdFlow m) else none,
            (wireStage m + (2 ^ 64 - 1)) % 2 ^ 64, (wireDeltaNAck m + (2 ^ 64 - 1)) % 2 ^ 64⟩ := by
  simp [FlowManager.request10, hs, wireFlags, wireStage, wireDeltaNAck, wireIdFlow, wireHeader]

theorem read7BitLoop_lt (w : Nat) : ∀ (k b result : Nat) (r : List Nat),
    (read7BitLoop w k b result r).1 < 2 ^ w := by
  intro k
  induction k with
  | zero => intro b result r; simp [read7BitLoop]; exact Nat.mod_lt _ (by positivity)
  | succ k ih =>
    intro b result r
    rw [read7BitLoop]
    split
    · exact ih _ _ _
    · exact Nat.mod_lt _ (by positivity)

theorem wireStage_lt (m : List Nat) : wireStage m < 2 ^ 64 := read7BitLoop_lt _ _ _ _ _
theorem wireDeltaNAck_lt (m : List Nat) : wireDeltaNAck m < 2 ^ 64 := read7BitLoop_lt _ _ _ _ _
theorem wireIdFlow_lt (m : List Nat) : wireIdFlow m < 2 ^ 64 := read7BitLoop_lt _ _ _ _ _

theorem pred_succ_u64 (w : Nat) (h : w < 2 ^ 64) :
    ((w + (2 ^ 64 - 1)) % 2 ^ 64 + 1) % 2 ^ 64 = w := by
  norm_num at h ⊢
  omega


end Steps

section Passes

variable {F : Type}

/-- The pass of the loop body over a framed sub-message. -/
theorem body_frame_eq (E : Env F) (beyond : List Nat) (type : Nat) (payload rest : List Nat)
    (s : FlowManager F) (l : Locals) :
    FlowManager.body E beyond type
        ((payload.length / 256) :: (payload.length % 256) :: (payload ++ rest)) s l
      = if (FlowManager.handle E type payload s l).ctl = Ctl.next then
          ⟨{ FlowManager.commit E (nextType rest).1 (FlowManager.handle E type payload s l).state
                (FlowManager.handle E type payload s l).locals with
              calls := (FlowManager.handle E type payload s l).calls
                ++ (FlowManager.commit E (nextType rest).1
                    (FlowManager.handle E type payload s l).state
                    (FlowManager.handle E type payload s l).locals).calls },
            payload.length, payload, (nextType rest).1, (nextType rest).2⟩
        else ⟨FlowManager.handle E type payload s l, payload.length, payload, type,
                payload ++ rest⟩ := by
  have htake : List.take payload.length (payload ++ rest ++ beyond) = payload := by
    simp [List.append_assoc]
  have hdrop : next payload.length (payload ++ rest) = rest := by
    simp [next]
  simp only [FlowManager.body, read16_frame, htake, hdrop]

theorem receiveLoop_succ (E : Env F) (beyond : List Nat) (fuel type : Nat) (reader : List Nat)
    (s : FlowManager F) (l : Locals) (ht : type ≠ 0xFF) :
    (FlowManager.receiveLoop E beyond (fuel + 1) type reader s l).trace
      = ⟨type, (FlowManager.body E beyond type reader s l).size,
          (FlowManager.body E beyond type reader s l).message,
          (FlowManager.body E beyond type reader s l).step.calls⟩
        :: (if (FlowManager.body E beyond type reader s l).step.ctl = Ctl.next then
              (FlowManager.receiveLoop E beyond fuel
                (FlowManager.body E beyond type reader s l).type
                (FlowManager.body E beyond type reader s l).reader
                (FlowManager.body E beyond type reader s l).step.state
                (FlowManager.body E beyond type reader s l).step.locals).trace
            else []) := by
  rw [FlowManager.receiveLoop, if_neg ht]
  simp only
  cases hc : (FlowManager.body E beyond type reader s l).step.ctl <;> simp

theorem commit_calls_receiveArgs (E : Env F) (type : Nat) (s : FlowManager F) (l : Locals) :
    (FlowManager.commit E type s l).calls.filterMap Event.receiveArgs = [] := by
  unfold FlowManager.commit
  cases l.pFlow with
  | none => rfl
  | some id =>
    simp only
    split
    · split
      · split
        · split
          · split <;> rfl
          · rfl
        · rfl
      · rfl
    · rfl

theorem commit_continuation (E : Env F) (s : FlowManager F) (l : Locals) :
    FlowManager.commit E 0x11 s l = ⟨Ctl.next, s, l, []⟩ := by
  unfold FlowManager.commit
  cases l.pFlow <;> simp

theorem commit_none (E : Env F) (type : Nat) (s : FlowManager F) (l : Locals)
    (h : l.pFlow = none) : FlowManager.commit E type s l = ⟨Ctl.next, s, l, []⟩ := by
  simp [FlowManager.commit, h]

theorem handle_0x11 (E : Env F) (m : List Nat) (s : FlowManager F) (l : Locals) :
    FlowManager.handle E 0x11 m s l = FlowManager.request11 E 0x11 m s l := by
  simp [FlowManager.handle]

theorem handle_0x10 (E : Env F) (m : List Nat) (s : FlowManager F) (l : Locals) :
    FlowManager.handle E 0x10 m s l = FlowManager.request10 E m s l := by
  simp [FlowManager.handle]

theorem onFlow_status (s : FlowManager F) (id : Nat) (f : F → F) :
    (s.onFlow id f).status = s.status := rfl

theorem succ_add_u64 (a i : Nat) :
    ((a + 1) % 2 ^ 64 + 1 + i) % 2 ^ 64 = (a + 1 + (i + 1)) % 2 ^ 64 := by
  norm_num
  omega

/-- A run of `0x11` sub-messages behind a dispatched request: the `i`-th one
calls the flow with the stage and the deltaNAck of the locals plus `i`. -/
theorem receiveLoop_continuations (E : Env F) (beyond : List Nat) (rest : List Nat)
    (ms : List (List Nat)) :
    ∀ (fuel : Nat) (s : FlowManager F) (l : Locals) (id : Nat),
      l.pFlow = some id → s.status ≠ Status.FAILED → ms.length ≤ fuel →
      ((FlowManager.receiveLoop E beyond fuel
          (nextType (encodeChain (ms.map (fun m => (0x11, m))) ++ rest)).1
          (nextType (encodeChain (ms.map (fun m => (0x11, m))) ++ rest)).2 s l).trace.take
            ms.length).map (fun v => v.calls.filterMap Event.receiveArgs)
        = (List.range ms.length).map
            (fun i => [(id, (l.stage + 1 + i) % 2 ^ 64, (l.deltaNAck + 1 + i) % 2 ^ 64)]) := by
  induction ms with
  | nil => intro fuel s l id _ _ _; simp
  | cons m ms ih =>
    intro fuel s l id hp hs hfuel
    cases fuel with
    | zero => simp at hfuel
    | succ n =>
      have hn : ms.length ≤ n := by simpa using hfuel
      rw [List.map_cons, encodeChain_cons]
      simp only [List.cons_append, nextType_cons, List.append_assoc]
      rw [receiveLoop_succ _ _ _ _ _ _ _ (by decide), body_frame_eq, handle_0x11,
        request11_some E 0x11 m s l id hp hs]
      simp only [if_true, List.length_cons, List.take_succ_cons, List.map_cons]
      rw [List.range_succ_eq_map, List.map_cons, List.map_map]
      congr 1
      · simp [List.filterMap_append, commit_calls_receiveArgs, Event.receiveArgs]
      · cases ms with
        | nil => simp
        | cons m2 ms2 =>
          rw [List.map_cons, encodeChain_cons]
          simp only [List.cons_append, nextType_cons, commit_continuation, if_true, List.append_assoc]
          have := ih n (s.onFlow id (fun f => E.flowReceive f ((l.stage + 1) % 2 ^ 64)
              ((l.deltaNAck + 1) % 2 ^ 64) (read8 m).2 (read8 m).1))
            { l with stage := (l.stage + 1) % 2 ^ 64, deltaNAck := (l.deltaNAck + 1) % 2 ^ 64,
                     flags := (read8 m).1 } id hp (by simpa [onFlow_status] using hs) hn
          rw [List.map_cons, encodeChain_cons] at this
          simp only [List.cons_append, nextType_cons, List.append_assoc] at this
          rw [this]
          apply List.map_congr_left
          intro i _
          simp only [Function.comp, Nat.succ_eq_add_one, succ_add_u64]

end Passes

section Requests
variable {F : Type}

theorem request11_fallthrough (E : Env F) (m : List Nat) (s : FlowManager F) (l : Locals)
    (id : Nat) (hp : l.pFlow = some id) (hs : s.status ≠ Status.FAILED) :
    FlowManager.request11 E 0x10 m s l
      = ⟨Ctl.next,
          s.onFlow id (fun f => E.flowReceive f ((l.stage + 1) % 2 ^ 64)
            ((l.deltaNAck + 1) % 2 ^ 64) m l.flags),
          { l with stage := (l.stage + 1) % 2 ^ 64, deltaNAck := (l.deltaNAck + 1) % 2 ^ 64 },
          [Event.flowReceive id ((l.stage + 1) % 2 ^ 64) ((l.deltaNAck + 1) % 2 ^ 64) m
            l.flags]⟩ := by
  rw [request11_some E 0x10 m s l id hp hs]
  simp

/-- The flow a live session ends up with on a request, after lookup and
creation, together with the session. -/
theorem request10_cases (E : Env F) (m : List Nat) (s : FlowManager F) (l : Locals)
    (hs : s.status ≠ Status.FAILED) :
    ∃ (c : Option Nat × FlowManager F) (msg : List Nat),
      c = (if (s.find (wireIdFlow m)).isSome then (some (wireIdFlow m), s)
            else if wireFlags m &&& E.MESSAGE_HEADER ≠ 0
              then s.createFlow E (wireIdFlow m) (wireSignature m) else (none, s))
      ∧ c.2.status = s.status
      ∧ (FlowManager.request10 E m s l
            = ⟨Ctl.ret, c.2, ⟨wireFlags m, c.1, (wireStage m + (2 ^ 64 - 1)) % 2 ^ 64,
                (wireDeltaNAck m + (2 ^ 64 - 1)) % 2 ^ 64⟩, []⟩
        ∨ (c.1 = none
            ∧ FlowManager.request10 E m s l
              = ⟨Ctl.next, c.2, ⟨wireFlags m, none, (wireStage m + (2 ^ 64 - 1)) % 2 ^ 64,
                  (wireDeltaNAck m + (2 ^ 64 - 1)) % 2 ^ 64⟩, []⟩)
        ∨ (c.1 = some (wireIdFlow m)
            ∧ FlowManager.request10 E m s l
              = ⟨Ctl.next,
                  c.2.onFlow (wireIdFlow m) (fun f =>
                    E.flowReceive f (wireStage m) (wireDeltaNAck m) msg (wireFlags m)),
                  ⟨wireFlags m, some (wireIdFlow m), wireStage m, wireDeltaNAck m⟩,
                  [Event.flowReceive (wireIdFlow m) (wireStage m) (wireDeltaNAck m) msg
                    (wireFlags m)]⟩)) := by
  rw [request10_alive E m s l hs]
  generalize hl0 : (⟨wireFlags m, if (s.find (wireIdFlow m)).isSome then some (wireIdFlow m)
      else none, (wireStage m + (2 ^ 64 - 1)) % 2 ^ 64,
      (wireDeltaNAck m + (2 ^ 64 - 1)) % 2 ^ 64⟩ : Locals) = l0
  have hfl : l0.flags = wireFlags m := by rw [← hl0]
  have hst : l0.stage = (wireStage m + (2 ^ 64 - 1)) % 2 ^ 64 := by rw [← hl0]
  have hdn : l0.deltaNAck = (wireDeltaNAck m + (2 ^ 64 - 1)) % 2 ^ 64 := by rw [← hl0]
  have hpf : l0.pFlow = if (s.find (wireIdFlow m)).isSome then some (wireIdFlow m) else none := by
    rw [← hl0]
  have hc : (FlowManager.request10Header E (wireIdFlow m) (wireHeader m) s l0).1
      = (if (s.find (wireIdFlow m)).isSome then (some (wireIdFlow m), s)
            else if wireFlags m &&& E.MESSAGE_HEADER ≠ 0
              then s.createFlow E (wireIdFlow m) (wireSignature m) else (none, s)) := by
    rw [request10Header_fst, hfl, hpf]
    by_cases hf : (s.find (wireIdFlow m)).isSome = true
    · simp [hf]
    · by_cases hh : wireFlags m &&& E.MESSAGE_HEADER ≠ 0
      · simp [hf, hh, wireSignature]
      · simp [hf, hh]
  have hc1 : (FlowManager.request10Header E (wireIdFlow m) (wireHeader m) s l0).1.1 = none
      ∨ (FlowManager.request10Header E (wireIdFlow m) (wireHeader m) s l0).1.1
          = some (wireIdFlow m) := by
    rw [hc]
    by_cases hf : (s.find (wireIdFlow m)).isSome = true
    · simp [hf]
    · by_cases hh : wireFlags m &&& E.MESSAGE_HEADER ≠ 0
      · rw [if_neg hf, if_pos hh]
        exact createFlow_fst E s (wireIdFlow m) (wireSignature m)
      · simp [hf, hh]
  have hc2 : (FlowManager.request10Header E (wireIdFlow m) (wireHeader m) s l0).1.2.status
      = s.status := by
    rw [hc]
    by_cases hf : (s.find (wireIdFlow m)).isSome = true
    · simp [hf]
    · by_cases hh : wireFlags m &&& E.MESSAGE_HEADER ≠ 0
      · rw [if_neg hf, if_pos hh]
        exact createFlow_status E s (wireIdFlow m) (wireSignature m)
      · simp [hf, hh]
  refine ⟨(FlowManager.request10Header E (wireIdFlow m) (wireHeader m) s l0).1,
    (FlowManager.request10Header E (wireIdFlow m) (wireHeader m) s l0).2.2, hc, hc2, ?_⟩
  rcases request10Flow_cases E (wireIdFlow m) (wireHeader m) s l0 with h | ⟨h0, h⟩ | ⟨h0, _, h⟩
  · left; rw [h, ← hfl, ← hst, ← hdn]
  · right; left; refine ⟨h0, ?_⟩; rw [h, ← hfl, ← hst, ← hdn]
  · right; right
    have h1 : (FlowManager.request10Header E (wireIdFlow m) (wireHeader m) s l0).1.1
        = some (wireIdFlow m) := by
      rcases hc1 with h1 | h1
      · exact absurd h1 h0
      · exact h1
    refine ⟨h1, ?_⟩
    rw [h, request11_fallthrough E _ _ _ (wireIdFlow m) (by simp [h1]) (by rw [hc2]; exact hs)]
    simp only [hst, hdn, hfl, h1, pred_succ_u64 _ (wireStage_lt m),
      pred_succ_u64 _ (wireDeltaNAck_lt m)]

theorem add_succ_u64 (a i : Nat) : (a + 1 + i) % 2 ^ 64 = (a + (i + 1)) % 2 ^ 64 := by
  congr 1
  omega

/-- C2 (amended): a request (`0x10`) met while the status is not FAILED, whose
flow is found or created and whose header part does not make `receive` return,
is passed to the flow with exactly the stage and the deltaNAck written on the
wire, and the `i`-th `0x11` sub-message that directly follows it is passed to
the same flow with both values increased by `i`, modulo `2 ^ 64`. -/
theorem request_stage_deltaNAck (E : Env F) (beyond rest m0 : List Nat) (ms : List (List Nat))
    (fuel : Nat) (s : FlowManager F) (l : Locals)
    (hs : s.status ≠ Status.FAILED)
    (hnext : (FlowManager.handle E 0x10 m0 s l).ctl = Ctl.next)
    (hflow : (FlowManager.handle E 0x10 m0 s l).locals.pFlow ≠ none)
    (hfuel : ms.length < fuel) :
    ((FlowManager.receiveLoop E beyond fuel 0x10
        ((m0.length / 256) :: (m0.length % 256)
          :: (m0 ++ (encodeChain (ms.map (fun m => (0x11, m))) ++ rest))) s l).trace.take
        (ms.length + 1)).map (fun v => v.calls.filterMap Event.receiveArgs)
      = (List.range (ms.length + 1)).map
          (fun i => [(wireIdFlow m0, (wireStage m0 + i) % 2 ^ 64,
            (wireDeltaNAck m0 + i) % 2 ^ 64)]) := by
  cases fuel with
  | zero => simp at hfuel
  | succ n =>
    have hn : ms.length ≤ n := by omega
    rw [handle_0x10] at hnext hflow
    obtain ⟨c, msg, _, hc2, hcases⟩ := request10_cases E m0 s l hs
    rcases hcases with h | ⟨_, h⟩ | ⟨_, h⟩
    · rw [h] at hnext; simp at hnext
    · rw [h] at hflow; simp at hflow
    · rw [receiveLoop_succ _ _ _ _ _ _ _ (by decide), body_frame_eq, handle_0x10, h]
      simp only [if_true, List.take_succ_cons, List.map_cons]
      rw [List.range_succ_eq_map, List.map_cons, List.map_map]
      congr 1
      · have h1 := Nat.mod_eq_of_lt (wireStage_lt m0)
        have h2 := Nat.mod_eq_of_lt (wireDeltaNAck_lt m0)
        simp only [List.filterMap_append, commit_calls_receiveArgs, Event.receiveArgs,
          List.filterMap_cons, List.filterMap_nil, List.append_nil, Nat.add_zero, h1, h2]
      · cases ms with
        | nil => simp
        | cons m2 ms2 =>
          have := receiveLoop_continuations E beyond rest (m2 :: ms2) n
            (c.2.onFlow (wireIdFlow m0) (fun f =>
              E.flowReceive f (wireStage m0) (wireDeltaNAck m0) msg (wireFlags m0)))
            ⟨wireFlags m0, some (wireIdFlow m0), wireStage m0, wireDeltaNAck m0⟩ (wireIdFlow m0)
            rfl (by rw [onFlow_status, hc2]; exact hs) hn
          rw [List.map_cons, encodeChain_cons] at this ⊢
          simp only [List.cons_append, nextType_cons, List.append_assoc, commit_continuation,
            if_true] at this ⊢
          rw [this]
          apply List.map_congr_left
          intro i _
          simp only [Function.comp, Nat.succ_eq_add_one, add_succ_u64]

/-- A request for the flow 2 of the session with the stage 0 and the
deltaNAck 1 on the wire, followed by two `0x11` sub-messages. -/
theorem request_stage_deltaNAck_witness :
    ((FlowManager.receiveLoop sampleEnv [] 3 0x10
        (0 :: 4 :: ([0, 2, 0, 1] ++ (encodeChain [(0x11, [0, 0xAA]), (0x11, [])] ++ [])))
        { sampleSession with _flows := [(2, 5)] } ⟨0, none, 0, 0⟩).trace.take 3).map
          (fun v => v.calls.filterMap Event.receiveArgs)
      = [[(2, 0, 1)], [(2, 1, 2)], [(2, 2, 3)]] :=
  request_stage_deltaNAck sampleEnv [] [] [0, 2, 0, 1] [[0, 0xAA], []] 3
    { sampleSession with _flows := [(2, 5)] } ⟨0, none, 0, 0⟩ (by decide) (by decide) (by decide)
    (by decide)

/-- C2, counterexample: this request creates the flow 2 while the session is
CONNECTED, but its header part ends before the announced length is used up:
`receive` returns without calling the flow. -/
theorem request_stage_deltaNAck_counterexample :
    sampleSession.status ≠ Status.FAILED
    ∧ sampleSession.find 2 = none
    ∧ (FlowManager.receive sampleEnv
        [0x10, 0, 13, 0x80, 2, 1, 1, 5, 0, 0x54, 0x43, 4, 1, 1, 0x0B, 3] [] sampleSession).state.find 2
        = some 0
    ∧ (FlowManager.receive sampleEnv
        [0x10, 0, 13, 0x80, 2, 1, 1, 5, 0, 0x54, 0x43, 4, 1, 1, 0x0B, 3] [] sampleSession).exit
        = Exit.returned
    ∧ (FlowManager.receive sampleEnv
        [0x10, 0, 13, 0x80, 2, 1, 1, 5, 0, 0x54, 0x43, 4, 1, 1, 0x0B, 3] [] sampleSession).trace.map
          (fun v => v.calls)
        = [[]] := by
  decide

end Requests

section Reuse
variable {F : Type}

theorem erase_status (s : FlowManager F) (id : Nat) : (s.erase id).status = s.status := rfl

theorem commit_status (E : Env F) (type : Nat) (s : FlowManager F) (l : Locals) :
    (FlowManager.commit E type s l).state.status = s.status := by
  unfold FlowManager.commit
  cases l.pFlow with
  | none => rfl
  | some id =>
    simp only
    split
    · split
      · split
        · split
          · split <;> rfl
          · rfl
        · rfl
      · rfl
    · rfl

theorem commit_some (E : Env F) (type : Nat) (s : FlowManager F) (l : Locals) (id : Nat)
    (hp : l.pFlow = some id) (hs : s.status ≠ Status.FAILED) (ht : type ≠ 0x11) :
    FlowManager.commit E type s l
      = match (s.onFlow id E.flowCommit).find id with
        | some f =>
          if E.flowConsumed f then
            if E.flowCritical f ∧ s.status ≠ Status.CONNECTED then
              if s._pConnection.isSome then
                ⟨Ctl.next, (s.onFlow id E.flowCommit).erase id, { l with pFlow := none },
                  [Event.flowCommit id, Event.clearWriters, Event.flowDelete id]⟩
              else ⟨Ctl.fault, s.onFlow id E.flowCommit, l, [Event.flowCommit id]⟩
            else
              ⟨Ctl.next, (s.onFlow id E.flowCommit).erase id, { l with pFlow := none },
                [Event.flowCommit id, Event.flowDelete id]⟩
          else ⟨Ctl.next, s.onFlow id E.flowCommit, { l with pFlow := none },
                  [Event.flowCommit id]⟩
        | none => ⟨Ctl.next, s.onFlow id E.flowCommit, { l with pFlow := none },
                    [Event.flowCommit id]⟩ := by
  unfold FlowManager.commit
  simp only [hp]
  rw [if_pos ⟨hs, ht⟩]
  rfl

theorem commit_alive_pFlow (E : Env F) (type : Nat) (s : FlowManager F) (l : Locals)
    (hs : s.status ≠ Status.FAILED) (ht : type ≠ 0x11)
    (hc : (FlowManager.commit E type s l).ctl = Ctl.next) :
    (FlowManager.commit E type s l).locals.pFlow = none := by
  cases hp : l.pFlow with
  | none => rw [commit_none E type s l hp]; exact hp
  | some id =>
    rw [commit_some E type s l id hp hs ht] at hc ⊢
    cases hf : (s.onFlow id E.flowCommit).find id with
    | none => rfl
    | some f =>
      rw [hf] at hc
      simp only at hc ⊢
      by_cases h1 : E.flowConsumed f = true
      · rw [if_pos h1] at hc ⊢
        by_cases h2 : E.flowCritical f = true ∧ s.status ≠ Status.CONNECTED
        · rw [if_pos h2] at hc ⊢
          by_cases h3 : s._pConnection.isSome = true
          · rw [if_pos h3]
          · rw [if_neg h3] at hc; simp at hc
        · rw [if_neg h2]
      · rw [if_neg h1]

theorem handle_other (E : Env F) (type : Nat) (m : List Nat) (s : FlowManager F) (l : Locals)
    (h10 : type ≠ 0x10) (h11 : type ≠ 0x11) :
    (FlowManager.handle E type m s l).locals = l
    ∧ (FlowManager.handle E type m s l).calls.filterMap Event.receiveArgs = [] := by
  unfold FlowManager.handle
  split_ifs <;> simp [Event.receiveArgs, FlowManager.close, List.filterMap_flatten]

/-- What the switch leaves for the commit and for a `0x11` that follows, when
`pFlow` is set only in front of a `0x11` sub-message of a live session. -/
theorem handle_summary (E : Env F) (type : Nat) (m : List Nat) (s : FlowManager F) (l : Locals)
    (hJ : l.pFlow ≠ none → type = 0x11 ∧ s.status ≠ Status.FAILED) :
    (∀ id, (FlowManager.handle E type m s l).ctl = Ctl.next →
        (FlowManager.handle E type m s l).locals.pFlow = some id →
        (FlowManager.handle E type m s l).state.status ≠ Status.FAILED
        ∧ (type = 0x10 ∨ type = 0x11)
        ∧ (FlowManager.handle E type m s l).calls.filterMap Event.receiveArgs
            = [(id, (FlowManager.handle E type m s l).locals.stage,
                (FlowManager.handle E type m s l).locals.deltaNAck)])
    ∧ ((FlowManager.handle E type m s l).locals.pFlow = none →
        (FlowManager.handle E type m s l).calls.filterMap Event.receiveArgs = [])
    ∧ (type = 0x11 →
        (FlowManager.handle E type m s l).ctl = Ctl.next
        ∧ ((FlowManager.handle E type m s l).calls.filterMap Event.receiveArgs).head?.map
            (fun a => a.1) = current s l) := by
  by_cases h11 : type = 0x11
  · subst h11
    rw [handle_0x11]
    cases hp : l.pFlow with
    | none =>
      rw [request11_none E 0x11 m s l (Or.inl hp)]
      simp [hp, current, Event.receiveArgs]
    | some id =>
      have hs : s.status ≠ Status.FAILED := (hJ (by simp [hp])).2
      rw [request11_some E 0x11 m s l id hp hs]
      simp [hp, current, hs, Event.receiveArgs, onFlow_status]
  · have hp : l.pFlow = none := by
      by_contra h
      exact h11 (hJ h).1
    by_cases h10 : type = 0x10
    · subst h10
      rw [handle_0x10]
      by_cases hs : s.status = Status.FAILED
      · rw [request10_failed E m s l hs]
        simp [hp]
      · obtain ⟨c, msg, _, hc2, hcases⟩ := request10_cases E m s l hs
        rcases hcases with h | ⟨_, h⟩ | ⟨_, h⟩
        · rw [h]; simp
        · rw [h]; simp
        · rw [h]; simp [Event.receiveArgs, onFlow_status, hc2, hs]
    · obtain ⟨h1, h2⟩ := handle_other E type m s l h10 h11
      rw [h1, h2]
      simp [hp, h11]

theorem commit_after_dispatch (E : Env F) (type : Nat) (s : FlowManager F) (l : Locals)
    (id : Nat) (hp : l.pFlow = some id) (hs : s.status ≠ Status.FAILED)
    (hc : (FlowManager.commit E type s l).ctl = Ctl.next) :
    ((FlowManager.commit E type s l).locals.pFlow ≠ none →
        type = 0x11 ∧ (FlowManager.commit E type s l).state.status ≠ Status.FAILED)
    ∧ (type = 0x11 →
        current (FlowManager.commit E type s l).state (FlowManager.commit E type s l).locals
          = some id) := by
  by_cases ht : type = 0x11
  · subst ht
    rw [commit_continuation]
    simp [current, hs, hp]
  · have := commit_alive_pFlow E type s l hs ht hc
    exact ⟨fun h => absurd this h, fun h => absurd h ht⟩

/-- One pass of the loop keeps `pFlow` set only in front of a `0x11`
sub-message of a live session, dispatches a `0x11` to the current flow, and
leaves as current flow for a `0x11` that follows the flow it dispatched to. -/
theorem body_reuse (E : Env F) (beyond : List Nat) (type : Nat) (reader : List Nat)
    (s : FlowManager F) (l : Locals)
    (hJ : l.pFlow ≠ none → type = 0x11 ∧ s.status ≠ Status.FAILED) :
    (type = 0x11 →
        ((FlowManager.body E beyond type reader s l).step.calls.filterMap
            Event.receiveArgs).head?.map (fun a => a.1) = current s l)
    ∧ ((FlowManager.body E beyond type reader s l).step.ctl = Ctl.next →
        ((FlowManager.body E beyond type reader s l).step.locals.pFlow ≠ none →
          (FlowManager.body E beyond type reader s l).type = 0x11
          ∧ (FlowManager.body E beyond type reader s l).step.state.status ≠ Status.FAILED))
    ∧ ((FlowManager.body E beyond type reader s l).step.ctl = Ctl.next →
        (FlowManager.body E beyond type reader s l).type = 0x11 →
        current (FlowManager.body E beyond type reader s l).step.state
            (FlowManager.body E beyond type reader s l).step.locals
          = if type = 0x10 ∨ type = 0x11 then
              ((FlowManager.body E beyond type reader s l).step.calls.filterMap
                Event.receiveArgs).head?.map (fun a => a.1)
            else none) := by
  simp only [FlowManager.body]
  generalize ((read16 reader).2 ++ beyond).take (read16 reader).1 = m
  generalize (nextType (next (read16 reader).1 (read16 reader).2)) = t1
  obtain ⟨hS1, hS2, hS3⟩ := handle_summary E type m s l hJ
  by_cases hn : (FlowManager.handle E type m s l).ctl = Ctl.next
  · simp only [if_pos hn, List.filterMap_append, commit_calls_receiveArgs, List.append_nil]
    refine ⟨fun h => (hS3 h).2, ?_⟩
    cases hp : (FlowManager.handle E type m s l).locals.pFlow with
    | none =>
      rw [commit_none E _ _ _ hp]
      simp [hp, current, hS2 hp]
    | some id =>
      obtain ⟨hst, hty, hcalls⟩ := hS1 id hn hp
      constructor
      · intro hc
        exact (commit_after_dispatch E t1.1 _ _ id hp hst hc).1
      · intro hc h11
        rw [(commit_after_dispatch E t1.1 _ _ id hp hst hc).2 h11, if_pos hty, hcalls]
        rfl
  · simp only [if_neg hn]
    refine ⟨fun h => absurd (hS3 h).1 hn, fun h => absurd h hn, fun h => absurd h hn⟩

theorem receiveLoop_reuses (E : Env F) (beyond : List Nat) :
    ∀ (fuel type : Nat) (reader : List Nat) (s : FlowManager F) (l : Locals)
      (prev : Option Nat),
      (l.pFlow ≠ none → type = 0x11 ∧ s.status ≠ Status.FAILED) →
      (type = 0x11 → prev = current s l) →
      Reuses prev (FlowManager.receiveLoop E beyond fuel type reader s l).trace := by
  intro fuel
  induction fuel with
  | zero => intro type reader s l prev _ _; simp [FlowManager.receiveLoop, Reuses]
  | succ n ih =>
    intro type reader s l prev hJ hprev
    by_cases ht : type = 0xFF
    · simp [FlowManager.receiveLoop, ht, Reuses]
    · rw [receiveLoop_succ E beyond n type reader s l ht]
      obtain ⟨hB1, hB2, hB3⟩ := body_reuse E beyond type reader s l hJ
      refine ⟨?_, ?_⟩
      · intro h11
        simp only [Visit.dispatched] at h11 ⊢
        rw [hB1 h11, hprev h11]
      · by_cases hn : (FlowManager.body E beyond type reader s l).step.ctl = Ctl.next
        · rw [if_pos hn]
          apply ih
          · exact hB2 hn
          · intro h11
            simp only [Visit.dispatched]
            rw [hB3 hn h11]
        · rw [if_neg hn]
          simp [Reuses]

theorem Reuses_append (pre : List Visit) (p v : Visit) (post : List Visit) :
    ∀ prev, Reuses prev (pre ++ p :: v :: post) → v.type = 0x11 →
      v.dispatched = if p.type = 0x10 ∨ p.type = 0x11 then p.dispatched else none := by
  induction pre with
  | nil =>
    intro prev h h11
    exact h.2.1 h11
  | cons a pre ih =>
    intro prev h h11
    exact ih _ h.2 h11

/-- C3: in the trace of `receive`, a `0x11` sub-message is dispatched to no
flow when it comes first, and otherwise to the flow the sub-message right
before it was dispatched to when that one is a `0x10` or a `0x11` (to none
when that one was dispatched to no flow), and to no flow when the sub-message
right before it is of another type. -/
theorem continuation_reuses_flow (E : Env F) (packet beyond : List Nat) (s : FlowManager F) :
    (∀ v post, (FlowManager.receive E packet beyond s).trace = v :: post →
        v.type = 0x11 → v.dispatched = none)
    ∧ (∀ pre p v post, (FlowManager.receive E packet beyond s).trace = pre ++ p :: v :: post →
        v.type = 0x11 →
        v.dispatched = if p.type = 0x10 ∨ p.type = 0x11 then p.dispatched else none) := by
  have h := receiveLoop_reuses E beyond (available packet + 1) (nextType packet).1
    (nextType packet).2 s ⟨0, none, 0, 0⟩ none (by simp) (by simp [current])
  constructor
  · intro v post htr h11
    unfold FlowManager.receive at htr
    rw [htr] at h
    exact h.1 h11
  · intro pre p v post htr h11
    unfold FlowManager.receive at htr
    rw [htr] at h
    exact Reuses_append pre p v post none h h11

/-- A request for the flow 2 of the session followed by a `0x11` sub-message:
the second is dispatched to the flow of the first. -/
theorem continuation_reuses_flow_witness :
    (⟨0x11, 0, [], [Event.flowReceive 2 1 2 [] 0, Event.flowCommit 2]⟩ : Visit).dispatched
      = if (0x10 = 0x10 ∨ 0x10 = 0x11) then
          (⟨0x10, 4, [0, 2, 0, 1], [Event.flowReceive 2 0 1 [] 0]⟩ : Visit).dispatched
        else none :=
  (continuation_reuses_flow sampleEnv [0x10, 0, 4, 0, 2, 0, 1, 0x11, 0, 0] []
    { sampleSession with _flows := [(2, 5)] }).2 []
    ⟨0x10, 4, [0, 2, 0, 1], [Event.flowReceive 2 0 1 [] 0]⟩
    ⟨0x11, 0, [], [Event.flowReceive 2 1 2 [] 0, Event.flowCommit 2]⟩ [] (by decide) (by decide)

end Reuse

section Flows
variable {F : Type}

theorem RTMFPFlow.drain_contiguous : ∀ (fuel : Nat) (f : RTMFPFlow),
    f.Contiguous → (RTMFPFlow.drain fuel f).Contiguous := by
  intro fuel
  induction fuel with
  | zero => intro f h; exact h
  | succ n ih =>
    intro f h
    rw [RTMFPFlow.drain]
    cases hl : f.buffer.lookup f.nextExpected with
    | none => exact h
    | some fragment =>
      apply ih
      obtain ⟨h1, h2⟩ := h
      refine ⟨by simp, ?_⟩
      have h3 : f.nextExpected + 1 - 1 = (f.nextExpected - 1) + 1 := by omega
      simp only [List.map_append, h2, List.map_cons, List.map_nil, h3, List.range'_concat]
      congr 2
      omega

theorem RTMFPFlow.receive_contiguous (f : RTMFPFlow) (stage deltaNAck : Nat)
    (message : List Nat) (flags : Nat) (h : f.Contiguous) :
    (f.receive stage deltaNAck message flags).Contiguous := by
  unfold RTMFPFlow.receive
  split
  · exact h
  · split
    · exact h
    · exact RTMFPFlow.drain_contiguous _ _ h

theorem onFlow_forall (P : F → Prop) (s : FlowManager F) (id : Nat) (g : F → F)
    (hg : ∀ f, P f → P (g f)) (h : ∀ p ∈ s._flows, P p.2) :
    ∀ p ∈ (s.onFlow id g)._flows, P p.2 := by
  intro p hp
  simp only [FlowManager.onFlow, List.mem_map] at hp
  obtain ⟨q, hq, rfl⟩ := hp
  split
  · exact hg _ (h q hq)
  · exact h q hq

theorem erase_forall (P : F → Prop) (s : FlowManager F) (id : Nat)
    (h : ∀ p ∈ s._flows, P p.2) : ∀ p ∈ (s.erase id)._flows, P p.2 := by
  intro p hp
  simp only [FlowManager.erase, List.mem_filter] at hp
  exact h p hp.1

theorem createFlow_forall (P : F → Prop) (E : Env F) (s : FlowManager F) (id : Nat)
    (sig : List Nat)
    (hnew : ∀ id sig st, P (E.newFlow id sig st))
    (hspecial : ∀ id sig f, E.createSpecialFlow id sig = some f → P f)
    (h : ∀ p ∈ s._flows, P p.2) :
    ∀ p ∈ (s.createFlow E id sig).2._flows, P p.2 := by
  unfold FlowManager.createFlow
  split
  · exact h
  · split
    · exact h
    · split
      · exact h
      · split
        · rename_i f hf
          intro p hp
          simp only [List.mem_cons] at hp
          rcases hp with rfl | hp
          · exact hspecial _ _ _ hf
          · exact h p hp
        · split
          · split
            · intro p hp
              simp only [List.mem_cons] at hp
              rcases hp with rfl | hp
              · exact hnew _ _ _
              · exact h p hp
            · exact h
          · exact h

theorem handle_other_state (E : Env F) (type : Nat) (m : List Nat) (s : FlowManager F)
    (l : Locals) (h10 : type ≠ 0x10) (h11 : type ≠ 0x11) :
    (FlowManager.handle E type m s l).state = E.handleP2PAddressExchange m s
    ∨ (FlowManager.handle E type m s l).state = s
    ∨ (FlowManager.handle E type m s l).state = E.handleProtocolFailed s
    ∨ (FlowManager.handle E type m s l).state = s.close.1
    ∨ (FlowManager.handle E type m s l).state = { s with _lastKeepAlive := E.now } := by
  unfold FlowManager.handle
  split_ifs <;> simp

/-- A property of the flows that the collaborators keep is kept by the switch. -/
theorem handle_forall (P : F → Prop) (E : Env F) (type : Nat) (m : List Nat)
    (s : FlowManager F) (l : Locals)
    (hrecv : ∀ f a b msg fl, P f → P (E.flowReceive f a b msg fl))
    (hnew : ∀ id sig st, P (E.newFlow id sig st))
    (hspecial : ∀ id sig f, E.createSpecialFlow id sig = some f → P f)
    (hp2p : ∀ m s, (∀ p ∈ s._flows, P p.2) →
      ∀ p ∈ (E.handleP2PAddressExchange m s)._flows, P p.2)
    (hfailed : ∀ s, (∀ p ∈ s._flows, P p.2) → ∀ p ∈ (E.handleProtocolFailed s)._flows, P p.2)
    (h : ∀ p ∈ s._flows, P p.2) :
    ∀ p ∈ (FlowManager.handle E type m s l).state._flows, P p.2 := by
  by_cases h11 : type = 0x11
  · subst h11
    rw [handle_0x11]
    cases hp : l.pFlow with
    | none => rw [request11_none E 0x11 m s l (Or.inl hp)]; exact h
    | some id =>
      by_cases hs : s.status = Status.FAILED
      · rw [request11_none E 0x11 m s l (Or.inr hs)]; exact h
      · rw [request11_some E 0x11 m s l id hp hs]
        exact onFlow_forall P s id _ (fun f hf => hrecv f _ _ _ _ hf) h
  · by_cases h10 : type = 0x10
    · subst h10
      rw [handle_0x10]
      by_cases hs : s.status = Status.FAILED
      · rw [request10_failed E m s l hs]; exact h
      · obtain ⟨c, msg, hc, _, hcases⟩ := request10_cases E m s l hs
        have hc2 : ∀ p ∈ c.2._flows, P p.2 := by
          rw [hc]
          split
          · exact h
          · split
            · exact createFlow_forall P E s _ _ hnew hspecial h
            · exact h
        rcases hcases with h1 | ⟨_, h1⟩ | ⟨_, h1⟩
        · rw [h1]; exact hc2
        · rw [h1]; exact hc2
        · rw [h1]; exact onFlow_forall P c.2 _ _ (fun f hf => hrecv f _ _ _ _ hf) hc2
    · rcases handle_other_state E type m s l h10 h11 with h1 | h1 | h1 | h1 | h1 <;> rw [h1]
      · exact hp2p m s h
      · exact h
      · exact hfailed s h
      · exact h
      · exact h

theorem commit_forall (P : F → Prop) (E : Env F) (type : Nat) (s : FlowManager F) (l : Locals)
    (hcommit : ∀ f, P f → P (E.flowCommit f))
    (h : ∀ p ∈ s._flows, P p.2) :
    ∀ p ∈ (FlowManager.commit E type s l).state._flows, P p.2 := by
  have h1 : ∀ id, ∀ p ∈ (s.onFlow id E.flowCommit)._flows, P p.2 :=
    fun id => onFlow_forall P s id _ hcommit h
  unfold FlowManager.commit
  cases l.pFlow with
  | none => exact h
  | some id =>
    simp only
    split
    · split
      · split
        · split
          · split
            · exact erase_forall P _ id (h1 id)
            · exact h1 id
          · exact erase_forall P _ id (h1 id)
        · exact h1 id
      · exact h1 id
    · exact h

theorem body_forall (P : F → Prop) (E : Env F) (beyond : List Nat) (type : Nat)
    (reader : List Nat) (s : FlowManager F) (l : Locals)
    (hrecv : ∀ f a b msg fl, P f → P (E.flowReceive f a b msg fl))
    (hcommit : ∀ f, P f → P (E.flowCommit f))
    (hnew : ∀ id sig st, P (E.newFlow id sig st))
    (hspecial : ∀ id sig f, E.createSpecialFlow id sig = some f → P f)
    (hp2p : ∀ m s, (∀ p ∈ s._flows, P p.2) →
      ∀ p ∈ (E.handleP2PAddressExchange m s)._flows, P p.2)
    (hfailed : ∀ s, (∀ p ∈ s._flows, P p.2) → ∀ p ∈ (E.handleProtocolFailed s)._flows, P p.2)
    (h : ∀ p ∈ s._flows, P p.2) :
    ∀ p ∈ (FlowManager.body E beyond type reader s l).step.state._flows, P p.2 := by
  simp only [FlowManager.body]
  split
  · exact commit_forall P E _ _ _ hcommit
      (handle_forall P E type _ s l hrecv hnew hspecial hp2p hfailed h)
  · exact handle_forall P E type _ s l hrecv hnew hspecial hp2p hfailed h

/-- A property of the flows that the collaborators keep is kept by `receive`. -/
theorem receiveLoop_forall (P : F → Prop) (E : Env F) (beyond : List Nat)
    (hrecv : ∀ f a b msg fl, P f → P (E.flowReceive f a b msg fl))
    (hcommit : ∀ f, P f → P (E.flowCommit f))
    (hnew : ∀ id sig st, P (E.newFlow id sig st))
    (hspecial : ∀ id sig f, E.createSpecialFlow id sig = some f → P f)
    (hp2p : ∀ m s, (∀ p ∈ s._flows, P p.2) →
      ∀ p ∈ (E.handleP2PAddressExchange m s)._flows, P p.2)
    (hfailed : ∀ s, (∀ p ∈ s._flows, P p.2) → ∀ p ∈ (E.handleProtocolFailed s)._flows, P p.2) :
    ∀ (fuel type : Nat) (reader : List Nat) (s : FlowManager F) (l : Locals),
      (∀ p ∈ s._flows, P p.2) →
      ∀ p ∈ (FlowManager.receiveLoop E beyond fuel type reader s l).state._flows, P p.2 := by
  intro fuel
  induction fuel with
  | zero => intro type reader s l h; exact h
  | succ n ih =>
    intro type reader s l h
    rw [FlowManager.receiveLoop]
    split
    · exact h
    · have hb := body_forall P E beyond type reader s l hrecv hcommit hnew hspecial hp2p hfailed h
      simp only
      split
      · exact hb
      · exact hb
      · exact ih _ _ _ _ hb

/-- C4, on the flow of the specification: when the flows of a session are
flows of the specification and the other collaborators keep their delivered
stages contiguous, then after `receive`, whatever the packet, every flow of the
session has delivered to the stream handler exactly the stages
`1, 2, …, nextExpected - 1`, in this order; and a sub-message whose stage was
delivered or is buffered already leaves the flow as it is. -/
theorem flow_stages_contiguous (E : Env RTMFPFlow) (packet beyond : List Nat)
    (s : FlowManager RTMFPFlow)
    (hrecv : E.flowReceive = RTMFPFlow.receive)
    (hcommit : ∀ f, f.Contiguous → (E.flowCommit f).Contiguous)
    (hnew : ∀ id sig st, (E.newFlow id sig st).Contiguous)
    (hspecial : ∀ id sig f, E.createSpecialFlow id sig = some f → f.Contiguous)
    (hp2p : ∀ m s, (∀ p ∈ s._flows, p.2.Contiguous) →
      ∀ p ∈ (E.handleP2PAddressExchange m s)._flows, p.2.Contiguous)
    (hfailed : ∀ s, (∀ p ∈ s._flows, p.2.Contiguous) →
      ∀ p ∈ (E.handleProtocolFailed s)._flows, p.2.Contiguous)
    (h : ∀ p ∈ s._flows, p.2.Contiguous) :
    (∀ p ∈ (FlowManager.receive E packet beyond s).state._flows,
        p.2.delivered.map (fun d => d.1) = List.range' 1 (p.2.nextExpected - 1))
    ∧ (∀ (f : RTMFPFlow) (stage deltaNAck : Nat) (message : List Nat) (flags : Nat),
        stage < f.nextExpected ∨ (f.buffer.lookup stage).isSome = true →
        E.flowReceive f stage deltaNAck message flags = f) := by
  constructor
  · intro p hp
    exact (receiveLoop_forall RTMFPFlow.Contiguous E beyond
      (fun f a b msg fl hf => by rw [hrecv]; exact RTMFPFlow.receive_contiguous f a b msg fl hf)
      hcommit hnew hspecial hp2p hfailed _ _ _ s _ h p hp).2
  · intro f stage deltaNAck message flags hdup
    rw [hrecv]
    unfold RTMFPFlow.receive
    rcases hdup with hd | hd
    · rw [if_pos hd]
    · rw [if_pos hd]
      simp

/-- The stages 2, 3, 1 and again 2 of the flow 2, created by the first of
these sub-messages, are delivered as 1, 2, 3. -/
theorem flow_stages_contiguous_witness :
    (∀ p ∈ (FlowManager.receive flowEnv
        (encodeChain [(0x10, [0x80, 2, 2, 1, 5, 0, 0x54, 0x43, 4, 1, 0, 0xBB]),
          (0x10, [0, 2, 3, 1, 0xCC]), (0x10, [0, 2, 1, 1, 0xAA]), (0x11, [0, 0xAB])]) []
        ⟨Status.CONNECTED, [], none, some 1, [1], true, 0⟩).state._flows,
        p.2.delivered.map (fun d => d.1) = List.range' 1 (p.2.nextExpected - 1))
    ∧ (∀ (f : RTMFPFlow) (stage deltaNAck : Nat) (message : List Nat) (flags : Nat),
        stage < f.nextExpected ∨ (f.buffer.lookup stage).isSome = true →
        flowEnv.flowReceive f stage deltaNAck message flags = f) :=
  flow_stages_contiguous flowEnv _ [] _ rfl (fun _ h => h) (fun _ _ _ => ⟨Nat.le_refl 1, rfl⟩)
    (fun _ _ _ h => by simp [flowEnv] at h) (fun _ _ h => h) (fun _ h => h) (by simp)

end Flows

section Creation
variable {F : Type}

theorem lookup_none_iff (flows : List (Nat × F)) (id : Nat) :
    flows.lookup id = none ↔ ∀ p ∈ flows, p.1 ≠ id := by
  induction flows with
  | nil => simp
  | cons q qs ih =>
    obtain ⟨k, f⟩ := q
    by_cases h : id = k
    · subst h; simp [List.lookup]
    · have h' : (id == k) = false := by simpa using h
      simp only [List.lookup, h', List.mem_cons, forall_eq_or_imp, ih]
      constructor
      · intro h2; exact ⟨fun h3 => h h3.symm, h2⟩
      · intro h2; exact h2.2

theorem onFlow_of_find_none (s : FlowManager F) (id : Nat) (g : F → F)
    (h : s.find id = none) : s.onFlow id g = s := by
  have h1 := (lookup_none_iff s._flows id).1 h
  have h2 : s._flows.map (fun p => if p.1 = id then (p.1, g p.2) else p) = s._flows := by
    conv_rhs => rw [← List.map_id s._flows]
    apply List.map_congr_left
    intro p hp
    simp [h1 p hp]
  cases s
  simp only [FlowManager.onFlow] at h2 ⊢
  rw [h2]

theorem onFlow_keys (s : FlowManager F) (id : Nat) (g : F → F) :
    (s.onFlow id g)._flows.map (fun p => p.1) = s._flows.map (fun p => p.1) := by
  simp only [FlowManager.onFlow, List.map_map]
  apply List.map_congr_left
  intro p _
  simp only [Function.comp]
  split <;> rfl

theorem onFlow_cons_self (s : FlowManager F) (id : Nat) (f : F) (g : F → F)
    (h : s.find id = none) :
    ({ s with _flows := (id, f) :: s._flows } : FlowManager F).onFlow id g
      = { s with _flows := (id, g f) :: s._flows } := by
  have h1 := onFlow_of_find_none s id g h
  cases s
  simp only [FlowManager.onFlow, List.map_cons, if_true] at h1 ⊢
  simp only [FlowManager.mk.injEq, true_and, and_true] at h1
  rw [h1]

theorem createFlow_accepts (E : Env F) (s : FlowManager F) (id : Nat) (sig : List Nat)
    (hs : s.status ≠ Status.FAILED) (hmain : s._pMainStream = true)
    (hfind : s.find id = none) (hacc : E.accepts id sig) :
    ∃ f, s.createFlow E id sig = (some id, { s with _flows := (id, f) :: s._flows }) := by
  unfold FlowManager.createFlow
  rw [if_neg hs, if_neg (by simp [hmain]), if_neg (by simp [hfind])]
  cases hsp : E.createSpecialFlow id sig with
  | some f => exact ⟨f, rfl⟩
  | none =>
    rcases hacc with h | ⟨h1, h2, h3⟩
    · rw [hsp] at h; simp at h
    · simp only
      rw [if_pos ⟨h1, h2⟩]
      cases hg : E.getStream (read7BitValue (List.drop 4 sig)).1 with
      | none => rw [hg] at h3; simp at h3
      | some st => exact ⟨_, rfl⟩

theorem createFlow_rejects (E : Env F) (s : FlowManager F) (id : Nat) (sig : List Nat)
    (hfind : s.find id = none) (hacc : ¬ E.accepts id sig) :
    s.createFlow E id sig = (none, s) := by
  unfold FlowManager.createFlow
  split
  · rfl
  · split
    · rfl
    · rw [if_neg (by simp [hfind])]
      cases hsp : E.createSpecialFlow id sig with
      | some f => exact absurd (Or.inl (by simp [hsp])) hacc
      | none =>
        simp only
        split
        · rename_i h
          cases hg : E.getStream (read7BitValue (List.drop 4 sig)).1 with
          | none => rfl
          | some st => exact absurd (Or.inr ⟨h.1, h.2, by simp [hg]⟩) hacc
        · rfl

theorem createFlow_existing (E : Env F) (s : FlowManager F) (id : Nat) (sig : List Nat)
    (hs : s.status ≠ Status.FAILED) (hmain : s._pMainStream = true)
    (hfind : (s.find id).isSome = true) :
    s.createFlow E id sig = (some id, s) := by
  unfold FlowManager.createFlow
  rw [if_neg hs, if_neg (by simp [hmain]), if_pos hfind]

theorem createFlow_keys_nodup (E : Env F) (s : FlowManager F) (id : Nat) (sig : List Nat)
    (h : (s._flows.map (fun p => p.1)).Nodup) :
    ((s.createFlow E id sig).2._flows.map (fun p => p.1)).Nodup := by
  rcases createFlow_cases E s id sig with h1 | ⟨h1, _⟩ | ⟨f, h1, hfind, _⟩
  · rw [h1]; exact h
  · rw [h1]; exact h
  · rw [h1]
    simp only [List.map_cons, List.nodup_cons]
    refine ⟨?_, h⟩
    intro hmem
    simp only [List.mem_map] at hmem
    obtain ⟨p, hp, hpid⟩ := hmem
    exact (lookup_none_iff s._flows id).1 hfind p hp hpid

/-- C5 (amended): in a session that is not FAILED and has its main stream, a
request with the HEADER flag whose flow id is not in the table and whose
signature is accepted inserts exactly one flow, under that id, in front of the
entries of the table, and, unless `receive` returns on its header part, is
dispatched to it with the stage and deltaNAck of the wire; when the id is in
the table, `createFlow` returns that flow and leaves the session as it is, and
the request changes no key of the table and, unless `receive` returns on its
header part, is dispatched to that flow; a table without two entries for one
id stays so. -/
theorem flow_lookup_or_create (E : Env F) (m : List Nat) (s : FlowManager F) (l : Locals)
    (hs : s.status ≠ Status.FAILED) (hmain : s._pMainStream = true) :
    (s.find (wireIdFlow m) = none → wireFlags m &&& E.MESSAGE_HEADER ≠ 0 →
      E.accepts (wireIdFlow m) (wireSignature m) →
      (∃ f, (FlowManager.handle E 0x10 m s l).state._flows = (wireIdFlow m, f) :: s._flows)
      ∧ ((FlowManager.handle E 0x10 m s l).ctl = Ctl.next →
          (FlowManager.handle E 0x10 m s l).calls.filterMap Event.receiveArgs
            = [(wireIdFlow m, wireStage m, wireDeltaNAck m)]))
    ∧ ((s.find (wireIdFlow m)).isSome = true →
      (∀ sig, s.createFlow E (wireIdFlow m) sig = (some (wireIdFlow m), s))
      ∧ (FlowManager.handle E 0x10 m s l).state._flows.map (fun p => p.1)
          = s._flows.map (fun p => p.1)
      ∧ ((FlowManager.handle E 0x10 m s l).ctl = Ctl.next →
          (FlowManager.handle E 0x10 m s l).calls.filterMap Event.receiveArgs
            = [(wireIdFlow m, wireStage m, wireDeltaNAck m)]))
    ∧ ((s._flows.map (fun p => p.1)).Nodup →
      ((FlowManager.handle E 0x10 m s l).state._flows.map (fun p => p.1)).Nodup) := by
  rw [handle_0x10]
  obtain ⟨c, msg, hc, _, hcases⟩ := request10_cases E m s l hs
  refine ⟨?_, ?_, ?_⟩
  · intro hfind hhdr hacc
    obtain ⟨f, hf⟩ := createFlow_accepts E s _ _ hs hmain hfind hacc
    rw [if_neg (by simp [hfind]), if_pos hhdr, hf] at hc
    rcases hcases with h | ⟨h0, h⟩ | ⟨_, h⟩
    · rw [h, hc]; exact ⟨⟨f, rfl⟩, by simp⟩
    · rw [hc] at h0; simp at h0
    · rw [h, hc]
      simp only
      rw [onFlow_cons_self s _ f _ hfind]
      exact ⟨⟨_, rfl⟩, fun _ => by simp [Event.receiveArgs]⟩
  · intro hfind
    rw [if_pos hfind] at hc
    refine ⟨fun sig => createFlow_existing E s _ sig hs hmain hfind, ?_⟩
    rcases hcases with h | ⟨h0, h⟩ | ⟨_, h⟩
    · rw [h, hc]; simp
    · rw [hc] at h0; simp at h0
    · rw [h, hc]
      exact ⟨onFlow_keys s _ _, fun _ => by simp [Event.receiveArgs]⟩
  · intro hnd
    have hc2 : (c.2._flows.map (fun p => p.1)).Nodup := by
      rw [hc]
      split
      · exact hnd
      · split
        · exact createFlow_keys_nodup E s _ _ hnd
        · exact hnd
    rcases hcases with h | ⟨_, h⟩ | ⟨_, h⟩
    · rw [h]; exact hc2
    · rw [h]; exact hc2
    · rw [h]
      simp only
      rw [onFlow_keys]
      exact hc2

/-- A request with the HEADER flag and an accepted signature creates the flow 2
and is dispatched to it; a request for the flow 2 of a session that has it
leaves the keys of the table as they are. -/
theorem flow_lookup_or_create_witness :
    ((∃ f, (FlowManager.handle sampleEnv 0x10 [0x80, 2, 1, 1, 5, 0, 0x54, 0x43, 4, 1, 0]
          sampleSession ⟨0, none, 0, 0⟩).state._flows = (2, f) :: sampleSession._flows)
      ∧ ((FlowManager.handle sampleEnv 0x10 [0x80, 2, 1, 1, 5, 0, 0x54, 0x43, 4, 1, 0]
          sampleSession ⟨0, none, 0, 0⟩).ctl = Ctl.next →
          (FlowManager.handle sampleEnv 0x10 [0x80, 2, 1, 1, 5, 0, 0x54, 0x43, 4, 1, 0]
            sampleSession ⟨0, none, 0, 0⟩).calls.filterMap Event.receiveArgs = [(2, 1, 1)]))
    ∧ (FlowManager.handle sampleEnv 0x10 [0, 2, 1, 1]
          { sampleSession with _flows := [(2, 5)] } ⟨0, none, 0, 0⟩).state._flows.map
            (fun p => p.1) = [2] :=
  ⟨(flow_lookup_or_create sampleEnv [0x80, 2, 1, 1, 5, 0, 0x54, 0x43, 4, 1, 0] sampleSession
      ⟨0, none, 0, 0⟩ (by decide) rfl).1 (by decide) (by decide)
      (Or.inr ⟨by decide, by decide, by decide⟩),
    ((flow_lookup_or_create sampleEnv [0, 2, 1, 1] { sampleSession with _flows := [(2, 5)] }
      ⟨0, none, 0, 0⟩ (by decide) rfl).2.1 (by decide)).2.1⟩

/-- C5, counterexample: the flow id 3 is not in the table, the request has the
HEADER flag and the accepted signature `00 54 43 04 01` (stream 1), the flow
is inserted, but the header part announces 9 more bytes at the end of the
message: `receive` returns and the flow has not received the message. -/
theorem flow_lookup_or_create_counterexample :
    sampleSession.status = Status.CONNECTED
    ∧ sampleSession.find (wireIdFlow [0x80, 3, 1, 1, 5, 0, 0x54, 0x43, 4, 1, 1, 0x0B, 9]) = none
    ∧ wireFlags [0x80, 3, 1, 1, 5, 0, 0x54, 0x43, 4, 1, 1, 0x0B, 9] &&& sampleEnv.MESSAGE_HEADER
        ≠ 0
    ∧ sampleEnv.accepts 3 (wireSignature [0x80, 3, 1, 1, 5, 0, 0x54, 0x43, 4, 1, 1, 0x0B, 9])
    ∧ (FlowManager.receive sampleEnv
        (encodeChain [(0x10, [0x80, 3, 1, 1, 5, 0, 0x54, 0x43, 4, 1, 1, 0x0B, 9])]) []
        sampleSession).state._flows = [(3, 0)]
    ∧ (FlowManager.receive sampleEnv
        (encodeChain [(0x10, [0x80, 3, 1, 1, 5, 0, 0x54, 0x43, 4, 1, 1, 0x0B, 9])]) []
        sampleSession).exit = Exit.returned
    ∧ (FlowManager.receive sampleEnv
        (encodeChain [(0x10, [0x80, 3, 1, 1, 5, 0, 0x54, 0x43, 4, 1, 1, 0x0B, 9])]) []
        sampleSession).trace.map (fun v => v.calls) = [[]] :=
  ⟨by decide, by decide, by decide, Or.inr ⟨by decide, by decide, by decide⟩, by decide,
    by decide, by decide⟩

end Creation

section Commit
variable {F : Type}

theorem lookup_cons_eq (k a : Nat) (f : F) (qs : List (Nat × F)) (h : k = a) :
    ((a, f) :: qs).lookup k = some f := by
  subst h
  simp [List.lookup]

theorem lookup_cons_ne (k a : Nat) (f : F) (qs : List (Nat × F)) (h : k ≠ a) :
    ((a, f) :: qs).lookup k = qs.lookup k := by
  have hk' : (k == a) = false := by simpa using h
  simp [List.lookup, hk']

theorem lookup_map_onFlow (flows : List (Nat × F)) (id k : Nat) (g : F → F) :
    (flows.map (fun p => if p.1 = id then (p.1, g p.2) else p)).lookup k
      = (flows.lookup k).map (fun f => if k = id then g f else f) := by
  induction flows with
  | nil => simp
  | cons q qs ih =>
    obtain ⟨a, f⟩ := q
    by_cases hid : a = id
    · rw [List.map_cons]
      simp only [hid, if_true]
      by_cases hk : k = id
      · rw [lookup_cons_eq k id _ _ hk, lookup_cons_eq k id _ _ hk]
        simp [hk]
      · rw [lookup_cons_ne k id _ _ hk, lookup_cons_ne k id _ _ hk]
        simpa [hid] using ih
    · rw [List.map_cons]
      simp only [hid, if_false]
      by_cases hk : k = a
      · rw [lookup_cons_eq k a _ _ hk, lookup_cons_eq k a _ _ hk]
        have : k ≠ id := by rw [hk]; exact hid
        simp [this]
      · rw [lookup_cons_ne k a _ _ hk, lookup_cons_ne k a _ _ hk]
        exact ih

theorem lookup_filter_erase (flows : List (Nat × F)) (id k : Nat) :
    (flows.filter (fun p => p.1 ≠ id)).lookup k
      = if k = id then none else flows.lookup k := by
  induction flows with
  | nil => simp
  | cons q qs ih =>
    obtain ⟨a, f⟩ := q
    by_cases ha : a = id
    · have h1 : List.filter (fun p => decide (p.1 ≠ id)) ((a, f) :: qs)
          = List.filter (fun p => decide (p.1 ≠ id)) qs := by
        simp [List.filter_cons, ha]
      rw [h1, ih]
      by_cases hk : k = id
      · simp [hk]
      · rw [lookup_cons_ne k a _ _ (by rw [ha]; exact hk)]
    · have h1 : List.filter (fun p => decide (p.1 ≠ id)) ((a, f) :: qs)
          = (a, f) :: List.filter (fun p => decide (p.1 ≠ id)) qs := by
        simp [List.filter_cons, ha]
      rw [h1]
      by_cases hk : k = a
      · rw [lookup_cons_eq k a _ _ hk, lookup_cons_eq k a _ _ hk]
        have : k ≠ id := by rw [hk]; exact ha
        simp [this]
      · rw [lookup_cons_ne k a _ _ hk, lookup_cons_ne k a _ _ hk]
        exact ih

theorem find_onFlow (s : FlowManager F) (id k : Nat) (g : F → F) :
    (s.onFlow id g).find k = (s.find k).map (fun f => if k = id then g f else f) :=
  lookup_map_onFlow s._flows id k g

theorem find_erase (s : FlowManager F) (id k : Nat) :
    (s.erase id).find k = if k = id then none else s.find k :=
  lookup_filter_erase s._flows id k

theorem body_message (E : Env F) (beyond : List Nat) (type : Nat) (reader : List Nat)
    (s : FlowManager F) (l : Locals) :
    (FlowManager.body E beyond type reader s l).message
      = ((read16 reader).2 ++ beyond).take (read16 reader).1 := by
  simp only [FlowManager.body]
  split <;> rfl

theorem handle_calls_no_commit (E : Env F) (type : Nat) (m : List Nat) (s : FlowManager F)
    (l : Locals) (k : Nat) :
    (FlowManager.handle E type m s l).calls.count (Event.flowCommit k) = 0 := by
  by_cases h11 : type = 0x11
  · subst h11
    rw [handle_0x11]
    cases hp : l.pFlow with
    | none => rw [request11_none E 0x11 m s l (Or.inl hp)]; rfl
    | some id =>
      by_cases hs : s.status = Status.FAILED
      · rw [request11_none E 0x11 m s l (Or.inr hs)]; rfl
      · rw [request11_some E 0x11 m s l id hp hs]
        simp
  · by_cases h10 : type = 0x10
    · subst h10
      rw [handle_0x10]
      by_cases hs : s.status = Status.FAILED
      · rw [request10_failed E m s l hs]; rfl
      · obtain ⟨c, msg, _, _, hcases⟩ := request10_cases E m s l hs
        rcases hcases with h1 | ⟨_, h1⟩ | ⟨_, h1⟩ <;> rw [h1] <;> simp
    · unfold FlowManager.handle
      split_ifs <;> simp [FlowManager.close, List.count_eq_zero]

/-- C6: on a pass whose sub-message ends with a current flow `id` in a session
that is not FAILED and has its connection, nothing is committed when the next
sub-message is a `0x11`; otherwise (another type, or 0xFF at the end of the
packet) the flow is committed exactly once and is no longer the current flow,
its id is erased from the table when it then reports consumed and stays in
the table, committed, when it does not, and the other ids of the table keep
their flows. -/
theorem chain_commit (E : Env F) (beyond : List Nat) (type : Nat) (reader : List Nat)
    (s : FlowManager F) (l : Locals) (id : Nat) (f : F)
    (hnext : (FlowManager.handle E type
        (FlowManager.body E beyond type reader s l).message s l).ctl = Ctl.next)
    (hp : (FlowManager.handle E type
        (FlowManager.body E beyond type reader s l).message s l).locals.pFlow = some id)
    (hs : (FlowManager.handle E type
        (FlowManager.body E beyond type reader s l).message s l).state.status ≠ Status.FAILED)
    (hf : (FlowManager.handle E type
        (FlowManager.body E beyond type reader s l).message s l).state.find id = some f)
    (hconn : (FlowManager.handle E type
        (FlowManager.body E beyond type reader s l).message s l).state._pConnection.isSome
          = true) :
    ((FlowManager.body E beyond type reader s l).type = 0x11 →
        (FlowManager.body E beyond type reader s l).step
          = FlowManager.handle E type (FlowManager.body E beyond type reader s l).message s l)
    ∧ ((FlowManager.body E beyond type reader s l).type ≠ 0x11 →
        (FlowManager.body E beyond type reader s l).step.ctl = Ctl.next
        ∧ (FlowManager.body E beyond type reader s l).step.locals.pFlow = none
        ∧ (FlowManager.body E beyond type reader s l).step.calls.count (Event.flowCommit id) = 1
        ∧ (E.flowConsumed (E.flowCommit f) = true →
            (FlowManager.body E beyond type reader s l).step.state.find id = none
            ∧ Event.flowDelete id ∈ (FlowManager.body E beyond type reader s l).step.calls)
        ∧ (E.flowConsumed (E.flowCommit f) = false →
            (FlowManager.body E beyond type reader s l).step.state.find id
              = some (E.flowCommit f))
        ∧ (∀ k, k ≠ id →
            (FlowManager.body E beyond type reader s l).step.state.find k
              = (FlowManager.handle E type
                  (FlowManager.body E beyond type reader s l).message s l).state.find k)) := by
  rw [body_message] at hnext hp hs hf hconn ⊢
  simp only [FlowManager.body]
  generalize ((read16 reader).2 ++ beyond).take (read16 reader).1 = m at *
  generalize (nextType (next (read16 reader).1 (read16 reader).2)) = t1
  have hno := handle_calls_no_commit E type m s l id
  rw [if_pos hnext]
  cases hh : FlowManager.handle E type m s l with
  | mk ctl st lo ca =>
    rw [hh] at hnext hp hs hf hconn hno
    simp only at hnext hp hs hf hconn hno ⊢
    constructor
    · intro h11
      rw [h11, commit_continuation, hnext]
      simp
    · intro h11
      have hfind : (st.onFlow id E.flowCommit).find id = some (E.flowCommit f) := by
        rw [find_onFlow, hf]; simp
      have hother : ∀ k, k ≠ id → (st.onFlow id E.flowCommit).find k = st.find k := by
        intro k hk
        rw [find_onFlow]
        cases st.find k <;> simp [hk]
      rw [commit_some E t1.1 st lo id hp hs h11, hfind]
      simp only
      by_cases hcons : E.flowConsumed (E.flowCommit f) = true
      · rw [if_pos hcons]
        by_cases hcrit : E.flowCritical (E.flowCommit f) = true ∧ st.status ≠ Status.CONNECTED
        · rw [if_pos hcrit, if_pos hconn]
          refine ⟨rfl, rfl, ?_, ?_, ?_, ?_⟩
          · simp [List.count_append, hno]
          · intro _; simp [find_erase]
          · intro h; rw [hcons] at h; simp at h
          · intro k hk; rw [find_erase, if_neg hk, hother k hk]
        · rw [if_neg hcrit]
          refine ⟨rfl, rfl, ?_, ?_, ?_, ?_⟩
          · simp [List.count_append, hno]
          · intro _; simp [find_erase]
          · intro h; rw [hcons] at h; simp at h
          · intro k hk; rw [find_erase, if_neg hk, hother k hk]
      · rw [if_neg hcons]
        refine ⟨rfl, rfl, ?_, ?_, ?_, ?_⟩
        · simp [List.count_append, hno]
        · intro h; exact absurd h hcons
        · intro _; exact hfind
        · intro k hk; exact hother k hk

/-- The flow 2 holds 899: the request brings it to 900, the commit at the end
of the packet to 1000, where it reports consumed: it is erased, the flow 3
stays. -/
theorem chain_commit_witness :
    (FlowManager.body sampleEnv [] 0x10 [0, 4, 0, 2, 1, 1]
        { sampleSession with _flows := [(2, 899), (3, 0)] } ⟨0, none, 0, 0⟩).step.ctl = Ctl.next
    ∧ (FlowManager.body sampleEnv [] 0x10 [0, 4, 0, 2, 1, 1]
        { sampleSession with _flows := [(2, 899), (3, 0)] } ⟨0, none, 0, 0⟩).step.locals.pFlow
        = none
    ∧ (FlowManager.body sampleEnv [] 0x10 [0, 4, 0, 2, 1, 1]
        { sampleSession with _flows := [(2, 899), (3, 0)] } ⟨0, none, 0, 0⟩).step.calls.count
          (Event.flowCommit 2) = 1
    ∧ (sampleEnv.flowConsumed (sampleEnv.flowCommit 900) = true →
        (FlowManager.body sampleEnv [] 0x10 [0, 4, 0, 2, 1, 1]
          { sampleSession with _flows := [(2, 899), (3, 0)] } ⟨0, none, 0, 0⟩).step.state.find 2
          = none
        ∧ Event.flowDelete 2 ∈ (FlowManager.body sampleEnv [] 0x10 [0, 4, 0, 2, 1, 1]
          { sampleSession with _flows := [(2, 899), (3, 0)] } ⟨0, none, 0, 0⟩).step.calls)
    ∧ (sampleEnv.flowConsumed (sampleEnv.flowCommit 900) = false →
        (FlowManager.body sampleEnv [] 0x10 [0, 4, 0, 2, 1, 1]
          { sampleSession with _flows := [(2, 899), (3, 0)] } ⟨0, none, 0, 0⟩).step.state.find 2
          = some (sampleEnv.flowCommit 900))
    ∧ (∀ k, k ≠ 2 →
        (FlowManager.body sampleEnv [] 0x10 [0, 4, 0, 2, 1, 1]
          { sampleSession with _flows := [(2, 899), (3, 0)] } ⟨0, none, 0, 0⟩).step.state.find k
          = (FlowManager.handle sampleEnv 0x10
              (FlowManager.body sampleEnv [] 0x10 [0, 4, 0, 2, 1, 1]
                { sampleSession with _flows := [(2, 899), (3, 0)] } ⟨0, none, 0, 0⟩).message
              { sampleSession with _flows := [(2, 899), (3, 0)] } ⟨0, none, 0, 0⟩).state.find k) :=
  (chain_commit sampleEnv [] 0x10 [0, 4, 0, 2, 1, 1]
    { sampleSession with _flows := [(2, 899), (3, 0)] } ⟨0, none, 0, 0⟩ 2 900
    (by decide) (by decide) (by decide) (by decide) (by decide)).2 (by decide)

end Commit

section Unfound
variable {F : Type}

theorem request11_ctl (E : Env F) (type : Nat) (m : List Nat) (s : FlowManager F) (l : Locals) :
    (FlowManager.request11 E type m s l).ctl = Ctl.next := by
  unfold FlowManager.request11
  cases l.pFlow with
  | none => rfl
  | some id =>
    simp only
    split <;> rfl

theorem request10_ret_header (E : Env F) (m : List Nat) (s : FlowManager F) (l : Locals)
    (hs : s.status ≠ Status.FAILED) (hret : (FlowManager.request10 E m s l).ctl = Ctl.ret) :
    wireFlags m &&& E.MESSAGE_HEADER ≠ 0 := by
  intro hh
  rw [request10_alive E m s l hs] at hret
  unfold FlowManager.request10Flow FlowManager.request10Header at hret
  simp only [hh, ne_eq, not_true_eq_false, if_false, Nat.lt_irrefl, gt_iff_lt] at hret
  by_cases hf : (s.find (wireIdFlow m)).isSome = true
  · simp only [hf, if_true, Option.isNone_some, Bool.false_eq_true, if_false] at hret
    rw [request11_ctl] at hret
    simp at hret
  · simp [hf] at hret

theorem commit_failed (E : Env F) (type : Nat) (s : FlowManager F) (l : Locals)
    (hs : s.status = Status.FAILED) : FlowManager.commit E type s l = ⟨Ctl.next, s, l, []⟩ := by
  unfold FlowManager.commit
  cases l.pFlow <;> simp [hs]

/-- A request whose flow is not in the table and for which none is created:
the pass leaves the session as it is and calls nobody. -/
theorem body_unfound (E : Env F) (beyond : List Nat) (reader : List Nat) (s : FlowManager F)
    (l : Locals)
    (hfind : s.find (wireIdFlow (FlowManager.body E beyond 0x10 reader s l).message) = none)
    (hnone : wireFlags (FlowManager.body E beyond 0x10 reader s l).message
          &&& E.MESSAGE_HEADER ≠ 0 →
        (s.createFlow E (wireIdFlow (FlowManager.body E beyond 0x10 reader s l).message)
          (wireSignature (FlowManager.body E beyond 0x10 reader s l).message)).1 = none) :
    (FlowManager.body E beyond 0x10 reader s l).step.state = s
    ∧ (FlowManager.body E beyond 0x10 reader s l).step.calls = []
    ∧ (FlowManager.body E beyond 0x10 reader s l).step.ctl ≠ Ctl.fault
    ∧ (s.status ≠ Status.FAILED →
        (FlowManager.body E beyond 0x10 reader s l).step.locals.pFlow = none
        ∧ ((FlowManager.body E beyond 0x10 reader s l).step.ctl = Ctl.ret →
            wireFlags (FlowManager.body E beyond 0x10 reader s l).message
              &&& E.MESSAGE_HEADER ≠ 0)) := by
  rw [body_message] at hfind hnone ⊢
  simp only [FlowManager.body]
  generalize ((read16 reader).2 ++ beyond).take (read16 reader).1 = m at *
  generalize (nextType (next (read16 reader).1 (read16 reader).2)) = t1
  rw [handle_0x10]
  by_cases hs : s.status = Status.FAILED
  · rw [request10_failed E m s l hs]
    simp only [if_true]
    rw [commit_failed E _ _ _ hs]
    exact ⟨rfl, rfl, by simp, fun h => absurd hs h⟩
  · have hret := request10_ret_header E m s l hs
    obtain ⟨c, msg, hc, _, hcases⟩ := request10_cases E m s l hs
    have hc' : c = (none, s) := by
      rw [hc, if_neg (by simp [hfind])]
      by_cases hh : wireFlags m &&& E.MESSAGE_HEADER ≠ 0
      · rw [if_pos hh]
        have h1 := hnone hh
        have h2 := createFlow_none E s _ _ h1
        exact Prod.ext h1 h2
      · rw [if_neg hh]
    rcases hcases with h | ⟨_, h⟩ | ⟨h0, h⟩
    · rw [h] at hret ⊢
      rw [hc']
      simp only [if_neg (show ¬ (Ctl.ret = Ctl.next) by decide)]
      exact ⟨by simp, by simp, by simp, fun _ => ⟨by simp, fun _ => hret rfl⟩⟩
    · rw [h, hc']
      simp only [if_true]
      rw [commit_none E _ _ _ rfl]
      exact ⟨rfl, rfl, by simp, fun _ => ⟨rfl, fun h => by simp at h⟩⟩
    · rw [hc'] at h0
      simp at h0

/-- C7 (amended): a request whose flow id is not in the table of a session
that is not FAILED and for which no flow is created (no HEADER flag, or
`createFlow` returns none) is dropped: the pass calls nobody and leaves the
session, with its flow table and its null flow, as it is; `receive` returns
only when the header part of the request is cut short, which needs the HEADER
flag; otherwise the loop goes on with the next sub-message from the unchanged
session with no current flow, so that a `0x11` which comes next is dispatched
to no flow. -/
theorem unfound_request_dropped (E : Env F) (beyond : List Nat) (reader : List Nat)
    (s : FlowManager F) (l : Locals) (fuel : Nat)
    (hs : s.status ≠ Status.FAILED)
    (hfind : s.find (wireIdFlow (FlowManager.body E beyond 0x10 reader s l).message) = none)
    (hnone : wireFlags (FlowManager.body E beyond 0x10 reader s l).message
          &&& E.MESSAGE_HEADER = 0
        ∨ (s.createFlow E (wireIdFlow (FlowManager.body E beyond 0x10 reader s l).message)
          (wireSignature (FlowManager.body E beyond 0x10 reader s l).message)).1 = none) :
    (FlowManager.body E beyond 0x10 reader s l).step.state = s
    ∧ (FlowManager.body E beyond 0x10 reader s l).step.calls = []
    ∧ (FlowManager.body E beyond 0x10 reader s l).step.locals.pFlow = none
    ∧ ((FlowManager.body E beyond 0x10 reader s l).step.ctl = Ctl.next
        ∨ ((FlowManager.body E beyond 0x10 reader s l).step.ctl = Ctl.ret
            ∧ wireFlags (FlowManager.body E beyond 0x10 reader s l).message
                &&& E.MESSAGE_HEADER ≠ 0))
    ∧ ((FlowManager.body E beyond 0x10 reader s l).step.ctl = Ctl.next →
        (FlowManager.receiveLoop E beyond (fuel + 1) 0x10 reader s l).trace
          = ⟨0x10, (FlowManager.body E beyond 0x10 reader s l).size,
              (FlowManager.body E beyond 0x10 reader s l).message, []⟩
            :: (FlowManager.receiveLoop E beyond fuel
                (FlowManager.body E beyond 0x10 reader s l).type
                (FlowManager.body E beyond 0x10 reader s l).reader s
                (FlowManager.body E beyond 0x10 reader s l).step.locals).trace
        ∧ (FlowManager.receiveLoop E beyond (fuel + 1) 0x10 reader s l).state
          = (FlowManager.receiveLoop E beyond fuel
                (FlowManager.body E beyond 0x10 reader s l).type
                (FlowManager.body E beyond 0x10 reader s l).reader s
                (FlowManager.body E beyond 0x10 reader s l).step.locals).state
        ∧ ((FlowManager.body E beyond 0x10 reader s l).type = 0x11 → 0 < fuel →
            ((FlowManager.receiveLoop E beyond fuel
                (FlowManager.body E beyond 0x10 reader s l).type
                (FlowManager.body E beyond 0x10 reader s l).reader s
                (FlowManager.body E beyond 0x10 reader s l).step.locals).trace.head?).map
                  (fun v => v.calls)
              = some [])) := by
  obtain ⟨h1, h2, h3, h4⟩ := body_unfound E beyond reader s l hfind (by
    intro hh
    rcases hnone with h | h
    · exact absurd h hh
    · exact h)
  obtain ⟨h5, h6⟩ := h4 hs
  refine ⟨h1, h2, h5, ?_, ?_⟩
  · cases hc : (FlowManager.body E beyond 0x10 reader s l).step.ctl with
    | next => left; rfl
    | ret => right; exact ⟨rfl, h6 hc⟩
    | fault => exact absurd hc h3
  · intro hc
    refine ⟨?_, ?_, ?_⟩
    · rw [receiveLoop_succ E beyond fuel 0x10 reader s l (by decide), if_pos hc, h1, h2]
    · rw [FlowManager.receiveLoop, if_neg (by decide)]
      simp only [hc, h1]
    · intro h11 hfuel
      obtain ⟨n, rfl⟩ : ∃ n, fuel = n + 1 := ⟨fuel - 1, by omega⟩
      rw [h11, receiveLoop_succ E beyond n 0x11 _ s _ (by decide)]
      simp only [List.head?_cons, Option.map_some', Option.some.injEq]
      generalize (FlowManager.body E beyond 0x10 reader s l).reader = r at *
      generalize (FlowManager.body E beyond 0x10 reader s l).step.locals = l1 at *
      simp only [FlowManager.body, handle_0x11]
      rw [request11_none E 0x11 _ s _ (Or.inl h5)]
      simp only [if_true]
      rw [commit_none E _ _ _ (by simpa using h5)]
      simp

/-- A request without HEADER flag for the flow 9, which the session does not
have, followed by a `0x11` sub-message. -/
theorem unfound_request_dropped_witness :
    (FlowManager.body sampleEnv [] 0x10 [0, 4, 0, 9, 1, 1, 0x11, 0, 1, 0]
        { sampleSession with _flows := [(2, 5)] } ⟨0, none, 0, 0⟩).step.state
      = { sampleSession with _flows := [(2, 5)] }
    ∧ (FlowManager.body sampleEnv [] 0x10 [0, 4, 0, 9, 1, 1, 0x11, 0, 1, 0]
        { sampleSession with _flows := [(2, 5)] } ⟨0, none, 0, 0⟩).step.calls = []
    ∧ (FlowManager.body sampleEnv [] 0x10 [0, 4, 0, 9, 1, 1, 0x11, 0, 1, 0]
        { sampleSession with _flows := [(2, 5)] } ⟨0, none, 0, 0⟩).step.locals.pFlow = none :=
  ⟨(unfound_request_dropped sampleEnv [] [0, 4, 0, 9, 1, 1, 0x11, 0, 1, 0]
      { sampleSession with _flows := [(2, 5)] } ⟨0, none, 0, 0⟩ 5 (by decide) (by decide)
      (Or.inl (by decide))).1,
    (unfound_request_dropped sampleEnv [] [0, 4, 0, 9, 1, 1, 0x11, 0, 1, 0]
      { sampleSession with _flows := [(2, 5)] } ⟨0, none, 0, 0⟩ 5 (by decide) (by decide)
      (Or.inl (by decide))).2.1,
    (unfound_request_dropped sampleEnv [] [0, 4, 0, 9, 1, 1, 0x11, 0, 1, 0]
      { sampleSession with _flows := [(2, 5)] } ⟨0, none, 0, 0⟩ 5 (by decide) (by decide)
      (Or.inl (by decide))).2.2.1⟩

/-- C7, counterexample: the session has the flow 2 and not the flow 9.  In the
first packet a request for the flow 9, without HEADER flag, stands between a
request for the flow 2 and a `0x11` sub-message; it is dropped, and the `0x11`
behind it reaches no flow.  In the second packet the dropped request is
absent, and the `0x11` is dispatched to the flow 2 with the next stage. -/
theorem unfound_request_dropped_counterexample :
    ({ sampleSession with _flows := [(2, 5)] } : FlowManager Nat).find 9 = none
    ∧ wireFlags [0, 9, 1, 1] &&& sampleEnv.MESSAGE_HEADER = 0
    ∧ (FlowManager.receive sampleEnv
        (encodeChain [(0x10, [0, 2, 1, 1]), (0x10, [0, 9, 1, 1]), (0x11, [0])]) []
        { sampleSession with _flows := [(2, 5)] }).trace.map (fun v => v.calls)
        = [[Event.flowReceive 2 1 1 [] 0, Event.flowCommit 2], [], []]
    ∧ (FlowManager.receive sampleEnv
        (encodeChain [(0x10, [0, 2, 1, 1]), (0x11, [0])]) []
        { sampleSession with _flows := [(2, 5)] }).trace.map (fun v => v.calls)
        = [[Event.flowReceive 2 1 1 [] 0], [Event.flowReceive 2 2 2 [] 0, Event.flowCommit 2]]
    ∧ (FlowManager.receive sampleEnv
        (encodeChain [(0x10, [0, 2, 1, 1]), (0x10, [0, 9, 1, 1]), (0x11, [0])]) []
        { sampleSession with _flows := [(2, 5)] }).state._flows = [(2, 106)]
    ∧ (FlowManager.receive sampleEnv
        (encodeChain [(0x10, [0, 2, 1, 1]), (0x11, [0])]) []
        { sampleSession with _flows := [(2, 5)] }).state._flows = [(2, 107)] := by
  decide

/-- C9: when the flow of a request is not in the table and `createFlow` returns
no flow for it, `createFlow` leaves the session as it is, and so does the
whole pass of `receive` over the request: the status and every entry of the
flow table are the same after it as before, and nobody was called. -/
theorem createFlow_failure_frame (E : Env F) (beyond : List Nat) (reader : List Nat)
    (s : FlowManager F) (l : Locals)
    (hfind : s.find (wireIdFlow (FlowManager.body E beyond 0x10 reader s l).message) = none)
    (hfail : (s.createFlow E (wireIdFlow (FlowManager.body E beyond 0x10 reader s l).message)
          (wireSignature (FlowManager.body E beyond 0x10 reader s l).message)).1 = none) :
    (s.createFlow E (wireIdFlow (FlowManager.body E beyond 0x10 reader s l).message)
        (wireSignature (FlowManager.body E beyond 0x10 reader s l).message)).2 = s
    ∧ (FlowManager.body E beyond 0x10 reader s l).step.state.status = s.status
    ∧ (FlowManager.body E beyond 0x10 reader s l).step.state._flows = s._flows
    ∧ (FlowManager.body E beyond 0x10 reader s l).step.state = s
    ∧ (FlowManager.body E beyond 0x10 reader s l).step.calls = [] := by
  obtain ⟨h1, h2, _, _⟩ := body_unfound E beyond reader s l hfind (fun _ => hfail)
  exact ⟨createFlow_none E s _ _ hfail, by rw [h1], by rw [h1], h1, h2⟩

/-- A request with the HEADER flag for the new flow 4 whose signature
`01 02 03` is unknown, in a session with the flow 2. -/
theorem createFlow_failure_frame_witness :
    (({ sampleSession with _flows := [(2, 5)] } : FlowManager Nat).createFlow sampleEnv
        (wireIdFlow (FlowManager.body sampleEnv [] 0x10 [0, 9, 0x80, 4, 1, 1, 3, 1, 2, 3, 0]
          { sampleSession with _flows := [(2, 5)] } ⟨0, none, 0, 0⟩).message)
        (wireSignature (FlowManager.body sampleEnv [] 0x10 [0, 9, 0x80, 4, 1, 1, 3, 1, 2, 3, 0]
          { sampleSession with _flows := [(2, 5)] } ⟨0, none, 0, 0⟩).message)).2
      = { sampleSession with _flows := [(2, 5)] }
    ∧ (FlowManager.body sampleEnv [] 0x10 [0, 9, 0x80, 4, 1, 1, 3, 1, 2, 3, 0]
        { sampleSession with _flows := [(2, 5)] } ⟨0, none, 0, 0⟩).step.state.status
        = Status.CONNECTED
    ∧ (FlowManager.body sampleEnv [] 0x10 [0, 9, 0x80, 4, 1, 1, 3, 1, 2, 3, 0]
        { sampleSession with _flows := [(2, 5)] } ⟨0, none, 0, 0⟩).step.state._flows = [(2, 5)]
    ∧ (FlowManager.body sampleEnv [] 0x10 [0, 9, 0x80, 4, 1, 1, 3, 1, 2, 3, 0]
        { sampleSession with _flows := [(2, 5)] } ⟨0, none, 0, 0⟩).step.state
        = { sampleSession with _flows := [(2, 5)] }
    ∧ (FlowManager.body sampleEnv [] 0x10 [0, 9, 0x80, 4, 1, 1, 3, 1, 2, 3, 0]
        { sampleSession with _flows := [(2, 5)] } ⟨0, none, 0, 0⟩).step.calls = [] :=
  createFlow_failure_frame sampleEnv [] [0, 9, 0x80, 4, 1, 1, 3, 1, 2, 3, 0]
    { sampleSession with _flows := [(2, 5)] } ⟨0, none, 0, 0⟩ (by decide) (by decide)

/-- C10 (amended): a sub-message whose type is none of the ten types of the
switch (and not 0xFF, which ends the loop) makes `receive` return at once:
nobody is called, the session, status included, is left as it is, and the
sub-messages behind it are not looked at. -/
theorem unknown_type_returns (E : Env F) (beyond : List Nat) (fuel type : Nat)
    (reader : List Nat) (s : FlowManager F) (l : Locals)
    (hunknown : type ∉ [0x0f, 0xcc, 0x0c, 0x4c, 0x01, 0x41, 0x5e, 0x51, 0x10, 0x11])
    (hff : type ≠ 0xFF) :
    (FlowManager.receiveLoop E beyond (fuel + 1) type reader s l).exit = Exit.returned
    ∧ (FlowManager.receiveLoop E beyond (fuel + 1) type reader s l).state = s
    ∧ (FlowManager.receiveLoop E beyond (fuel + 1) type reader s l).trace.map
        (fun v => (v.type, v.calls)) = [(type, [])] := by
  simp only [List.mem_cons, List.mem_singleton, List.not_mem_nil, or_false, not_or] at hunknown
  obtain ⟨h1, h2, h3, h4, h5, h6, h7, h8, h9, h10⟩ := hunknown
  have hh : ∀ m, FlowManager.handle E type m s l = ⟨Ctl.ret, s, l, []⟩ := by
    intro m
    unfold FlowManager.handle
    rw [if_neg h1, if_neg h2, if_neg h3, if_neg h4, if_neg h5, if_neg h6, if_neg h7, if_neg h8,
      if_neg h9, if_neg h10]
  rw [FlowManager.receiveLoop, if_neg hff]
  simp only [FlowManager.body, hh]
  simp

/-- The type 0x18 is not a case of the switch: a connected session stays
connected and the keep-alive behind the sub-message is not answered. -/
theorem unknown_type_returns_witness :
    (FlowManager.receiveLoop sampleEnv [] 7 0x18 [0, 0, 0x01, 0, 0] sampleSession
        ⟨0, none, 0, 0⟩).exit = Exit.returned
    ∧ (FlowManager.receiveLoop sampleEnv [] 7 0x18 [0, 0, 0x01, 0, 0] sampleSession
        ⟨0, none, 0, 0⟩).state = sampleSession
    ∧ (FlowManager.receiveLoop sampleEnv [] 7 0x18 [0, 0, 0x01, 0, 0] sampleSession
        ⟨0, none, 0, 0⟩).trace.map (fun v => (v.type, v.calls)) = [(0x18, [])] :=
  unknown_type_returns sampleEnv [] 6 0x18 [0, 0, 0x01, 0, 0] sampleSession ⟨0, none, 0, 0⟩
    (by decide) (by decide)

/-- C10, counterexample: the type 0x02 is not recognized, and after `receive`
has met it the status of the connected session is CONNECTED, not FAILED. -/
theorem unknown_type_returns_counterexample :
    (FlowManager.receive sampleEnv [0x02, 0, 0] [] sampleSession).trace.map (fun v => v.type)
      = [0x02]
    ∧ (FlowManager.receive sampleEnv [0x02, 0, 0] [] sampleSession).state.status
      = Status.CONNECTED
    ∧ (FlowManager.receive sampleEnv [0x02, 0, 0] [] sampleSession).state.status
      ≠ Status.FAILED := by
  decide

end Unfound

section Varint
variable {F : Type}

theorem continuation_byte : ∀ a, a < 128 →
    ((0x80 ||| a) &&& 0x80 ≠ 0 ∧ (0x80 ||| a) &&& 0x7F = a ∧ a &&& 0x80 = 0) := by
  decide

theorem low7 (x : Nat) : x &&& 0x7F = x % 128 := Nat.and_pow_two_sub_one_eq_mod x 7

theorem low8 (x : Nat) : x &&& 0xFF = x % 256 := Nat.and_pow_two_sub_one_eq_mod x 8

theorem shl7_or (a b : Nat) (hb : b < 128) : (a <<< 7) ||| b = a * 128 + b := by
  rw [Nat.shiftLeft_eq, Nat.mul_comm, show (2:Nat) ^ 7 * a = 2 ^ 7 * a from rfl,
    ← Nat.mul_add_lt_is_or (by simpa using hb) a]

theorem shl8_or (a b : Nat) (hb : b < 256) : (a <<< 8) ||| b = a * 256 + b := by
  rw [Nat.shiftLeft_eq, Nat.mul_comm, ← Nat.mul_add_lt_is_or (by simpa using hb) a]

theorem read7BitLoop_continue (w k a result : Nat) (r : List Nat) (ha : a < 128) :
    read7BitLoop w (k + 1) (0x80 ||| a) result r
      = read7BitLoop w k (read8 r).1 (result * 128 + a) (read8 r).2 := by
  rw [read7BitLoop, if_pos (continuation_byte a ha).1, (continuation_byte a ha).2.1,
    shl7_or result a ha]

theorem read7BitLoop_last (w k b result : Nat) (r : List Nat) (hb : b < 128) :
    read7BitLoop w (k + 1) b result r = ((result * 128 + b) % 2 ^ w, r) := by
  rw [read7BitLoop, if_neg (by rw [(continuation_byte b hb).2.2]; simp), shl7_or result b hb]

theorem read7BitLoop_full (w b result : Nat) (r : List Nat) (hb : b < 256) :
    read7BitLoop w 0 b result r = ((result * 256 + b) % 2 ^ w, r) := by
  rw [read7BitLoop, shl8_or result b hb]

/-- The varint decoder reads back what the encoder wrote, and stops there. -/
theorem read7BitValue_write7BitValue (n : Nat) (extra : List Nat) (hn : n < 2 ^ 29) :
    read7BitValue (BinaryWriter.write7BitValue n ++ extra) = (n, extra) := by
  unfold BinaryWriter.write7BitValue read7BitValue
  simp only [low7, low8, Nat.shiftRight_eq_div_pow]
  have h128 : ∀ x : Nat, x % 128 < 128 := fun x => Nat.mod_lt _ (by decide)
  have h256 : ∀ x : Nat, x % 256 < 256 := fun x => Nat.mod_lt _ (by decide)
  norm_num at hn
  split
  · rename_i h
    norm_num at h
    simp only [List.cons_append, List.nil_append, read8]
    rw [read7BitLoop_last _ _ _ _ _ (h128 n)]
    norm_num
    omega
  · split
    · rename_i h1 h2
      norm_num at h1 h2
      simp only [List.cons_append, List.nil_append, read8]
      rw [read7BitLoop_continue _ _ _ _ _ (h128 _)]
      simp only [read8]
      rw [read7BitLoop_last _ _ _ _ _ (h128 n)]
      norm_num
      omega
    · split
      · rename_i h1 h2 h3
        norm_num at h1 h2 h3
        simp only [List.cons_append, List.nil_append, read8]
        rw [read7BitLoop_continue _ _ _ _ _ (h128 _)]
        simp only [read8]
        rw [read7BitLoop_continue _ _ _ _ _ (h128 _)]
        simp only [read8]
        rw [read7BitLoop_last _ _ _ _ _ (h128 n)]
        norm_num
        omega
      · rename_i h1 h2 h3
        norm_num at h1 h2 h3
        simp only [List.cons_append, List.nil_append, read8]
        rw [read7BitLoop_continue _ _ _ _ _ (h128 _)]
        simp only [read8]
        rw [read7BitLoop_continue _ _ _ _ _ (h128 _)]
        simp only [read8]
        rw [read7BitLoop_continue _ _ _ _ _ (h128 _)]
        simp only [read8]
        rw [read7BitLoop_full _ _ _ _ (h256 n)]
        norm_num
        omega

/-- C8 (amended): when the session is not FAILED, has its main stream, has no
flow `id` yet and `createSpecialFlow` does not take the signature, `createFlow`
creates a NetStream flow for every signature that begins with `00 54 43 04`:
for the 4 bytes followed by the varint encoding of a stream id `n` and by any
further bytes, the flow is bound to the stream `n` when the main stream has it
and the creation fails otherwise; the 4 bytes alone are read as the stream 0;
every signature shorter than 4 bytes or beginning otherwise fails the creation
and leaves the session as it is. -/
theorem netstream_signature (E : Env F) (s : FlowManager F) (id : Nat) (sig : List Nat)
    (hs : s.status ≠ Status.FAILED) (hmain : s._pMainStream = true)
    (hfind : s.find id = none) (hspecial : E.createSpecialFlow id sig = none) :
    (∀ n extra, n < 2 ^ 29 →
        sig = [0x00, 0x54, 0x43, 0x04] ++ BinaryWriter.write7BitValue n ++ extra →
        s.createFlow E id sig
          = match E.getStream n with
            | some pStream =>
              (some id, { s with _flows := (id, E.newFlow id sig pStream) :: s._flows })
            | none => (none, s))
    ∧ (sig = [0x00, 0x54, 0x43, 0x04] →
        s.createFlow E id sig
          = match E.getStream 0 with
            | some pStream =>
              (some id, { s with _flows := (id, E.newFlow id sig pStream) :: s._flows })
            | none => (none, s))
    ∧ (¬ (sig.length > 3 ∧ sig.take 4 = [0x00, 0x54, 0x43, 0x04]) →
        s.createFlow E id sig = (none, s)) := by
  have hcreate : s.createFlow E id sig
      = if sig.length > 3 ∧ sig.take 4 = [0x00, 0x54, 0x43, 0x04] then
          match E.getStream (read7BitValue (sig.drop 4)).1 with
          | some pStream =>
            (some id, { s with _flows := (id, E.newFlow id sig pStream) :: s._flows })
          | none => (none, s)
        else (none, s) := by
    unfold FlowManager.createFlow
    rw [if_neg hs, if_neg (by simp [hmain]), if_neg (by simp [hfind]), hspecial]
  refine ⟨?_, ?_, ?_⟩
  · intro n extra hn hsig
    have h1 : sig.length > 3 ∧ sig.take 4 = [0x00, 0x54, 0x43, 0x04] := by
      rw [hsig]; simp
    have h2 : sig.drop 4 = BinaryWriter.write7BitValue n ++ extra := by
      rw [hsig]; simp
    rw [hcreate, if_pos h1, h2, read7BitValue_write7BitValue n extra hn]
  · intro hsig
    have h1 : sig.length > 3 ∧ sig.take 4 = [0x00, 0x54, 0x43, 0x04] := by
      rw [hsig]; simp
    have h2 : (read7BitValue (sig.drop 4)).1 = 0 := by
      rw [hsig]; decide
    rw [hcreate, if_pos h1, h2]
  · intro hn
    rw [hcreate, if_neg hn]

/-- The signature of the stream 1 followed by the byte `AA` creates a flow bound
to the stream 1. -/
theorem netstream_signature_witness :
    sampleSession.createFlow sampleEnv 2 [0x00, 0x54, 0x43, 0x04, 1, 0xAA]
      = (some 2, { sampleSession with
          _flows := [(2, sampleEnv.newFlow 2 [0x00, 0x54, 0x43, 0x04, 1, 0xAA] 1)] }) :=
  (netstream_signature sampleEnv sampleSession 2 [0x00, 0x54, 0x43, 0x04, 1, 0xAA]
    (by decide) rfl (by decide) rfl).1 1 [0xAA] (by decide) (by decide)

/-- C8, counterexample: `00 54 43 04 01` is the signature of the stream 1; with
the extra byte `AA` behind it `createSpecialFlow` does not take it, and
`createFlow` does not fail: it creates the flow 2, bound to the stream 1. -/
theorem netstream_signature_counterexample :
    [0x00, 0x54, 0x43, 0x04, 1, 0xAA] = [0x00, 0x54, 0x43, 0x04, 1] ++ [0xAA]
    ∧ [0x00, 0x54, 0x43, 0x04, 1] = [0x00, 0x54, 0x43, 0x04] ++ BinaryWriter.write7BitValue 1
    ∧ sampleEnv.createSpecialFlow 2 [0x00, 0x54, 0x43, 0x04, 1, 0xAA] = none
    ∧ (sampleSession.createFlow sampleEnv 2 [0x00, 0x54, 0x43, 0x04, 1, 0xAA]).1 = some 2
    ∧ (sampleSession.createFlow sampleEnv 2 [0x00, 0x54, 0x43, 0x04, 1, 0xAA]).2._flows
        = [(2, sampleEnv.newFlow 2 [0x00, 0x54, 0x43, 0x04, 1, 0xAA] 1)] := by
  decide

end Varint

section HeaderFuel

theorem read8_length_le (r : List Nat) : (read8 r).2.length ≤ r.length := by
  cases r <;> simp [read8]

/-- The loop over the unknown header parts ends within `available message`
iterations: more fuel does not change its result. -/
theorem skipHeaderParts_fuel : ∀ (fuel1 fuel2 length : Nat) (message : List Nat),
    available message ≤ fuel1 → available message ≤ fuel2 →
    FlowManager.skipHeaderParts fuel1 length message
      = FlowManager.skipHeaderParts fuel2 length message := by
  intro fuel1
  induction fuel1 with
  | zero =>
    intro fuel2 length message h1 _
    have hm : available message = 0 := by omega
    cases fuel2 with
    | zero => rfl
    | succ n => simp [FlowManager.skipHeaderParts, hm]
  | succ n ih =>
    intro fuel2 length message h1 h2
    cases fuel2 with
    | zero =>
      have hm : available message = 0 := by omega
      simp [FlowManager.skipHeaderParts, hm]
    | succ k =>
      rw [FlowManager.skipHeaderParts, FlowManager.skipHeaderParts]
      by_cases hc : length > 0 ∧ available message > 0
      · rw [if_pos hc, if_pos hc]
        have hlen : available (read8 (next length message)).2 + 1 ≤ available message := by
          have h3 := read8_length_le (next length message)
          have h4 : (next length message).length + 1 ≤ message.length := by
            simp only [next, List.length_drop]
            have := hc.1
            have := hc.2
            simp only [available] at *
            omega
          simp only [available] at *
          omega
        exact ih k _ _ (by omega) (by omega)
      · rw [if_neg hc, if_neg hc]

end HeaderFuel

section Types
variable {F : Type}

/-- C11, the code at a truncated sub-message: a packet that ends right behind
the size field of a `0x0F` sub-message announcing 5 bytes makes `receive` hand
to `handleP2PAddressExchange` the 5 bytes that follow the packet in memory; a
truncated `0x4C` closes the session; a truncated request is dispatched to its
flow with bytes that are not in the packet. -/
theorem truncated_submessage_dispatched :
    (FlowManager.receive sampleEnv [0x0f, 0, 5] [1, 2, 3, 4, 5, 6] sampleSession).trace
      = [⟨0x0f, 5, [1, 2, 3, 4, 5], [Event.handleP2PAddressExchange [1, 2, 3, 4, 5]]⟩]
    ∧ (FlowManager.receive sampleEnv [0x4c, 0, 5, 1] [] sampleSession).state.status
      = Status.FAILED
    ∧ (FlowManager.receive sampleEnv [0x10, 0, 5, 0, 2] [1, 1, 9, 9]
        { sampleSession with _flows := [(2, 5)] }).trace
      = [⟨0x10, 5, [0, 2, 1, 1, 9], [Event.flowReceive 2 1 1 [9] 0, Event.flowCommit 2]⟩]
    ∧ (FlowManager.receive sampleEnv [0x10, 0, 5, 0, 2] [1, 1, 9, 9]
        { sampleSession with _flows := [(2, 5)] }).state._flows = [(2, 106)] := by
  decide

theorem handle_0x4c (E : Env F) (m : List Nat) (s : FlowManager F) (l : Locals) :
    FlowManager.handle E 0x4c m s l = ⟨Ctl.ret, s.close.1, l, s.close.2⟩ := by
  simp [FlowManager.handle]

/-- C12 (amended): on a `0x4C` sub-message `receive` calls `close()` and
returns: every connection of the map is closed and unsubscribed, the current
connection is reset, the status becomes FAILED, and no message is written on
the connection. -/
theorem peer_close_fails_session (E : Env F) (beyond : List Nat) (fuel : Nat)
    (reader : List Nat) (s : FlowManager F) (l : Locals) :
    (FlowManager.receiveLoop E beyond (fuel + 1) 0x4c reader s l).exit = Exit.returned
    ∧ (FlowManager.receiveLoop E beyond (fuel + 1) 0x4c reader s l).state
        = { s with _pConnection := none, status := Status.FAILED }
    ∧ (FlowManager.receiveLoop E beyond (fuel + 1) 0x4c reader s l).state.status = Status.FAILED
    ∧ (FlowManager.receiveLoop E beyond (fuel + 1) 0x4c reader s l).trace.map (fun v => v.calls)
        = [(s._mapConnections.map
            (fun a => [Event.connectionClose a, Event.unsubscribe a])).flatten]
    ∧ (∀ v ∈ (FlowManager.receiveLoop E beyond (fuel + 1) 0x4c reader s l).trace,
        ∀ type length, Event.writeMessage type length ∉ v.calls) := by
  rw [FlowManager.receiveLoop, if_neg (by decide)]
  simp only [FlowManager.body, handle_0x4c]
  simp [FlowManager.close]

/-- C12, counterexample: after a `0x4C` sub-message the status of the connected
session is FAILED, not NEAR_CLOSED, and the calls made are the close and the
unsubscription of its connection: no `0x4C` is written. -/
theorem peer_close_fails_session_counterexample :
    (FlowManager.receive sampleEnv [0x4c, 0, 0] [] sampleSession).state.status = Status.FAILED
    ∧ (FlowManager.receive sampleEnv [0x4c, 0, 0] [] sampleSession).state.status
        ≠ Status.NEAR_CLOSED
    ∧ (FlowManager.receive sampleEnv [0x4c, 0, 0] [] sampleSession).trace.map (fun v => v.calls)
        = [[Event.connectionClose 1, Event.unsubscribe 1]] := by
  decide

theorem handle_0x18 (E : Env F) (m : List Nat) (s : FlowManager F) (l : Locals) :
    FlowManager.handle E 0x18 m s l = ⟨Ctl.ret, s, l, []⟩ := by
  simp [FlowManager.handle]

/-- C13 (amended): `0x18` is not a case of the switch (its case is commented
out): on a `0x18` sub-message `receive` returns as for any unknown type; no
writer is marked, nobody is called, the session is left as it is and the
sub-messages that follow are not processed. -/
theorem nack_type_unknown (E : Env F) (beyond : List Nat) (fuel : Nat) (reader : List Nat)
    (s : FlowManager F) (l : Locals) :
    (FlowManager.receiveLoop E beyond (fuel + 1) 0x18 reader s l).exit = Exit.returned
    ∧ (FlowManager.receiveLoop E beyond (fuel + 1) 0x18 reader s l).state = s
    ∧ (FlowManager.receiveLoop E beyond (fuel + 1) 0x18 reader s l).trace.map
        (fun v => (v.type, v.calls)) = [(0x18, [])] := by
  rw [FlowManager.receiveLoop, if_neg (by decide)]
  simp only [FlowManager.body, handle_0x18]
  simp

/-- C13, counterexample: a `0x18` sub-message naming the writer 2 and the stage
3, followed by a keep-alive: `receive` returns on the first, calls nobody, and
the keep-alive is not answered. -/
theorem nack_type_unknown_counterexample :
    (FlowManager.receive sampleEnv [0x18, 0, 2, 2, 3, 0x01, 0, 0] [] sampleSession).exit
      = Exit.returned
    ∧ (FlowManager.receive sampleEnv [0x18, 0, 2, 2, 3, 0x01, 0, 0] [] sampleSession).trace
      = [⟨0x18, 2, [2, 3], []⟩]
    ∧ (FlowManager.receive sampleEnv [0x18, 0, 2, 2, 3, 0x01, 0, 0] [] sampleSession).reader
      = [2, 3, 0x01, 0, 0] := by
  decide

theorem handle_0x01 (E : Env F) (m : List Nat) (s : FlowManager F) (l : Locals)
    (hconn : s._pConnection.isSome = true) :
    FlowManager.handle E 0x01 m s l = ⟨Ctl.next, s, l, [Event.writeMessage 0x41 0]⟩ := by
  simp [FlowManager.handle, hconn]

/-- C14: on a `0x01` sub-message met with no current flow (as at every
sub-message that is not a `0x11`) in a session that has its connection,
`receive` writes one message of type `0x41` and length 0 on the connection and
nothing else; the session (status, flow table, last keep-alive time) and the
locals are the same after the pass as before, and the loop goes on with the
next sub-message. -/
theorem keepalive_answered (E : Env F) (beyond : List Nat) (fuel : Nat) (reader : List Nat)
    (s : FlowManager F) (l : Locals)
    (hconn : s._pConnection.isSome = true) (hl : l.pFlow = none) :
    (FlowManager.body E beyond 0x01 reader s l).step
      = ⟨Ctl.next, s, l, [Event.writeMessage 0x41 0]⟩
    ∧ (FlowManager.body E beyond 0x01 reader s l).step.state.status = s.status
    ∧ (FlowManager.body E beyond 0x01 reader s l).step.state._flows = s._flows
    ∧ (FlowManager.body E beyond 0x01 reader s l).step.state._lastKeepAlive = s._lastKeepAlive
    ∧ (FlowManager.receiveLoop E beyond (fuel + 1) 0x01 reader s l).trace
        = ⟨0x01, (read16 reader).1, ((read16 reader).2 ++ beyond).take (read16 reader).1,
            [Event.writeMessage 0x41 0]⟩
          :: (FlowManager.receiveLoop E beyond fuel
                (nextType (next (read16 reader).1 (read16 reader).2)).1
                (nextType (next (read16 reader).1 (read16 reader).2)).2 s l).trace
    ∧ (FlowManager.receiveLoop E beyond (fuel + 1) 0x01 reader s l).state
        = (FlowManager.receiveLoop E beyond fuel
                (nextType (next (read16 reader).1 (read16 reader).2)).1
                (nextType (next (read16 reader).1 (read16 reader).2)).2 s l).state := by
  have hb : FlowManager.body E beyond 0x01 reader s l
      = ⟨⟨Ctl.next, s, l, [Event.writeMessage 0x41 0]⟩, (read16 reader).1,
          ((read16 reader).2 ++ beyond).take (read16 reader).1,
          (nextType (next (read16 reader).1 (read16 reader).2)).1,
          (nextType (next (read16 reader).1 (read16 reader).2)).2⟩ := by
    simp only [FlowManager.body, handle_0x01 E _ s l hconn, if_true, commit_none E _ s l hl]
    simp
  refine ⟨by rw [hb], by rw [hb], by rw [hb], by rw [hb], ?_, ?_⟩
  · rw [receiveLoop_succ E beyond fuel 0x01 reader s l (by decide), hb]
    simp
  · rw [FlowManager.receiveLoop, if_neg (by decide), hb]

/-- A keep-alive followed by a keep-alive echo in the connected session. -/
theorem keepalive_answered_witness :
    (FlowManager.body sampleEnv [] 0x01 [0, 0, 0x41, 0, 0] sampleSession ⟨0, none, 0, 0⟩).step
      = ⟨Ctl.next, sampleSession, ⟨0, none, 0, 0⟩, [Event.writeMessage 0x41 0]⟩ :=
  (keepalive_answered sampleEnv [] 3 [0, 0, 0x41, 0, 0] sampleSession ⟨0, none, 0, 0⟩ rfl rfl).1

end Types

section Closing

variable {F : Type}

theorem severity_le_failed (a : Status) : a.severity ≤ Status.FAILED.severity := by
  cases a <;> decide

theorem severity_failed (a : Status) (h : Status.FAILED.severity ≤ a.severity) :
    a = Status.FAILED := by
  cases a <;> first | rfl | (exact absurd h (by decide))

theorem request11_status (E : Env F) (type : Nat) (m : List Nat) (s : FlowManager F)
    (l : Locals) : (FlowManager.request11 E type m s l).state.status = s.status := by
  unfold FlowManager.request11
  cases l.pFlow with
  | none => rfl
  | some id =>
    by_cases h : s.status ≠ Status.FAILED
    · simp only [h, if_true, ne_eq, not_false_eq_true, FlowManager.onFlow]
    · simp only [h, if_false]

theorem request10_status (E : Env F) (m : List Nat) (s : FlowManager F) (l : Locals) :
    (FlowManager.request10 E m s l).state.status = s.status := by
  by_cases hs : s.status = Status.FAILED
  · unfold FlowManager.request10
    simp only [hs, if_true]
  · obtain ⟨c, msg, _, hc, h | ⟨_, h⟩ | ⟨_, h⟩⟩ := request10_cases E m s l hs
    · rw [h]; exact hc
    · rw [h]; exact hc
    · rw [h]; exact hc

/-- The status after the switch is the one before, FAILED, or the one a hook
left. -/
theorem handle_status (E : Env F) (type : Nat) (m : List Nat) (s : FlowManager F)
    (l : Locals) :
    (FlowManager.handle E type m s l).state.status = s.status
    ∨ (FlowManager.handle E type m s l).state.status = Status.FAILED
    ∨ (FlowManager.handle E type m s l).state.status
        = (E.handleP2PAddressExchange m s).status
    ∨ (FlowManager.handle E type m s l).state.status = (E.handleProtocolFailed s).status := by
  by_cases h10 : type = 0x10
  · subst h10; rw [handle_0x10]; exact Or.inl (request10_status E m s l)
  by_cases h11 : type = 0x11
  · subst h11; rw [handle_0x11]; exact Or.inl (request11_status E 0x11 m s l)
  rcases handle_other_state E type m s l h10 h11 with h | h | h | h | h <;> rw [h]
  · exact Or.inr (Or.inr (Or.inl rfl))
  · exact Or.inl rfl
  · exact Or.inr (Or.inr (Or.inr rfl))
  · exact Or.inr (Or.inl rfl)
  · exact Or.inl rfl

theorem handle_severity (E : Env F)
    (hp2p : ∀ m s, s.status.severity ≤ (E.handleP2PAddressExchange m s).status.severity)
    (hfailed : ∀ s, s.status.severity ≤ (E.handleProtocolFailed s).status.severity)
    (type : Nat) (m : List Nat) (s : FlowManager F) (l : Locals) :
    s.status.severity ≤ (FlowManager.handle E type m s l).state.status.severity := by
  rcases handle_status E type m s l with h | h | h | h <;> rw [h]
  · exact severity_le_failed _
  · exact hp2p m s
  · exact hfailed s

theorem body_severity (E : Env F)
    (hp2p : ∀ m s, s.status.severity ≤ (E.handleP2PAddressExchange m s).status.severity)
    (hfailed : ∀ s, s.status.severity ≤ (E.handleProtocolFailed s).status.severity)
    (beyond : List Nat) (type : Nat) (reader : List Nat) (s : FlowManager F) (l : Locals) :
    s.status.severity ≤ (FlowManager.body E beyond type reader s l).step.state.status.severity := by
  unfold FlowManager.body
  simp only
  split
  · simp only [commit_status]
    exact handle_severity E hp2p hfailed _ _ _ _
  · exact handle_severity E hp2p hfailed _ _ _ _

theorem receiveLoop_severity (E : Env F)
    (hp2p : ∀ m s, s.status.severity ≤ (E.handleP2PAddressExchange m s).status.severity)
    (hfailed : ∀ s, s.status.severity ≤ (E.handleProtocolFailed s).status.severity)
    (beyond : List Nat) :
    ∀ (fuel type : Nat) (reader : List Nat) (s : FlowManager F) (l : Locals),
      s.status.severity
        ≤ (FlowManager.receiveLoop E beyond fuel type reader s l).state.status.severity := by
  intro fuel
  induction fuel with
  | zero => intro type reader s l; exact Nat.le_refl _
  | succ fuel ih =>
    intro type reader s l
    unfold FlowManager.receiveLoop
    by_cases h : type = 0xFF
    · simp only [h, if_true]; exact Nat.le_refl _
    · simp only [h, if_false]
      have hb := body_severity E hp2p hfailed beyond type reader s l
      split
      · exact hb
      · exact hb
      · exact Nat.le_trans hb (ih _ _ _ _)

theorem apply_severity (E : Env F)
    (hp2p : ∀ m s, s.status.severity ≤ (E.handleP2PAddressExchange m s).status.severity)
    (hfailed : ∀ s, s.status.severity ≤ (E.handleProtocolFailed s).status.severity)
    (s : Session F) (op : Op) :
    s.core.status.severity ≤ (s.apply E op).core.status.severity := by
  cases op with
  | receive packet beyond => exact receiveLoop_severity E hp2p hfailed beyond _ _ _ _ _
  | readAsync peerId buf size => exact Nat.le_refl _
  | createFlow id signature =>
    show _ ≤ (s.core.createFlow E id signature).2.status.severity
    rw [createFlow_status]
  | close => exact severity_le_failed _

theorem foldl_severity (E : Env F)
    (hp2p : ∀ m s, s.status.severity ≤ (E.handleP2PAddressExchange m s).status.severity)
    (hfailed : ∀ s, s.status.severity ≤ (E.handleProtocolFailed s).status.severity)
    (ops : List Op) :
    ∀ s : Session F,
      s.core.status.severity ≤ (ops.foldl (Session.apply E) s).core.status.severity := by
  induction ops with
  | nil => intro s; exact Nat.le_refl _
  | cons op ops ih =>
    intro s
    exact Nat.le_trans (apply_severity E hp2p hfailed s op) (ih _)

/-- C15: when the two handlers a subclass supplies (`handleP2PAddressExchange`,
`handleProtocolFailed`) do not move the status backwards, no sequence of
operations (receive, readAsync, createFlow, close) on a session does: the rank
of the status in STOPPED < HANDSHAKE < CONNECTED < NEAR_CLOSED < FAILED after
the operations is at least the rank before, after each single operation too; a
new FlowManager is STOPPED, the lowest rank; and a FAILED session stays
FAILED. -/
theorem status_monotonic (E : Env F)
    (hp2p : ∀ m s, s.status.severity ≤ (E.handleP2PAddressExchange m s).status.severity)
    (hfailed : ∀ s, s.status.severity ≤ (E.handleProtocolFailed s).status.severity)
    (now : Nat) (pOnMedia : Bool) (ops : List Op) (s : Session F) :
    (Session.create now pOnMedia : Session F).core.status = Status.STOPPED
    ∧ (∀ a : Status, Status.STOPPED.severity ≤ a.severity)
    ∧ (Status.STOPPED.severity < Status.HANDSHAKE.severity
        ∧ Status.HANDSHAKE.severity < Status.CONNECTED.severity
        ∧ Status.CONNECTED.severity < Status.NEAR_CLOSED.severity
        ∧ Status.NEAR_CLOSED.severity < Status.FAILED.severity)
    ∧ (∀ op, s.core.status.severity ≤ (s.apply E op).core.status.severity)
    ∧ s.core.status.severity ≤ (ops.foldl (Session.apply E) s).core.status.severity
    ∧ (s.core.status = Status.FAILED →
        (ops.foldl (Session.apply E) s).core.status = Status.FAILED) := by
  refine ⟨rfl, fun a => Nat.zero_le _, by decide, apply_severity E hp2p hfailed s,
    foldl_severity E hp2p hfailed ops s, fun h => ?_⟩
  apply severity_failed
  rw [← h]
  exact foldl_severity E hp2p hfailed ops s

theorem status_monotonic_witness :
    (∀ m (s : FlowManager Nat),
        s.status.severity ≤ (sampleEnv.handleP2PAddressExchange m s).status.severity)
    ∧ (∀ s : FlowManager Nat,
        s.status.severity ≤ (sampleEnv.handleProtocolFailed s).status.severity)
    ∧ (Session.create 0 false : Session Nat).core.status = Status.STOPPED
    ∧ (⟨sampleSession, Media.create false⟩ : Session Nat).core.status.severity
        ≤ ([Op.readAsync [1] [] 0, Op.receive [0x0c, 0, 0] [], Op.createFlow 2 [],
            Op.receive [0x41, 0, 0] [], Op.close].foldl (Session.apply sampleEnv)
            ⟨sampleSession, Media.create false⟩).core.status.severity :=
  ⟨fun _ _ => Nat.le_refl _, fun _ => severity_le_failed _,
    (status_monotonic sampleEnv (fun _ _ => Nat.le_refl _) (fun _ => severity_le_failed _)
      0 false [] ⟨sampleSession, Media.create false⟩).1,
    (status_monotonic sampleEnv (fun _ _ => Nat.le_refl _) (fun _ => severity_le_failed _)
      0 false [Op.readAsync [1] [] 0, Op.receive [0x0c, 0, 0] [], Op.createFlow 2 [],
            Op.receive [0x41, 0, 0] [], Op.close] ⟨sampleSession, Media.create false⟩).2.2.2.2.1⟩

/-- C16 (amended): calling close() twice leaves the same state as calling it
once: status FAILED, no current connection, the connection map and the flow
table as before the first call.  The second call closes and unsubscribes every
connection of the map again, as the first did. -/
theorem close_twice (s : FlowManager F) :
    s.close.1.close.1 = s.close.1
    ∧ s.close.1.status = Status.FAILED
    ∧ s.close.1._pConnection = none
    ∧ s.close.1._mapConnections = s._mapConnections
    ∧ s.close.1._flows = s._flows
    ∧ s.close.1.close.2 = s.close.2
    ∧ s.close.2 = (s._mapConnections.map
        (fun a => [Event.connectionClose a, Event.unsubscribe a])).flatten :=
  ⟨rfl, rfl, rfl, rfl, rfl, rfl, rfl⟩

/-- C16 as stated fails: the second close() of the sample session closes and
unsubscribes its connection a second time. -/
theorem close_twice_counterexample :
    sampleSession.close.1.close.2 = [Event.connectionClose 1, Event.unsubscribe 1]
    ∧ sampleSession.close.1.close.2 ≠ [] := by
  decide

end Closing

section MediaPackets

theorem write24_length (v : Nat) : (BinaryWriter.write24 v).length = 3 := rfl

theorem write32_length (v : Nat) : (BinaryWriter.write32 v).length = 4 := rfl

theorem write24_value (v : Nat) (h : v < 2 ^ 24) :
    v / 65536 % 256 * 65536 + v / 256 % 256 * 256 + v % 256 = v := by
  omega

/-- The bytes `RTMFPMediaPacket` builds when `size + 15` does not wrap. -/
theorem RTMFPMediaPacket_bytes (data : List Nat) (time : Nat) (audio : Bool)
    (hn : data.length < 2 ^ 24) :
    RTMFPMediaPacket data time audio
      = (if audio then 0x08 else 0x09) :: (BinaryWriter.write24 data.length
          ++ BinaryWriter.write24 time ++ [0, 0, 0, 0] ++ data
          ++ BinaryWriter.write32 (11 + data.length)) := by
  unfold RTMFPMediaPacket
  have h1 : (data.length + 15) % 2 ^ 32 = data.length + 15 := by omega
  have h2 : (11 + data.length) % 2 ^ 32 = 11 + data.length := by omega
  rw [h1, h2]
  rw [List.take_of_length_le]
  · cases audio <;> simp [BinaryWriter.write32, BinaryWriter.write24]
  · cases audio <;> simp [BinaryWriter.write32, BinaryWriter.write24]

/-- C19: for a payload of n < 2^24 bytes and a time t < 2^24, of either kind,
`RTMFPMediaPacket` builds n + 15 bytes: the type byte (0x08 audio, 0x09 video),
n on 3 bytes big-endian, t on 3 bytes big-endian, 4 zero bytes, the payload
unchanged and the footer 11 + n on 4 bytes big-endian; the 3 bytes of n and of
t give n and t back, and read as an FLV tag the bytes give the same kind, time
and payload. -/
theorem media_packet_roundtrip (data : List Nat) (time : Nat) (audio : Bool)
    (hn : data.length < 2 ^ 24) (ht : time < 2 ^ 24) :
    (RTMFPMediaPacket data time audio).length = data.length + 15
    ∧ RTMFPMediaPacket data time audio
        = [if audio then 0x08 else 0x09]
          ++ [data.length / 65536 % 256, data.length / 256 % 256, data.length % 256]
          ++ [time / 65536 % 256, time / 256 % 256, time % 256]
          ++ [0, 0, 0, 0] ++ data
          ++ [(11 + data.length) / 16777216 % 256, (11 + data.length) / 65536 % 256,
              (11 + data.length) / 256 % 256, (11 + data.length) % 256]
    ∧ data.length / 65536 % 256 * 65536 + data.length / 256 % 256 * 256
        + data.length % 256 = data.length
    ∧ time / 65536 % 256 * 65536 + time / 256 % 256 * 256 + time % 256 = time
    ∧ (11 + data.length) / 16777216 % 256 * 16777216
        + (11 + data.length) / 65536 % 256 * 65536
        + (11 + data.length) / 256 % 256 * 256 + (11 + data.length) % 256
        = 11 + data.length
    ∧ parseFlvTag (RTMFPMediaPacket data time audio) = some (audio, time, data) := by
  have hb := RTMFPMediaPacket_bytes data time audio hn
  refine ⟨?_, ?_, write24_value _ hn, write24_value _ ht, by omega, ?_⟩
  · rw [hb]; simp [BinaryWriter.write32, BinaryWriter.write24]
  · rw [hb]; simp [BinaryWriter.write32, BinaryWriter.write24]
  · rw [hb]
    simp only [BinaryWriter.write24, List.cons_append, List.nil_append, parseFlvTag]
    rw [write24_value _ hn, write24_value _ ht]
    rw [if_pos]
    · cases audio <;> simp
    · refine ⟨?_, ?_, ?_⟩
      · cases audio <;> simp
      · simp [BinaryWriter.write32]
      · simp

theorem media_packet_roundtrip_witness :
    [1, 2, 3].length < 2 ^ 24 ∧ 5 < 2 ^ 24
    ∧ RTMFPMediaPacket [1, 2, 3] 5 false
        = [0x09, 0, 0, 3, 0, 0, 5, 0, 0, 0, 0, 1, 2, 3, 0, 0, 0, 14]
    ∧ parseFlvTag (RTMFPMediaPacket [1, 2, 3] 5 false) = some (false, 5, [1, 2, 3]) :=
  ⟨by decide, by decide, by decide,
    (media_packet_roundtrip [1, 2, 3] 5 false (by decide) (by decide)).2.2.2.2.2⟩

end MediaPackets

section Reading

theorem memcpy_length (buf : List Nat) (offset : Nat) (src : List Nat)
    (h : offset + src.length ≤ buf.length) : (memcpy buf offset src).length = buf.length := by
  unfold memcpy
  simp only [List.length_append, List.length_take, List.length_drop]
  omega

theorem memcpy_take (buf : List Nat) (offset : Nat) (src : List Nat)
    (h : offset + src.length ≤ buf.length) :
    (memcpy buf offset src).take (offset + src.length) = buf.take offset ++ src := by
  unfold memcpy
  rw [List.take_append_of_le_length]
  · rw [List.take_of_length_le]
    simp only [List.length_append, List.length_take]
    omega
  · simp only [List.length_append, List.length_take]
    omega

theorem memcpy_drop (buf : List Nat) (offset : Nat) (src : List Nat) (j : Nat)
    (h : offset + src.length ≤ buf.length) (hj : offset + src.length ≤ j) :
    (memcpy buf offset src).drop j = buf.drop j := by
  unfold memcpy
  have hl : (buf.take offset ++ src).length = offset + src.length := by
    simp only [List.length_append, List.length_take]
    omega
  rw [List.drop_append_eq_append_drop, List.drop_of_length_le (by omega), hl, List.nil_append,
    List.drop_drop]
  congr 1
  omega

/-- What the copy loop does: it copies a number `k` of packets from the front
of the queue one after the other from `nbRead` on and leaves the others; it
ends with false exactly when a packet is left, `nbRead < size`, and the packet
is longer than `size - nbRead`. -/
theorem readLoop_spec (size : Nat) (h32 : size < 2 ^ 32) :
    ∀ (queue : List (List Nat)) (nb : Nat) (buf : List Nat),
      ∃ k, (readLoop size queue nb buf).queue = queue.drop k
        ∧ (readLoop size queue nb buf).nbRead = nb + (queue.take k).flatten.length
        ∧ (nb ≤ buf.length → size ≤ buf.length →
            (readLoop size queue nb buf).buf
              = buf.take nb ++ (queue.take k).flatten
                ++ buf.drop (nb + (queue.take k).flatten.length))
        ∧ ((readLoop size queue nb buf).ok = false ↔
            ∃ p rest, (readLoop size queue nb buf).queue = p :: rest
              ∧ (readLoop size queue nb buf).nbRead < size
              ∧ size - (readLoop size queue nb buf).nbRead < p.length)
        ∧ (0 < k → nb + (queue.take k).flatten.length ≤ size) := by
  intro queue
  induction queue with
  | nil =>
    intro nb buf
    refine ⟨0, ?_⟩
    simp [readLoop]
  | cons packet queue ih =>
    intro nb buf
    unfold readLoop
    by_cases h1 : nb < size
    · have hmod : (size + 2 ^ 32 - nb) % 2 ^ 32 = size - nb := by omega
      rw [if_pos h1, hmod]
      by_cases h2 : packet.length > size - nb
      · rw [if_pos h2]
        refine ⟨0, ?_⟩
        simp only [List.drop_zero, List.take_zero, List.flatten_nil, List.length_nil,
          Nat.add_zero, List.append_nil, List.take_append_drop, Nat.lt_irrefl, true_and,
          implies_true, false_implies, and_true, true_iff]
        exact ⟨packet, queue, rfl, h1, h2⟩
      · rw [if_neg h2]
        obtain ⟨k, hq, hn, hb, hok, hle⟩ := ih (nb + packet.length) (memcpy buf nb packet)
        refine ⟨k + 1, ?_, ?_, ?_, ?_, ?_⟩
        · rw [hq]; rfl
        · rw [hn]
          simp only [List.take_succ_cons, List.flatten_cons, List.length_append]
          omega
        · intro hnb hsz
          have hfit : nb + packet.length ≤ buf.length := by omega
          rw [hb (by rw [memcpy_length _ _ _ hfit]; exact hfit)
                (by rw [memcpy_length _ _ _ hfit]; exact hsz)]
          rw [memcpy_take _ _ _ hfit, memcpy_drop _ _ _ _ hfit (by omega)]
          simp only [List.take_succ_cons, List.flatten_cons, List.length_append,
            List.append_assoc, Nat.add_assoc]
        · exact hok
        · intro _
          clear hok hb hq hn
          simp only [List.take_succ_cons, List.flatten_cons, List.length_append]
          by_cases hk : 0 < k
          · have := hle hk
            omega
          · have hk0 : k = 0 := by omega
            subst hk0
            simp only [List.take_zero, List.flatten_nil, List.length_nil]
            omega
    · rw [if_neg h1]
      refine ⟨0, ?_⟩
      simp only [List.drop_zero, List.take_zero, List.flatten_nil, List.length_nil,
        Nat.add_zero, List.append_nil, List.take_append_drop, Nat.lt_irrefl, true_and,
        implies_true, false_implies, and_true]
      constructor
      · intro h; exact absurd h (by decide)
      · rintro ⟨p, rest, _, h, _⟩; exact absurd h h1

end Reading

section Prologue

theorem lookup_key_eq {V : Type} (k a : List Nat) (v : V) (ps : List (List Nat × V))
    (h : k = a) : ((a, v) :: ps).lookup k = some v := by
  subst h
  simp [List.lookup]

theorem lookup_key_ne {V : Type} (k a : List Nat) (v : V) (ps : List (List Nat × V))
    (h : k ≠ a) : ((a, v) :: ps).lookup k = ps.lookup k := by
  have hk' : (k == a) = false := by simpa using h
  simp [List.lookup, hk']

theorem lookup_map_setQueue (ps : List (List Nat × List (List Nat))) (peerId k : List Nat)
    (q : List (List Nat)) :
    (ps.map (fun p => if p.1 = peerId then (p.1, q) else p)).lookup k
      = (ps.lookup k).map (fun old => if k = peerId then q else old) := by
  induction ps with
  | nil => rfl
  | cons p ps ih =>
    obtain ⟨a, b⟩ := p
    by_cases hid : a = peerId
    · rw [List.map_cons]
      simp only [hid, if_true]
      by_cases hk : k = peerId
      · rw [lookup_key_eq k peerId _ _ hk, lookup_key_eq k peerId _ _ hk]
        simp [hk]
      · rw [lookup_key_ne k peerId _ _ hk, lookup_key_ne k peerId _ _ hk]
        simpa [hid] using ih
    · rw [List.map_cons]
      simp only [hid, if_false]
      by_cases hk : k = a
      · rw [lookup_key_eq k a _ _ hk, lookup_key_eq k a _ _ hk]
        have : k ≠ peerId := by rw [hk]; exact hid
        simp [this]
      · rw [lookup_key_ne k a _ _ hk, lookup_key_ne k a _ _ hk]
        exact ih

/-- The queue of `peerId` after `setQueue`, when the map has an entry for it. -/
theorem queue_setQueue (m : Media) (peerId : List Nat) (q : List (List Nat))
    (h : (m._mediaPackets.lookup peerId).isSome = true) :
    (m.setQueue peerId q).queue peerId = q := by
  unfold Media.queue Media.setQueue
  simp only [lookup_map_setQueue]
  cases hl : m._mediaPackets.lookup peerId with
  | none => rw [hl] at h; exact absurd h (by decide)
  | some old => simp

/-- The queue of another peer id is not touched by `setQueue`. -/
theorem queue_setQueue_ne (m : Media) (peerId other : List Nat) (q : List (List Nat))
    (h : other ≠ peerId) : (m.setQueue peerId q).queue other = m.queue other := by
  unfold Media.queue Media.setQueue
  simp only [lookup_map_setQueue, if_neg h]
  cases m._mediaPackets.lookup other <;> rfl

theorem queue_ne_nil_lookup (m : Media) (peerId : List Nat) (h : m.queue peerId ≠ []) :
    (m._mediaPackets.lookup peerId).isSome = true := by
  unfold Media.queue at h
  cases hl : m._mediaPackets.lookup peerId with
  | none => rw [hl] at h; exact absurd rfl h
  | some old => rfl

/-- The result of `readAsync` on a CONNECTED session with a queued packet. -/
theorem readAsync_connected (m : Media) (peerId buf : List Nat) (size : Nat)
    (hq : m.queue peerId ≠ []) :
    readAsync Status.CONNECTED m peerId buf size
      = ⟨(if writesHeader m size then
            readLoop (size - _FlvHeader.length) (m.queue peerId) _FlvHeader.length
              (memcpy buf 0 _FlvHeader)
          else readLoop size (m.queue peerId) 0 buf).ok,
         (if writesHeader m size then
            readLoop (size - _FlvHeader.length) (m.queue peerId) _FlvHeader.length
              (memcpy buf 0 _FlvHeader)
          else readLoop size (m.queue peerId) 0 buf).nbRead,
         (if writesHeader m size then
            readLoop (size - _FlvHeader.length) (m.queue peerId) _FlvHeader.length
              (memcpy buf 0 _FlvHeader)
          else readLoop size (m.queue peerId) 0 buf).buf,
         ({ m with _firstRead := m._firstRead && !writesHeader m size }).setQueue peerId
          (if writesHeader m size then
            readLoop (size - _FlvHeader.length) (m.queue peerId) _FlvHeader.length
              (memcpy buf 0 _FlvHeader)
          else readLoop size (m.queue peerId) 0 buf).queue⟩ := by
  unfold readAsync
  have he : (m.queue peerId).isEmpty = false := by
    cases hqq : m.queue peerId with
    | nil => exact absurd hqq hq
    | cons a b => rfl
  simp only [ne_eq, not_true_eq_false, if_false, he, Bool.false_eq_true]

/-- C17 (amended): on a CONNECTED session with a packet queued for the peer,
a buffer of `size` bytes.  While the flag `_firstRead` of the FlowManager is
set and the buffer has more than 13 bytes, the read returns the 13 bytes of
`_FlvHeader` followed by a number (possibly zero) of whole packets from the
front of the queue, in order, removes these from the queue and clears the
flag.  A read with the flag cleared, or with at most 13 bytes, returns whole
packets from the front of the queue only, without the header, and leaves the
flag as it is: the header is given once per FlowManager, whatever the media
id. -/
theorem flv_prologue (m : Media) (peerId buf : List Nat) (size : Nat)
    (h32 : size < 2 ^ 32) (hbuf : size ≤ buf.length) (hq : m.queue peerId ≠ []) :
    _FlvHeader
        = [0x46, 0x4C, 0x56, 0x01, 0x05, 0x00, 0x00, 0x00, 0x09, 0x00, 0x00, 0x00, 0x00]
    ∧ (m._firstRead = true → 13 < size →
        ∃ k, (readAsync Status.CONNECTED m peerId buf size).buf.take
                (readAsync Status.CONNECTED m peerId buf size).nbRead
              = _FlvHeader ++ ((m.queue peerId).take k).flatten
          ∧ (readAsync Status.CONNECTED m peerId buf size).nbRead
              = 13 + ((m.queue peerId).take k).flatten.length
          ∧ (readAsync Status.CONNECTED m peerId buf size).media.queue peerId
              = (m.queue peerId).drop k
          ∧ (readAsync Status.CONNECTED m peerId buf size).media._firstRead = false)
    ∧ (m._firstRead = false ∨ size ≤ 13 →
        ∃ k, (readAsync Status.CONNECTED m peerId buf size).buf.take
                (readAsync Status.CONNECTED m peerId buf size).nbRead
              = ((m.queue peerId).take k).flatten
          ∧ (readAsync Status.CONNECTED m peerId buf size).nbRead
              = ((m.queue peerId).take k).flatten.length
          ∧ (readAsync Status.CONNECTED m peerId buf size).media.queue peerId
              = (m.queue peerId).drop k
          ∧ (readAsync Status.CONNECTED m peerId buf size).media._firstRead
              = m._firstRead) := by
  have hlook := queue_ne_nil_lookup m peerId hq
  refine ⟨rfl, ?_, ?_⟩
  · intro hfirst hsize
    have hw : writesHeader m size = true := by
      unfold writesHeader
      rw [hfirst]
      simpa [_FlvHeader] using hsize
    rw [readAsync_connected m peerId buf size hq]
    simp only [hw, if_true]
    have hlen : _FlvHeader.length = 13 := rfl
    have hm : (memcpy buf 0 _FlvHeader).length = buf.length :=
      memcpy_length _ _ _ (by rw [hlen]; omega)
    obtain ⟨k, hqueue, hn, hb, _, _⟩ :=
      readLoop_spec (size - _FlvHeader.length) (by omega) (m.queue peerId)
        _FlvHeader.length (memcpy buf 0 _FlvHeader)
    refine ⟨k, ?_, ?_, ?_, ?_⟩
    · rw [hb (by rw [hm, hlen]; omega) (by rw [hm, hlen]; omega), hn]
      have ht : (memcpy buf 0 _FlvHeader).take _FlvHeader.length = _FlvHeader := by
        have := memcpy_take buf 0 _FlvHeader (by rw [hlen]; omega)
        simpa using this
      rw [ht, List.take_append_of_le_length (by simp), List.take_of_length_le (by simp)]
    · rw [hn, hlen]
    · rw [hqueue]
      exact queue_setQueue _ _ _ hlook
    · simp [Media.setQueue, hfirst]
  · intro hno
    have hw : writesHeader m size = false := by
      unfold writesHeader
      rcases hno with h | h
      · rw [h]; rfl
      · have : ¬ size > _FlvHeader.length := by
          show ¬ size > 13
          omega
        simp [this]
    rw [readAsync_connected m peerId buf size hq]
    simp only [hw, Bool.false_eq_true, if_false]
    obtain ⟨k, hqueue, hn, hb, _, _⟩ := readLoop_spec size h32 (m.queue peerId) 0 buf
    refine ⟨k, ?_, ?_, ?_, ?_⟩
    · rw [hb (Nat.zero_le _) hbuf, hn]
      simp
    · rw [hn]; simp
    · rw [hqueue]
      exact queue_setQueue _ _ _ hlook
    · simp [Media.setQueue]

theorem flv_prologue_witness :
    (64 < 2 ^ 32 ∧ 64 ≤ (List.replicate 64 0).length ∧ twoPeers.queue [1] ≠ [])
    ∧ (readAsync Status.CONNECTED twoPeers [1] (List.replicate 64 0) 64).buf.take 28
        = [0x46, 0x4C, 0x56, 0x01, 0x05, 0x00, 0x00, 0x00, 0x09, 0x00, 0x00, 0x00, 0x00,
           0x08, 0, 0, 0, 0, 0, 0, 0, 0, 0, 0, 0, 0, 0, 11]
    ∧ (twoPeers._firstRead = true → 13 < 64 →
        ∃ k, (readAsync Status.CONNECTED twoPeers [1] (List.replicate 64 0) 64).buf.take
                (readAsync Status.CONNECTED twoPeers [1] (List.replicate 64 0) 64).nbRead
              = _FlvHeader ++ ((twoPeers.queue [1]).take k).flatten
          ∧ (readAsync Status.CONNECTED twoPeers [1] (List.replicate 64 0) 64).nbRead
              = 13 + ((twoPeers.queue [1]).take k).flatten.length
          ∧ (readAsync Status.CONNECTED twoPeers [1] (List.replicate 64 0) 64).media.queue [1]
              = (twoPeers.queue [1]).drop k
          ∧ (readAsync Status.CONNECTED twoPeers [1] (List.replicate 64 0) 64).media._firstRead
              = false) :=
  ⟨⟨by decide, by decide, by decide⟩, by decide,
    (flv_prologue twoPeers [1] (List.replicate 64 0) 64 (by decide) (by decide)
      (by decide)).2.1⟩

/-- C17 as stated fails.  After a read for the media id 1 has taken the
header, the first read for the media id 2 returns its tag without the header;
and a first read into 20 bytes returns the header alone, with the tag still
queued. -/
theorem flv_prologue_counterexample :
    (readAsync Status.CONNECTED
        (readAsync Status.CONNECTED twoPeers [1] (List.replicate 64 0) 64).media [2]
        (List.replicate 64 0) 64).nbRead = 15
    ∧ (readAsync Status.CONNECTED
        (readAsync Status.CONNECTED twoPeers [1] (List.replicate 64 0) 64).media [2]
        (List.replicate 64 0) 64).buf.take 15
        = [0x09, 0, 0, 0, 0, 0, 0, 0, 0, 0, 0, 0, 0, 0, 11]
    ∧ (readAsync Status.CONNECTED twoPeers [1] (List.replicate 20 0) 20).nbRead = 13
    ∧ (readAsync Status.CONNECTED twoPeers [1] (List.replicate 20 0) 20).buf.take 13
        = _FlvHeader
    ∧ (readAsync Status.CONNECTED twoPeers [1] (List.replicate 20 0) 20).media.queue [1]
        = [RTMFPMediaPacket [] 0 true] := by
  decide

/-- C18: on the first read of a CONNECTED session into 28 bytes, with one
packet of 15 bytes queued, `readAsync` writes the 13 bytes of the header, then
returns false with `nbRead = 13` and leaves the packet in the queue, although
the 15 bytes left of the buffer would hold it: the header is counted twice
(`size -= 13` and `nbRead += 13`).  With the flag `_firstRead` cleared the
packet is copied into a buffer of 15 bytes and the call returns true. -/
theorem readAsync_header_counted_twice :
    (readAsync Status.CONNECTED twoPeers [1] (List.replicate 28 0) 28).ok = false
    ∧ (readAsync Status.CONNECTED twoPeers [1] (List.replicate 28 0) 28).nbRead = 13
    ∧ (readAsync Status.CONNECTED twoPeers [1] (List.replicate 28 0) 28).buf
        = _FlvHeader ++ List.replicate 15 0
    ∧ (readAsync Status.CONNECTED twoPeers [1] (List.replicate 28 0) 28).media.queue [1]
        = [RTMFPMediaPacket [] 0 true]
    ∧ (RTMFPMediaPacket [] 0 true).length = 15
    ∧ (readAsync Status.CONNECTED { twoPeers with _firstRead := false } [1]
        (List.replicate 15 0) 15).ok = true
    ∧ (readAsync Status.CONNECTED { twoPeers with _firstRead := false } [1]
        (List.replicate 15 0) 15).buf = RTMFPMediaPacket [] 0 true := by
  decide

end Prologue

section Prime

open Finset Filter Topology

set_option exponentiation.threshold 2000

set_option maxRecDepth 100000

/-- The term of rank `i` of the series of `arctan (1 / q)`. -/
theorem arctanTerm_le (S q i : Nat) (hq : 0 < q) :
    (arctanTerm S q i : ℝ) ≤ S * (((q : ℝ)⁻¹) ^ (2 * i + 1) / ((2 * i + 1 : ℕ) : ℝ))
    ∧ (S : ℝ) * (((q : ℝ)⁻¹) ^ (2 * i + 1) / ((2 * i + 1 : ℕ) : ℝ))
        ≤ (arctanTerm S q i : ℝ) + 1 := by
  have hb : 0 < (2 * i + 1) * q ^ (2 * i + 1) := Nat.mul_pos (by omega) (pow_pos hq _)
  have hbr : (0 : ℝ) < (((2 * i + 1) * q ^ (2 * i + 1) : ℕ) : ℝ) := by exact_mod_cast hb
  have heq : (S : ℝ) * (((q : ℝ)⁻¹) ^ (2 * i + 1) / ((2 * i + 1 : ℕ) : ℝ))
      = (S : ℝ) / (((2 * i + 1) * q ^ (2 * i + 1) : ℕ) : ℝ) := by
    have hq' : (q : ℝ) ≠ 0 := by exact_mod_cast hq.ne'
    have hi' : ((2 * i + 1 : ℕ) : ℝ) ≠ 0 := by exact_mod_cast (by omega : 2 * i + 1 ≠ 0)
    push_cast
    field_simp
    left
    ring
  rw [heq]
  unfold arctanTerm
  constructor
  · exact Nat.cast_div_le
  · rw [div_le_iff₀ hbr]
    have h := Nat.lt_mul_div_succ S hb
    have h' : (S : ℝ) ≤ (((2 * i + 1) * q ^ (2 * i + 1) : ℕ) : ℝ)
        * ((S / ((2 * i + 1) * q ^ (2 * i + 1)) : ℕ) + 1 : ℝ) := by
      exact_mod_cast h.le
    linarith [h']

/-- The partial sums of even length of the series, between the sums of the
rounded terms. -/
theorem partial_sum_bounds (S q : Nat) (hq : 0 < q) (m : Nat) :
    (evenTerms S q m : ℝ) - (oddTerms S q m + m)
        ≤ S * ∑ i ∈ range (2 * m),
            (-1 : ℝ) ^ i * (((q : ℝ)⁻¹) ^ (2 * i + 1) / ((2 * i + 1 : ℕ) : ℝ))
    ∧ (S : ℝ) * ∑ i ∈ range (2 * m),
            (-1 : ℝ) ^ i * (((q : ℝ)⁻¹) ^ (2 * i + 1) / ((2 * i + 1 : ℕ) : ℝ))
        ≤ (evenTerms S q m + m : ℝ) - oddTerms S q m := by
  induction m with
  | zero => simp [evenTerms, oddTerms]
  | succ m ih =>
    have he := arctanTerm_le S q (2 * m) hq
    have ho := arctanTerm_le S q (2 * m + 1) hq
    have h1 : (-1 : ℝ) ^ (2 * m) = 1 := by simp
    have h2 : (-1 : ℝ) ^ (2 * m + 1) = -1 := by rw [pow_succ, h1]; simp
    rw [show 2 * (m + 1) = 2 * m + 1 + 1 by ring, sum_range_succ, sum_range_succ, h1, h2]
    simp only [evenTerms, oddTerms]
    push_cast at he ho ih ⊢
    constructor <;> nlinarith [he.1, he.2, ho.1, ho.2, ih.1, ih.2]

/-- The partial sum of odd length, below the sums of the rounded terms. -/
theorem partial_sum_upper (S q : Nat) (hq : 0 < q) (m : Nat) :
    (S : ℝ) * ∑ i ∈ range (2 * m + 1),
            (-1 : ℝ) ^ i * (((q : ℝ)⁻¹) ^ (2 * i + 1) / ((2 * i + 1 : ℕ) : ℝ))
        ≤ (evenTerms S q (m + 1) + (m + 1) : ℝ) - oddTerms S q m := by
  have he := arctanTerm_le S q (2 * m) hq
  have hb := partial_sum_bounds S q hq m
  have h1 : (-1 : ℝ) ^ (2 * m) = 1 := by simp
  rw [sum_range_succ, h1]
  simp only [evenTerms]
  push_cast at he hb ⊢
  nlinarith [he.1, he.2, hb.1, hb.2]

/-- The terms of the series of `arctan x` decrease, for `0 ≤ x ≤ 1`. -/
theorem arctan_terms_antitone (x : ℝ) (h0 : 0 ≤ x) (h1 : x ≤ 1) :
    Antitone (fun i : ℕ => x ^ (2 * i + 1) / ((2 * i + 1 : ℕ) : ℝ)) := by
  apply antitone_nat_of_succ_le
  intro i
  have hp : x ^ (2 * (i + 1) + 1) ≤ x ^ (2 * i + 1) :=
    pow_le_pow_of_le_one h0 h1 (by omega)
  have hd : ((2 * i + 1 : ℕ) : ℝ) ≤ ((2 * (i + 1) + 1 : ℕ) : ℝ) := by
    exact_mod_cast (by omega : 2 * i + 1 ≤ 2 * (i + 1) + 1)
  have hpos : (0 : ℝ) < ((2 * i + 1 : ℕ) : ℝ) := by exact_mod_cast (by omega : 0 < 2 * i + 1)
  exact div_le_div₀ (pow_nonneg h0 _) hp hpos hd

/-- The partial sums of the series of `arctan (1 / q)` of even length are below
it, those of odd length above. -/
theorem arctan_between (q : Nat) (hq : 2 ≤ q) (m k : Nat) :
    ∑ i ∈ range (2 * m),
        (-1 : ℝ) ^ i * (((q : ℝ)⁻¹) ^ (2 * i + 1) / ((2 * i + 1 : ℕ) : ℝ))
      ≤ Real.arctan (q : ℝ)⁻¹
    ∧ Real.arctan (q : ℝ)⁻¹
      ≤ ∑ i ∈ range (2 * k + 1),
          (-1 : ℝ) ^ i * (((q : ℝ)⁻¹) ^ (2 * i + 1) / ((2 * i + 1 : ℕ) : ℝ)) := by
  have hq2 : (2 : ℝ) ≤ (q : ℝ) := by exact_mod_cast hq
  have hx0 : (0 : ℝ) ≤ (q : ℝ)⁻¹ := inv_nonneg.mpr (by linarith)
  have hx1 : (q : ℝ)⁻¹ < 1 := inv_lt_one_of_one_lt₀ (by linarith)
  have hnorm : ‖(q : ℝ)⁻¹‖ < 1 := by
    rw [Real.norm_of_nonneg hx0]; exact hx1
  have hs := (Real.hasSum_arctan hnorm).tendsto_sum_nat
  have hs' : Tendsto (fun n => ∑ i ∈ range n,
      (-1 : ℝ) ^ i * (((q : ℝ)⁻¹) ^ (2 * i + 1) / ((2 * i + 1 : ℕ) : ℝ))) atTop
      (𝓝 (Real.arctan (q : ℝ)⁻¹)) := by
    refine hs.congr (fun n => ?_)
    apply sum_congr rfl
    intro i _
    rw [mul_div_assoc]
  have ha := arctan_terms_antitone (q : ℝ)⁻¹ hx0 hx1.le
  exact ⟨ha.alternating_series_le_tendsto hs' m, ha.tendsto_le_alternating_series hs' k⟩

/-- Bounds on `S * pi` from Machin's formula and the rounded terms of the two
series. -/
theorem pi_between (S m k : Nat) :
    (16 * (evenTerms S 5 m : ℝ) + 4 * oddTerms S 239 k)
        - (16 * (oddTerms S 5 m + m) + 4 * (evenTerms S 239 (k + 1) + (k + 1)))
      ≤ S * Real.pi
    ∧ (S : ℝ) * Real.pi
      ≤ (16 * (evenTerms S 5 (m + 1) + (m + 1) : ℝ) + 4 * (oddTerms S 239 k + k))
        - (16 * oddTerms S 5 m + 4 * evenTerms S 239 k) := by
  have hpi : Real.pi = 16 * Real.arctan ((5 : ℕ) : ℝ)⁻¹ - 4 * Real.arctan ((239 : ℕ) : ℝ)⁻¹ := by
    have := Real.four_mul_arctan_inv_5_sub_arctan_inv_239
    push_cast
    linarith
  have hS : (0 : ℝ) ≤ (S : ℝ) := Nat.cast_nonneg S
  have a5 := arctan_between 5 (by norm_num) m m
  have a239 := arctan_between 239 (by norm_num) k k
  have l5 := (partial_sum_bounds S 5 (by norm_num) m).1
  have u5 := partial_sum_upper S 5 (by norm_num) m
  have l239 := (partial_sum_bounds S 239 (by norm_num) k).1
  have u239 := partial_sum_upper S 239 (by norm_num) k
  have b5l := mul_le_mul_of_nonneg_left a5.1 hS
  have b5u := mul_le_mul_of_nonneg_left a5.2 hS
  have b239l := mul_le_mul_of_nonneg_left a239.1 hS
  have b239u := mul_le_mul_of_nonneg_left a239.2 hS
  rw [hpi]
  constructor <;> linarith

theorem pi_lower_nat :
    piDigits * 2 ^ 66 + (16 * (oddTerms (2 ^ 960) 5 100 + 100)
        + 4 * (evenTerms (2 ^ 960) 239 (30 + 1) + (30 + 1)))
      ≤ 16 * evenTerms (2 ^ 960) 5 100 + 4 * oddTerms (2 ^ 960) 239 30 := by
  decide

theorem pi_upper_nat :
    16 * (evenTerms (2 ^ 960) 5 (100 + 1) + (100 + 1)) + 4 * (oddTerms (2 ^ 960) 239 30 + 30)
      < (piDigits + 1) * 2 ^ 66 + (16 * oddTerms (2 ^ 960) 5 100
          + 4 * evenTerms (2 ^ 960) 239 30) := by
  decide

/-- The digits of pi: `floor (2 ^ 894 * pi)`. -/
theorem floor_pi : ⌊(2 : ℝ) ^ 894 * Real.pi⌋₊ = piDigits := by
  obtain ⟨S, hS⟩ : ∃ S : ℕ, S = 2 ^ 960 := ⟨_, rfl⟩
  have hb := pi_between S 100 30
  have hl : ((piDigits * 2 ^ 66 + (16 * (oddTerms S 5 100 + 100)
        + 4 * (evenTerms S 239 (30 + 1) + (30 + 1))) : ℕ) : ℝ)
      ≤ ((16 * evenTerms S 5 100 + 4 * oddTerms S 239 30 : ℕ) : ℝ) := by
    rw [hS]; exact Nat.cast_le.mpr pi_lower_nat
  have hu : ((16 * (evenTerms S 5 (100 + 1) + (100 + 1))
        + 4 * (oddTerms S 239 30 + 30) : ℕ) : ℝ)
      < (((piDigits + 1) * 2 ^ 66 + (16 * oddTerms S 5 100
          + 4 * evenTerms S 239 30) : ℕ) : ℝ) := by
    rw [hS]; exact Nat.cast_lt.mpr pi_upper_nat
  have hsplit : (S : ℝ) = 2 ^ 894 * 2 ^ 66 := by
    rw [hS]; norm_num
  generalize evenTerms S 5 100 = e5 at hb hl hu
  generalize evenTerms S 5 (100 + 1) = e5' at hb hl hu
  generalize oddTerms S 5 100 = o5 at hb hl hu
  generalize evenTerms S 239 30 = e239 at hb hl hu
  generalize evenTerms S 239 (30 + 1) = e239' at hb hl hu
  generalize oddTerms S 239 30 = o239 at hb hl hu
  generalize piDigits = n at hl hu ⊢
  push_cast at hb hl hu
  have h66 : (0 : ℝ) < 2 ^ 66 := by positivity
  rw [Nat.floor_eq_iff (by positivity)]
  rw [hsplit] at hb
  constructor
  · have h1 : (n : ℝ) * 2 ^ 66 ≤ 2 ^ 894 * Real.pi * 2 ^ 66 := by linarith [hb.1]
    exact le_of_mul_le_mul_right h1 h66
  · have h2 : 2 ^ 894 * Real.pi * 2 ^ 66 < ((n : ℝ) + 1) * 2 ^ 66 := by linarith [hb.2]
    exact lt_of_mul_lt_mul_right h2 h66.le

/-- The value of the 128 bytes of `DH1024p`. -/
theorem DH1024p_value :
    BN_bin2bn DH1024p 128 = 0xFFFFFFFFFFFFFFFFC90FDAA22168C234C4C6628B80DC1CD129024E088A67CC74020BBEA63B139B22514A08798E3404DDEF9519B3CD3A431B302B0A6DF25F14374FE1356D6D51C245E485B576625E7EC6F44C42E9A637ED6B0BFF5CB6F406B7EDEE386BFB5A899FA5AE9F24117C4B1FE649286651ECE65381FFFFFFFFFFFFFFFF := by
  decide

theorem DH1024p_formula :
    BN_bin2bn DH1024p 128 = 2 ^ 1024 - 2 ^ 960 - 1 + 2 ^ 64 * (piDigits + 129093) := by
  decide

/-- C20: the array `DH1024p` has 128 bytes, `SIZE` covers them all, and read as
a big-endian integer they are the 1024-bit prime of RFC 2409 section 6.2, whose
hexadecimal form is FFFFFFFF FFFFFFFF C90FDAA2 ... ECE65381 FFFFFFFF FFFFFFFF
and which equals 2^1024 - 2^960 - 1 + 2^64 * (floor(2^894 * pi) + 129093);
`computeKeys` hands the generator 2 and this modulus to the key generation and,
when a key pair comes back, leaves a `DH` with the generator 2 and this
modulus. -/
theorem dh_group_rfc2409 (generate : Nat → Nat → Option (Nat × Nat)) (d : DiffieHellman) :
    DH1024p.length = 128
    ∧ DiffieHellman.SIZE = DH1024p.length
    ∧ BN_bin2bn DH1024p DiffieHellman.SIZE = 0xFFFFFFFFFFFFFFFFC90FDAA22168C234C4C6628B80DC1CD129024E088A67CC74020BBEA63B139B22514A08798E3404DDEF9519B3CD3A431B302B0A6DF25F14374FE1356D6D51C245E485B576625E7EC6F44C42E9A637ED6B0BFF5CB6F406B7EDEE386BFB5A899FA5AE9F24117C4B1FE649286651ECE65381FFFFFFFFFFFFFFFF
    ∧ BN_bin2bn DH1024p DiffieHellman.SIZE
        = 2 ^ 1024 - 2 ^ 960 - 1 + 2 ^ 64 * (⌊(2 : ℝ) ^ 894 * Real.pi⌋₊ + 129093)
    ∧ (d.computeKeys generate).2._pDH
        = (generate (BN_bin2bn DH1024p DiffieHellman.SIZE) 2).map
            (fun keys => ⟨BN_bin2bn DH1024p DiffieHellman.SIZE, 2, keys.1, keys.2⟩)
    ∧ (d.computeKeys generate).1
        = (generate (BN_bin2bn DH1024p DiffieHellman.SIZE) 2).isSome := by
  refine ⟨rfl, rfl, DH1024p_value, ?_, ?_, ?_⟩
  · rw [floor_pi]; exact DH1024p_formula
  · unfold DiffieHellman.computeKeys
    cases generate (BN_bin2bn DH1024p DiffieHellman.SIZE) 2 <;> rfl
  · unfold DiffieHellman.computeKeys
    cases generate (BN_bin2bn DH1024p DiffieHellman.SIZE) 2 <;> rfl

end Prime

section SharedSecret

/-- `powMod` is the modular power. -/
theorem powMod_eq (p : Nat) :
    ∀ (fuel base exp : Nat), exp < 2 ^ fuel → powMod p fuel base exp = base ^ exp % p := by
  intro fuel
  induction fuel with
  | zero =>
    intro base exp h
    have : exp = 0 := by simpa using h
    subst this
    simp [powMod]
  | succ fuel ih =>
    intro base exp h
    unfold powMod
    by_cases h0 : exp = 0
    · subst h0; simp
    · rw [if_neg h0]
      have hhalf : exp / 2 < 2 ^ fuel := by
        rw [pow_succ] at h
        omega
      have hsq : (base * base % p) ^ (exp / 2) % p = (base * base) ^ (exp / 2) % p := by
        rw [← Nat.pow_mod]
      by_cases hodd : exp % 2 = 1
      · rw [if_pos hodd, ih _ _ hhalf, hsq]
        have he : exp = 2 * (exp / 2) + 1 := by omega
        conv_rhs => rw [he, pow_succ, pow_mul, pow_two]
        rw [Nat.mul_mod, Nat.mod_mod, ← Nat.mul_mod, Nat.mul_comm]
      · rw [if_neg hodd, ih _ _ hhalf, hsq]
        have he : exp = 2 * (exp / 2) := by omega
        conv_rhs => rw [he, pow_mul, pow_two]

theorem powMod_self (p base exp : Nat) : powMod p exp base exp = base ^ exp % p :=
  powMod_eq p exp base exp (Nat.lt_two_pow exp)

/-- The bytes of `bn2binLoop` read back give the number. -/
theorem bn2binLoop_value :
    ∀ (fuel a : Nat), a ≤ fuel →
      (bn2binLoop fuel a).foldl (fun acc b => acc * 256 + b) 0 = a := by
  intro fuel
  induction fuel with
  | zero => intro a h; have : a = 0 := by omega
            subst this; rfl
  | succ fuel ih =>
    intro a h
    unfold bn2binLoop
    by_cases h0 : a = 0
    · subst h0; rfl
    · rw [if_neg h0, List.foldl_append, ih _ (by omega)]
      simp only [List.foldl_cons, List.foldl_nil]
      omega

/-- The number of bytes of `bn2binLoop` is the least `n` with `a < 256 ^ n`. -/
theorem bn2binLoop_length :
    ∀ (fuel a : Nat), a ≤ fuel → ∀ n, (bn2binLoop fuel a).length ≤ n ↔ a < 256 ^ n := by
  intro fuel
  induction fuel with
  | zero =>
    intro a h n
    have : a = 0 := by omega
    subst this
    simp [bn2binLoop]
  | succ fuel ih =>
    intro a h n
    unfold bn2binLoop
    by_cases h0 : a = 0
    · subst h0; simp
    · rw [if_neg h0]
      simp only [List.length_append, List.length_singleton]
      cases n with
      | zero => simp; omega
      | succ n =>
        rw [Nat.add_le_add_iff_right, ih _ (by omega) n, pow_succ]
        omega

theorem BN_bn2bin_value (a len : Nat) (h : (BN_bn2bin a).length ≤ len) :
    BN_bin2bn (BN_bn2bin a) len = a := by
  unfold BN_bin2bn
  rw [List.take_of_length_le h]
  exact bn2binLoop_value a a (Nat.le_refl a)

theorem BN_bn2bin_length (a n : Nat) : (BN_bn2bin a).length ≤ n ↔ a < 256 ^ n :=
  bn2binLoop_length a a (Nat.le_refl a) n

theorem BN_bn2bin_pos (a : Nat) (h : 0 < a) : 1 ≤ (BN_bn2bin a).length := by
  by_contra hc
  have h0 : (BN_bn2bin a).length ≤ 0 := by omega
  rw [BN_bn2bin_length] at h0
  simp at h0
  omega

theorem BN_bn2bin_zero : BN_bn2bin 0 = [] := rfl

end SharedSecret

section Secret

theorem prime_lt : BN_bin2bn DH1024p DiffieHellman.SIZE < 256 ^ 128 := by
  rw [show DiffieHellman.SIZE = 128 from rfl, DH1024p_value]
  norm_num

theorem prime_pos : 0 < BN_bin2bn DH1024p DiffieHellman.SIZE := by
  rw [show DiffieHellman.SIZE = 128 from rfl, DH1024p_value]
  norm_num

theorem computeKeys_pDH (generate : Nat → Nat → Option (Nat × Nat)) (d : DiffieHellman) :
    ((d.computeKeys generate).1 = false ↔ (d.computeKeys generate).2._pDH = none)
    ∧ ∀ dh, (d.computeKeys generate).2._pDH = some dh →
        dh.p = BN_bin2bn DH1024p DiffieHellman.SIZE ∧ dh.g = 2 := by
  unfold DiffieHellman.computeKeys
  cases generate (BN_bin2bn DH1024p DiffieHellman.SIZE) 2 with
  | none => simp
  | some keys =>
    simp only [Bool.true_eq_false, Option.some.injEq, false_iff, reduceCtorEq, not_false_eq_true,
      true_and]
    intro dh h
    subst h
    exact ⟨rfl, rfl⟩

/-- The key pair `computeSecret` works with: the one the object has, or else
the one `computeKeys` makes. -/
theorem computeSecret_keys (generate : Nat → Nat → Option (Nat × Nat)) (d : DiffieHellman)
    (hp : ∀ dh, d._pDH = some dh → dh.p = BN_bin2bn DH1024p DiffieHellman.SIZE) :
    ∀ dh, (if d._pDH.isSome then d else (d.computeKeys generate).2)._pDH = some dh →
      dh.p = BN_bin2bn DH1024p DiffieHellman.SIZE := by
  intro dh h
  by_cases hs : d._pDH.isSome = true
  · rw [if_pos hs] at h; exact hp dh h
  · rw [if_neg hs] at h; exact ((computeKeys_pDH generate d).2 dh h).1

/-- The value `DH_compute_key` returns is -1 or the number of bytes of the
secret, and the secret is below the modulus. -/
theorem DH_compute_key_cases (refuses : Nat → Bool) (pub : Nat) (dh : DH)
    (hp : dh.p = BN_bin2bn DH1024p DiffieHellman.SIZE) :
    (refuses pub = true ∧ DH_compute_key refuses pub dh = (-1, []))
    ∨ (refuses pub = false
        ∧ DH_compute_key refuses pub dh
            = ((((BN_bn2bin (pub ^ dh.priv_key % dh.p)).length : Nat) : Int),
                BN_bn2bin (pub ^ dh.priv_key % dh.p))
        ∧ (BN_bn2bin (pub ^ dh.priv_key % dh.p)).length ≤ 128) := by
  unfold DH_compute_key
  cases hr : refuses pub with
  | true => left; exact ⟨rfl, by simp⟩
  | false =>
    right
    refine ⟨rfl, by simp [powMod_self], ?_⟩
    rw [BN_bn2bin_length, hp]
    exact Nat.lt_trans (Nat.mod_lt _ prime_pos) prime_lt

/-- How `computeSecret` ends. -/
theorem computeSecret_cases (generate : Nat → Nat → Option (Nat × Nat)) (refuses : Nat → Bool)
    (d : DiffieHellman) (far : List Nat) (farSize : Nat)
    (hp : ∀ dh, d._pDH = some dh → dh.p = BN_bin2bn DH1024p DiffieHellman.SIZE) :
    (d._pDH = none ∧ (d.computeKeys generate).1 = false
      ∧ d.computeSecret generate refuses far farSize
          = ⟨0, true, [], (d.computeKeys generate).2⟩
      ∧ (d.computeKeys generate).2._pDH = none)
    ∨ (∃ dh, (if d._pDH.isSome then d else (d.computeKeys generate).2)._pDH = some dh
        ∧ dh.p = BN_bin2bn DH1024p DiffieHellman.SIZE
        ∧ (DH_compute_key refuses (BN_bin2bn far farSize) dh).1 ≤ 0
        ∧ d.computeSecret generate refuses far farSize
          = ⟨0, true, (DH_compute_key refuses (BN_bin2bn far farSize) dh).2,
              if d._pDH.isSome then d else (d.computeKeys generate).2⟩)
    ∨ (∃ dh, (if d._pDH.isSome then d else (d.computeKeys generate).2)._pDH = some dh
        ∧ dh.p = BN_bin2bn DH1024p DiffieHellman.SIZE
        ∧ refuses (BN_bin2bn far farSize) = false
        ∧ 1 ≤ (BN_bn2bin (BN_bin2bn far farSize ^ dh.priv_key % dh.p)).length
        ∧ (BN_bn2bin (BN_bin2bn far farSize ^ dh.priv_key % dh.p)).length ≤ 128
        ∧ (DH_compute_key refuses (BN_bin2bn far farSize) dh).1
            = ((BN_bn2bin (BN_bin2bn far farSize ^ dh.priv_key % dh.p)).length : Nat)
        ∧ d.computeSecret generate refuses far farSize
          = ⟨(BN_bn2bin (BN_bin2bn far farSize ^ dh.priv_key % dh.p)).length, false,
              BN_bn2bin (BN_bin2bn far farSize ^ dh.priv_key % dh.p),
              if d._pDH.isSome then d else (d.computeKeys generate).2⟩) := by
  have hk := computeSecret_keys generate d hp
  unfold DiffieHellman.computeSecret
  simp only []
  cases hd : (if d._pDH.isSome then d else (d.computeKeys generate).2)._pDH with
  | none =>
    left
    have hnone : d._pDH = none := by
      cases hdd : d._pDH with
      | none => rfl
      | some x => simp [hdd] at hd
    have hs : d._pDH.isSome = false := by rw [hnone]; rfl
    simp only [hs, Bool.false_eq_true, if_false] at hd ⊢
    exact ⟨hnone, (computeKeys_pDH generate d).1.mpr hd, trivial, hd⟩
  | some dh =>
    right
    have hpp := hk dh hd
    by_cases hle : (DH_compute_key refuses (BN_bin2bn far farSize) dh).1 ≤ 0
    · left
      exact ⟨dh, rfl, hpp, hle, by simp only [hle, if_true]⟩
    · right
      rcases DH_compute_key_cases refuses (BN_bin2bn far farSize) dh hpp with
        ⟨_, h⟩ | ⟨hr, h, hlen⟩
      · rw [h] at hle; exact absurd (by decide) hle
      · have hpos : 1 ≤ (BN_bn2bin (BN_bin2bn far farSize ^ dh.priv_key % dh.p)).length := by
          rw [h] at hle
          simp only [Nat.cast_nonpos, List.length_eq_zero] at hle
          cases hq : BN_bn2bin (BN_bin2bn far farSize ^ dh.priv_key % dh.p) with
          | nil => exact absurd hq hle
          | cons a b => simp
        refine ⟨dh, rfl, hpp, hr, hpos, hlen, by rw [h], ?_⟩
        simp only [hle, if_false]
        rw [h]
        simp only [Int.toNat_ofNat]
        rw [Nat.mod_eq_of_lt (by omega)]

/-- C21 (amended): when `computeSecret` succeeds (no exception set) on an
object whose key pair, if any, has the modulus of `DH1024p`, it writes the
shared secret (far public key)^(private key) mod p in its shortest big-endian
form (no leading zero byte) and returns the number of bytes written, which is
at least 1 and at most 128; the bytes read back give the secret; the number is
128 exactly when the secret is at least 256^127 = 2^1016. -/
theorem computeSecret_size (generate : Nat → Nat → Option (Nat × Nat)) (refuses : Nat → Bool)
    (d : DiffieHellman) (far : List Nat) (farSize : Nat)
    (hp : ∀ dh, d._pDH = some dh → dh.p = BN_bin2bn DH1024p DiffieHellman.SIZE)
    (hok : (d.computeSecret generate refuses far farSize).ex = false) :
    ∃ dh, (d.computeSecret generate refuses far farSize).self._pDH = some dh
      ∧ dh.p = BN_bin2bn DH1024p DiffieHellman.SIZE
      ∧ (d.computeSecret generate refuses far farSize).sharedSecret
          = BN_bn2bin (BN_bin2bn far farSize ^ dh.priv_key % dh.p)
      ∧ BN_bin2bn (d.computeSecret generate refuses far farSize).sharedSecret
          (d.computeSecret generate refuses far farSize).ret
          = BN_bin2bn far farSize ^ dh.priv_key % dh.p
      ∧ (d.computeSecret generate refuses far farSize).ret
          = (d.computeSecret generate refuses far farSize).sharedSecret.length
      ∧ 1 ≤ (d.computeSecret generate refuses far farSize).ret
      ∧ (d.computeSecret generate refuses far farSize).ret ≤ 128
      ∧ ((d.computeSecret generate refuses far farSize).ret = 128
          ↔ 256 ^ 127 ≤ BN_bin2bn far farSize ^ dh.priv_key % dh.p) := by
  rcases computeSecret_cases generate refuses d far farSize hp with
    ⟨_, _, h, _⟩ | ⟨dh, _, _, _, h⟩ | ⟨dh, hd, hpp, _, hpos, hlen, _, h⟩
  · rw [h] at hok; simp at hok
  · rw [h] at hok; simp at hok
  · rw [h]
    refine ⟨dh, hd, hpp, rfl, BN_bn2bin_value _ _ (Nat.le_refl _), rfl, hpos, hlen, ?_⟩
    show (BN_bn2bin (BN_bin2bn far farSize ^ dh.priv_key % dh.p)).length = 128 ↔ _
    have h127 := BN_bn2bin_length (BN_bin2bn far farSize ^ dh.priv_key % dh.p) 127
    constructor
    · intro h128
      by_contra hc
      have := h127.mpr (by omega)
      omega
    · intro hge
      by_contra hc
      have hle : (BN_bn2bin (BN_bin2bn far farSize ^ dh.priv_key % dh.p)).length ≤ 127 := by
        omega
      have := h127.mp hle
      omega

set_option maxRecDepth 100000 in
/-- A far public key 2 and a private key 5: the secret 32 is written on one
byte. -/
theorem computeSecret_size_witness :
    (∀ dh, (⟨none, 0, 0⟩ : DiffieHellman)._pDH = some dh →
        dh.p = BN_bin2bn DH1024p DiffieHellman.SIZE)
    ∧ ((⟨none, 0, 0⟩ : DiffieHellman).computeSecret (fun _ _ => some (32, 5))
        (fun _ => false) [2] 1).ex = false
    ∧ ∃ dh, ((⟨none, 0, 0⟩ : DiffieHellman).computeSecret (fun _ _ => some (32, 5))
          (fun _ => false) [2] 1).self._pDH = some dh
      ∧ dh.p = BN_bin2bn DH1024p DiffieHellman.SIZE
      ∧ ((⟨none, 0, 0⟩ : DiffieHellman).computeSecret (fun _ _ => some (32, 5))
          (fun _ => false) [2] 1).sharedSecret
          = BN_bn2bin (BN_bin2bn [2] 1 ^ dh.priv_key % dh.p)
      ∧ BN_bin2bn ((⟨none, 0, 0⟩ : DiffieHellman).computeSecret (fun _ _ => some (32, 5))
          (fun _ => false) [2] 1).sharedSecret
          ((⟨none, 0, 0⟩ : DiffieHellman).computeSecret (fun _ _ => some (32, 5))
          (fun _ => false) [2] 1).ret
          = BN_bin2bn [2] 1 ^ dh.priv_key % dh.p
      ∧ ((⟨none, 0, 0⟩ : DiffieHellman).computeSecret (fun _ _ => some (32, 5))
          (fun _ => false) [2] 1).ret
          = ((⟨none, 0, 0⟩ : DiffieHellman).computeSecret (fun _ _ => some (32, 5))
          (fun _ => false) [2] 1).sharedSecret.length
      ∧ 1 ≤ ((⟨none, 0, 0⟩ : DiffieHellman).computeSecret (fun _ _ => some (32, 5))
          (fun _ => false) [2] 1).ret
      ∧ ((⟨none, 0, 0⟩ : DiffieHellman).computeSecret (fun _ _ => some (32, 5))
          (fun _ => false) [2] 1).ret ≤ 128
      ∧ (((⟨none, 0, 0⟩ : DiffieHellman).computeSecret (fun _ _ => some (32, 5))
          (fun _ => false) [2] 1).ret = 128
          ↔ 256 ^ 127 ≤ BN_bin2bn [2] 1 ^ dh.priv_key % dh.p) :=
  ⟨(fun _ h => nomatch h), by decide,
    computeSecret_size (fun _ _ => some (32, 5)) (fun _ => false) ⟨none, 0, 0⟩ [2] 1
      (fun _ h => nomatch h) (by decide)⟩

set_option exponentiation.threshold 2000 in
set_option maxRecDepth 100000 in
/-- C21 as stated fails: with the private key 2^1022 + 1 and the far public key
1023 (bytes 03 FF), `computeSecret` succeeds, returns 127 and writes 127
bytes: the secret is below 2^1016 and its leading zero byte is not written. -/
theorem computeSecret_size_counterexample :
    ((⟨none, 0, 0⟩ : DiffieHellman).computeSecret
        (fun p g => some (powMod p (2 ^ 1022 + 1) g (2 ^ 1022 + 1), 2 ^ 1022 + 1))
        (fun _ => false) [0x03, 0xFF] 2).ex = false
    ∧ ((⟨none, 0, 0⟩ : DiffieHellman).computeSecret
        (fun p g => some (powMod p (2 ^ 1022 + 1) g (2 ^ 1022 + 1), 2 ^ 1022 + 1))
        (fun _ => false) [0x03, 0xFF] 2).ret = 127
    ∧ ((⟨none, 0, 0⟩ : DiffieHellman).computeSecret
        (fun p g => some (powMod p (2 ^ 1022 + 1) g (2 ^ 1022 + 1), 2 ^ 1022 + 1))
        (fun _ => false) [0x03, 0xFF] 2).sharedSecret.length = 127 := by
  decide!

/-- C22: on an object whose key pair, if any, has the modulus of `DH1024p`,
`computeSecret` returns 0 exactly when it sets the exception, and it sets the
exception exactly when there is no key pair and `computeKeys` fails (the object
is then left without a key pair) or when `DH_compute_key` returns a size
`<= 0`; otherwise no exception is set and the value returned is the size
`DH_compute_key` returned, between 1 and 128, unchanged by the conversion to 8
bits. -/
theorem computeSecret_failure (generate : Nat → Nat → Option (Nat × Nat))
    (refuses : Nat → Bool) (d : DiffieHellman) (far : List Nat) (farSize : Nat)
    (hp : ∀ dh, d._pDH = some dh → dh.p = BN_bin2bn DH1024p DiffieHellman.SIZE) :
    ((d.computeSecret generate refuses far farSize).ret = 0
        ↔ (d.computeSecret generate refuses far farSize).ex = true)
    ∧ ((d.computeSecret generate refuses far farSize).ex = true
        ↔ (d._pDH = none ∧ (d.computeKeys generate).1 = false)
          ∨ ∃ dh, (d.computeSecret generate refuses far farSize).self._pDH = some dh
              ∧ (DH_compute_key refuses (BN_bin2bn far farSize) dh).1 ≤ 0)
    ∧ (d._pDH = none → (d.computeKeys generate).1 = false →
        (d.computeSecret generate refuses far farSize).self._pDH = none)
    ∧ ((d.computeSecret generate refuses far farSize).ex = false →
        ∃ dh, (d.computeSecret generate refuses far farSize).self._pDH = some dh
          ∧ ((d.computeSecret generate refuses far farSize).ret : Int)
              = (DH_compute_key refuses (BN_bin2bn far farSize) dh).1
          ∧ 1 ≤ (d.computeSecret generate refuses far farSize).ret
          ∧ (d.computeSecret generate refuses far farSize).ret ≤ 128) := by
  rcases computeSecret_cases generate refuses d far farSize hp with
    ⟨hn, hf, h, hself⟩ | ⟨dh, hd, _, hle, h⟩ | ⟨dh, hd, _, _, hpos, hlen, hsize, h⟩
  · rw [h]
    refine ⟨by simp, ?_, fun _ _ => hself, fun hc => by simp at hc⟩
    simp [hn, hf]
  · rw [h]
    refine ⟨by simp, ?_, ?_, fun hc => by simp at hc⟩
    · simp only [true_iff]
      exact Or.inr ⟨dh, hd, hle⟩
    · intro hn hf
      have hs : d._pDH.isSome = false := by rw [hn]; rfl
      simp only [hs, Bool.false_eq_true, if_false] at hd
      rw [(computeKeys_pDH generate d).1.mp hf] at hd
      exact absurd hd (by simp)
  · rw [h]
    refine ⟨?_, ?_, ?_, fun _ => ⟨dh, hd, hsize.symm, hpos, hlen⟩⟩
    · simp only [Bool.false_eq_true, iff_false]
      omega
    · simp only [Bool.false_eq_true, false_iff, not_or, not_and, not_exists]
      refine ⟨?_, ?_⟩
      · intro hn hf
        have hs : d._pDH.isSome = false := by rw [hn]; rfl
        simp only [hs, Bool.false_eq_true, if_false] at hd
        rw [(computeKeys_pDH generate d).1.mp hf] at hd
        exact absurd hd (by simp)
      · intro dh2 hd2
        rw [hd] at hd2
        cases hd2
        rw [hsize]
        omega
    · intro hn hf
      have hs : d._pDH.isSome = false := by rw [hn]; rfl
      simp only [hs, Bool.false_eq_true, if_false] at hd
      rw [(computeKeys_pDH generate d).1.mp hf] at hd
      exact absurd hd (by simp)

/-- A key generation that fails: `computeSecret` returns 0 with the exception
set and leaves no key pair. -/
theorem computeSecret_failure_witness :
    (∀ dh, (⟨none, 0, 0⟩ : DiffieHellman)._pDH = some dh →
        dh.p = BN_bin2bn DH1024p DiffieHellman.SIZE)
    ∧ (((⟨none, 0, 0⟩ : DiffieHellman).computeSecret (fun _ _ => none)
          (fun _ => false) [2] 1).ret = 0
        ↔ ((⟨none, 0, 0⟩ : DiffieHellman).computeSecret (fun _ _ => none)
          (fun _ => false) [2] 1).ex = true) :=
  ⟨(fun _ h => nomatch h),
    (computeSecret_failure (fun _ _ => none) (fun _ => false) ⟨none, 0, 0⟩ [2] 1
      (fun _ h => nomatch h)).1⟩

end Secret

section Room

/-- C23 (amended): with a pending sender whose packet has at most
RTMFP_MAX_PACKET_SIZE bytes, `availableToWrite()` is RTMFP_MAX_PACKET_SIZE
minus the size of that packet; with no pending sender it is
RTMFP_MAX_PACKET_SIZE minus RTMFP_HEADER_SIZE (the room an empty packet
leaves after its header), when the header size is at most the maximum; in both
cases the 32-bit subtraction does not wrap around and the result is at most
RTMFP_MAX_PACKET_SIZE. -/
theorem availableToWrite_value (MAX HEADER : Nat) (hmax : MAX < 2 ^ 32) :
    (∀ size, size ≤ MAX →
        availableToWrite MAX HEADER (some size) = MAX - size
        ∧ availableToWrite MAX HEADER (some size) ≤ MAX)
    ∧ (HEADER ≤ MAX →
        availableToWrite MAX HEADER none = MAX - HEADER
        ∧ availableToWrite MAX HEADER none ≤ MAX) := by
  unfold availableToWrite
  refine ⟨fun size h => ?_, fun h => ?_⟩
  · simp only
    constructor <;> omega
  · simp only
    constructor <;> omega

theorem availableToWrite_value_witness :
    1192 < 2 ^ 32
    ∧ availableToWrite 1192 11 (some 200) = 1192 - 200
    ∧ availableToWrite 1192 11 none = 1192 - 11 :=
  ⟨by decide, ((availableToWrite_value 1192 11 (by decide)).1 200 (by decide)).1,
    ((availableToWrite_value 1192 11 (by decide)).2 (by decide)).1⟩

/-- C23 as stated fails: with no pending sender, a maximum of 1192 bytes and a
header of 11 bytes, `availableToWrite()` is 1181, not the maximum size; so it
is for every header size from 1 to the maximum. -/
theorem availableToWrite_value_counterexample :
    availableToWrite 1192 11 none = 1181
    ∧ availableToWrite 1192 11 none ≠ 1192
    ∧ ∀ header, 0 < header → header ≤ 1192 → availableToWrite 1192 header none ≠ 1192 := by
  refine ⟨by decide, by decide, fun header h0 h1 => ?_⟩
  unfold availableToWrite
  simp only
  omega

end Room

section Bounds

/-- In the loop the subtraction `size - nbRead` is evaluated only while
`nbRead < size`. -/
theorem readLoopSubs_lt (size : Nat) :
    ∀ (queue : List (List Nat)) (nb : Nat), ∀ p ∈ readLoopSubs size queue nb,
      p.2 < p.1 ∧ p.1 = size := by
  intro queue
  induction queue with
  | nil => intro nb p hp; simp [readLoopSubs] at hp
  | cons packet queue ih =>
    intro nb p hp
    unfold readLoopSubs at hp
    by_cases h1 : nb < size
    · rw [if_pos h1] at hp
      rcases List.mem_cons.mp hp with h | h
      · rw [h]; exact ⟨h1, rfl⟩
      · by_cases h2 : packet.length > (size + 2 ^ 32 - nb) % 2 ^ 32
        · rw [if_pos h2] at h; simp at h
        · rw [if_neg h2] at h; exact ih _ p h
    · rw [if_neg h1] at hp; simp at hp

/-- What the loop leaves of the buffer: its length, and the bytes from `nbRead`
on. -/
theorem readLoop_bounds (size : Nat) (h32 : size < 2 ^ 32) (queue : List (List Nat))
    (nb : Nat) (buf : List Nat) (hnb : nb ≤ buf.length) (hsize : size ≤ buf.length) :
    (readLoop size queue nb buf).buf.length = buf.length
    ∧ (readLoop size queue nb buf).buf.drop (readLoop size queue nb buf).nbRead
        = buf.drop (readLoop size queue nb buf).nbRead
    ∧ (readLoop size queue nb buf).buf.take nb = buf.take nb
    ∧ nb ≤ (readLoop size queue nb buf).nbRead
    ∧ ((readLoop size queue nb buf).nbRead ≤ size ∨ (readLoop size queue nb buf).nbRead = nb) := by
  obtain ⟨k, _, hn, hb, _, hle⟩ := readLoop_spec size h32 queue nb buf
  have hb' := hb hnb hsize
  have hfit : nb + ((queue.take k).flatten).length ≤ buf.length := by
    by_cases hk : 0 < k
    · have := hle hk; omega
    · have hk0 : k = 0 := by omega
      subst hk0
      simpa using hnb
  rw [hb', hn]
  refine ⟨?_, ?_, ?_, by omega, ?_⟩
  · simp only [List.length_append, List.length_take, List.length_drop]
    omega
  · have hl : (buf.take nb ++ (queue.take k).flatten).length
        = nb + ((queue.take k).flatten).length := by
      simp only [List.length_append, List.length_take]
      omega
    rw [List.drop_append_eq_append_drop, List.drop_of_length_le (by omega), hl, Nat.sub_self,
      List.nil_append, List.drop_zero]
  · rw [List.append_assoc, List.take_append_of_le_length (by simp; omega)]
    rw [List.take_take, Nat.min_self]
  · by_cases hk : 0 < k
    · left; exact hle hk
    · right
      have hk0 : k = 0 := by omega
      subst hk0
      simp

/-- C24: on a buffer of at least `size` bytes, with `size` below 2^31 (so that
the `int` out-parameter `nbRead` holds every count), `readAsync` leaves
`nbRead <= size`, keeps the length of the buffer and every byte from index
`nbRead` on as it was: whatever it writes lies below `nbRead`; and each
subtraction `size - nbRead` of its loop is evaluated with `nbRead < size`, so it
does not wrap around.  This holds for every queue content. -/
theorem readAsync_within_buffer (status : Status) (m : Media) (peerId buf : List Nat)
    (size : Nat) (h31 : size < 2 ^ 31) (hbuf : size ≤ buf.length) :
    (readAsync status m peerId buf size).nbRead ≤ size
    ∧ (readAsync status m peerId buf size).buf.length = buf.length
    ∧ (readAsync status m peerId buf size).buf.drop (readAsync status m peerId buf size).nbRead
        = buf.drop (readAsync status m peerId buf size).nbRead
    ∧ (∀ p ∈ readAsyncSubs status m peerId size,
        p.2 < p.1 ∧ (p.1 + 2 ^ 32 - p.2) % 2 ^ 32 = p.1 - p.2 ∧ p.1 ≤ size) := by
  have h32 : size < 2 ^ 32 := by omega
  have hlen : _FlvHeader.length = 13 := rfl
  have hsubs : ∀ p ∈ readAsyncSubs status m peerId size, p.2 < p.1 ∧ p.1 ≤ size := by
    intro p hp
    unfold readAsyncSubs at hp
    split_ifs at hp with h1 h2 h3
    · simp at hp
    · simp at hp
    · have := readLoopSubs_lt _ _ _ p hp
      omega
    · have := readLoopSubs_lt _ _ _ p hp
      omega
  have hwrap : ∀ p ∈ readAsyncSubs status m peerId size,
      p.2 < p.1 ∧ (p.1 + 2 ^ 32 - p.2) % 2 ^ 32 = p.1 - p.2 ∧ p.1 ≤ size := by
    intro p hp
    have := hsubs p hp
    refine ⟨this.1, ?_, this.2⟩
    omega
  by_cases hs : status = Status.CONNECTED
  · subst hs
    by_cases hq : m.queue peerId = []
    · have he : (m.queue peerId).isEmpty = true := by rw [hq]; rfl
      have hr : readAsync Status.CONNECTED m peerId buf size = ⟨true, 0, buf, m.touch peerId⟩ := by
        unfold readAsync
        simp only [ne_eq, not_true_eq_false, if_false, he, if_true]
      rw [hr]
      exact ⟨Nat.zero_le _, rfl, rfl, hwrap⟩
    · rw [readAsync_connected m peerId buf size hq]
      by_cases hw : writesHeader m size = true
      · simp only [hw, if_true]
        have hgt : 13 < size := by
          unfold writesHeader at hw
          simp only [Bool.and_eq_true, decide_eq_true_eq] at hw
          exact hw.2
        have hfit : 0 + _FlvHeader.length ≤ buf.length := by rw [hlen]; omega
        have hm : (memcpy buf 0 _FlvHeader).length = buf.length := memcpy_length _ _ _ hfit
        obtain ⟨h1, h2, _, h4, h5⟩ := readLoop_bounds (size - _FlvHeader.length) (by omega)
          (m.queue peerId) _FlvHeader.length (memcpy buf 0 _FlvHeader)
          (by rw [hm, hlen]; omega) (by rw [hm, hlen]; omega)
        have hd := memcpy_drop buf 0 _FlvHeader _ hfit
          (show 0 + _FlvHeader.length ≤ (readLoop (size - _FlvHeader.length) (m.queue peerId)
            _FlvHeader.length (memcpy buf 0 _FlvHeader)).nbRead by simpa using h4)
        generalize readLoop (size - _FlvHeader.length) (m.queue peerId) _FlvHeader.length
          (memcpy buf 0 _FlvHeader) = r at h1 h2 h4 h5 hd ⊢
        rw [hlen] at h4 h5
        refine ⟨?_, by rw [h1, hm], by rw [h2, hd], hwrap⟩
        rcases h5 with h | h <;> omega
      · have hw' : writesHeader m size = false := by simpa using hw
        simp only [hw', Bool.false_eq_true, if_false]
        obtain ⟨h1, h2, _, _, h5⟩ := readLoop_bounds size h32 (m.queue peerId) 0 buf
          (Nat.zero_le _) hbuf
        refine ⟨?_, h1, h2, hwrap⟩
        rcases h5 with h | h
        · exact h
        · rw [h]; exact Nat.zero_le _
  · have hr : readAsync status m peerId buf size = ⟨true, 0, buf, m⟩ := by
      unfold readAsync
      simp only [ne_eq, hs, not_false_eq_true, if_true]
    rw [hr]
    exact ⟨Nat.zero_le _, rfl, rfl, hwrap⟩

theorem readAsync_within_buffer_witness :
    (28 < 2 ^ 31 ∧ 28 ≤ (List.replicate 30 7).length)
    ∧ (readAsync Status.CONNECTED { twoPeers with _firstRead := false } [1]
        (List.replicate 30 7) 28).nbRead = 15
    ∧ (readAsync Status.CONNECTED { twoPeers with _firstRead := false } [1]
        (List.replicate 30 7) 28).nbRead ≤ 28
    ∧ (readAsync Status.CONNECTED { twoPeers with _firstRead := false } [1]
        (List.replicate 30 7) 28).buf.length = (List.replicate 30 7).length :=
  ⟨⟨by decide, by decide⟩, by decide,
    (readAsync_within_buffer Status.CONNECTED { twoPeers with _firstRead := false } [1]
      (List.replicate 30 7) 28 (by decide) (by decide)).1,
    (readAsync_within_buffer Status.CONNECTED { twoPeers with _firstRead := false } [1]
      (List.replicate 30 7) 28 (by decide) (by decide)).2.1⟩

end Bounds

section Sequence

theorem lookup_append_absent {V : Type} (ps : List (List Nat × V)) (k a : List Nat) (v : V) :
    (ps ++ [(a, v)]).lookup k
      = match ps.lookup k with
        | some x => some x
        | none => if k = a then some v else none := by
  induction ps with
  | nil =>
    by_cases h : k = a
    · rw [List.nil_append, lookup_key_eq k a v [] h]; simp [h]
    · rw [List.nil_append, lookup_key_ne k a v [] h]; simp [h]
  | cons p ps ih =>
    obtain ⟨b, w⟩ := p
    by_cases h : k = b
    · rw [List.cons_append, lookup_key_eq k b w _ h, lookup_key_eq k b w _ h]
    · rw [List.cons_append, lookup_key_ne k b w _ h, lookup_key_ne k b w _ h]
      exact ih

/-- The access `_mediaPackets[peerId]` changes no queue. -/
theorem queue_touch (m : Media) (peerId other : List Nat) :
    (m.touch peerId).queue other = m.queue other := by
  unfold Media.touch
  by_cases h : (m._mediaPackets.lookup peerId).isSome = true
  · rw [if_pos h]
  · rw [if_neg h]
    unfold Media.queue
    simp only [lookup_append_absent]
    cases hl : m._mediaPackets.lookup other with
    | some x => rfl
    | none =>
      by_cases hk : other = peerId
      · simp [hk]
      · simp [hk]

theorem touch_firstRead (m : Media) (peerId : List Nat) :
    (m.touch peerId)._firstRead = m._firstRead := by
  unfold Media.touch
  split <;> rfl

/-- One call of `readAsync` on a CONNECTED session: the bytes returned are the
header, if it is written, then `k` whole packets from the front of the queue,
which are removed from it. -/
theorem readAsync_call (m : Media) (peerId buf : List Nat) (size : Nat)
    (h32 : size < 2 ^ 32) (hbuf : size ≤ buf.length) :
    ∃ k, k ≤ (m.queue peerId).length
      ∧ (readAsync Status.CONNECTED m peerId buf size).buf.take
            (readAsync Status.CONNECTED m peerId buf size).nbRead
          = (if writesHeader m size = true ∧ m.queue peerId ≠ [] then _FlvHeader else [])
            ++ ((m.queue peerId).take k).flatten
      ∧ (readAsync Status.CONNECTED m peerId buf size).media.queue peerId
          = (m.queue peerId).drop k
      ∧ (readAsync Status.CONNECTED m peerId buf size).media._firstRead
          = (if writesHeader m size = true ∧ m.queue peerId ≠ [] then false else m._firstRead)
      ∧ (∀ other, other ≠ peerId →
          (readAsync Status.CONNECTED m peerId buf size).media.queue other = m.queue other)
      ∧ (0 < k → ¬ (writesHeader m size = true) →
          ((m.queue peerId).take k).flatten.length ≤ size) := by
  have hlen : _FlvHeader.length = 13 := rfl
  by_cases hq : m.queue peerId = []
  · have he : (m.queue peerId).isEmpty = true := by rw [hq]; rfl
    have hr : readAsync Status.CONNECTED m peerId buf size = ⟨true, 0, buf, m.touch peerId⟩ := by
      unfold readAsync
      simp only [ne_eq, not_true_eq_false, if_false, he, if_true]
    rw [hr]
    refine ⟨0, Nat.zero_le _, ?_, ?_, ?_, fun other _ => queue_touch m peerId other, ?_⟩
    · simp [hq]
    · simp [queue_touch, hq]
    · simp [hq, touch_firstRead]
    · intro h; exact absurd h (Nat.lt_irrefl 0)
  · have hlook := queue_ne_nil_lookup m peerId hq
    rw [readAsync_connected m peerId buf size hq]
    have norm : ∀ (k : Nat) (q : List (List Nat)), ∃ k', k' ≤ q.length
        ∧ q.take k' = q.take k ∧ q.drop k' = q.drop k := by
      intro k q
      by_cases hk : k ≤ q.length
      · exact ⟨k, hk, rfl, rfl⟩
      · refine ⟨q.length, Nat.le_refl _, ?_, ?_⟩
        · rw [List.take_length, List.take_of_length_le (by omega)]
        · rw [List.drop_length, List.drop_of_length_le (by omega)]
    by_cases hw : writesHeader m size = true
    · have hgt : 13 < size := by
        unfold writesHeader at hw
        simp only [Bool.and_eq_true, decide_eq_true_eq] at hw
        exact hw.2
      simp only [hw, if_true, ne_eq, hq, not_false_eq_true, and_self]
      have hm : (memcpy buf 0 _FlvHeader).length = buf.length :=
        memcpy_length _ _ _ (by rw [hlen]; omega)
      obtain ⟨k, hqueue, hn, hb, _, _⟩ :=
        readLoop_spec (size - _FlvHeader.length) (by omega) (m.queue peerId)
          _FlvHeader.length (memcpy buf 0 _FlvHeader)
      obtain ⟨k', hk', ht, hd⟩ := norm k (m.queue peerId)
      refine ⟨k', hk', ?_, ?_, ?_, ?_, fun _ h => absurd trivial h⟩
      · rw [hb (by rw [hm, hlen]; omega) (by rw [hm, hlen]; omega), hn, ht]
        have hth : (memcpy buf 0 _FlvHeader).take _FlvHeader.length = _FlvHeader := by
          have := memcpy_take buf 0 _FlvHeader (by rw [hlen]; omega)
          simpa using this
        rw [hth, List.take_append_of_le_length (by simp), List.take_of_length_le (by simp)]
      · rw [hqueue, hd]
        exact queue_setQueue _ _ _ hlook
      · simp [Media.setQueue]
      · intro other ho
        exact queue_setQueue_ne _ _ _ _ ho
    · have hw' : writesHeader m size = false := by simpa using hw
      simp only [hw', Bool.false_eq_true, if_false, false_and]
      obtain ⟨k, hqueue, hn, hb, _, hle⟩ := readLoop_spec size h32 (m.queue peerId) 0 buf
      obtain ⟨k', hk', ht, hd⟩ := norm k (m.queue peerId)
      refine ⟨k', hk', ?_, ?_, ?_, ?_, ?_⟩
      · rw [hb (Nat.zero_le _) hbuf, hn, ht]
        simp
      · rw [hqueue, hd]
        exact queue_setQueue _ _ _ hlook
      · simp [Media.setQueue]
      · intro other ho
        exact queue_setQueue_ne _ _ _ _ ho
      · intro hk0 _
        rw [ht]
        by_cases hk : 0 < k
        · have := hle hk; omega
        · have hkz : k = 0 := by omega
          subst hkz
          simp

/-- A sequence of calls: the bytes returned, one call after the other, are the
header (once, before anything else) and the packets of the queue in order. -/
theorem readMany_spec (peerId : List Nat) :
    ∀ (calls : List (List Nat × Nat)) (m : Media),
      (∀ c ∈ calls, c.2 < 2 ^ 32 ∧ c.2 ≤ c.1.length) →
      (∀ p ∈ m.queue peerId, 13 < p.length) →
      ∃ K, K ≤ (m.queue peerId).length
        ∧ (readMany m peerId calls).2.queue peerId = (m.queue peerId).drop K
        ∧ (∀ other, other ≠ peerId →
            (readMany m peerId calls).2.queue other = m.queue other)
        ∧ (((readMany m peerId calls).2._firstRead = m._firstRead ∧ m._firstRead = true
              ∧ K = 0 ∧ (readMany m peerId calls).1.flatten = [])
          ∨ ((readMany m peerId calls).2._firstRead = false
              ∧ (readMany m peerId calls).1.flatten
                  = (if m._firstRead then _FlvHeader else [])
                    ++ ((m.queue peerId).take K).flatten)) := by
  intro calls
  induction calls with
  | nil =>
    intro m _ _
    refine ⟨0, Nat.zero_le _, by simp [readMany], fun _ _ => rfl, ?_⟩
    cases hf : m._firstRead with
    | true => left; simp [readMany, hf]
    | false => right; simp [readMany, hf]
  | cons c calls ih =>
    intro m hcalls hlong
    have hc := hcalls c (List.mem_cons_self _ _)
    obtain ⟨k, hk, hbytes, hqueue, hfirst, hother, hsmall⟩ :=
      readAsync_call m peerId c.1 c.2 hc.1 hc.2
    have hlong1 : ∀ p ∈ (readAsync Status.CONNECTED m peerId c.1 c.2).media.queue peerId,
        13 < p.length := by
      intro p hp
      rw [hqueue] at hp
      exact hlong p (List.mem_of_mem_drop hp)
    obtain ⟨K, hK, hq2, ho2, hcase⟩ :=
      ih (readAsync Status.CONNECTED m peerId c.1 c.2).media
        (fun c' hc' => hcalls c' (List.mem_cons_of_mem _ hc')) hlong1
    rw [hqueue] at hq2 hK hcase
    rw [List.length_drop] at hK
    have htake : ((m.queue peerId).take (k + K)).flatten
        = ((m.queue peerId).take k).flatten ++ (((m.queue peerId).drop k).take K).flatten := by
      rw [List.take_add, List.flatten_append]
    simp only [readMany, List.flatten_cons]
    refine ⟨k + K, by omega, ?_, ?_, ?_⟩
    · rw [hq2, List.drop_drop, Nat.add_comm]
    · intro other ho
      rw [ho2 other ho, hother other ho]
    · by_cases hw : writesHeader m c.2 = true ∧ m.queue peerId ≠ []
      · -- the header is written by this call
        have hmf : m._firstRead = true := by
          have := hw.1
          unfold writesHeader at this
          simp only [Bool.and_eq_true] at this
          exact this.1
        rw [if_pos hw] at hbytes hfirst
        rw [hbytes]
        rw [hfirst] at hcase
        right
        rcases hcase with ⟨_, h, _⟩ | ⟨hf, hb⟩
        · exact absurd h (by decide)
        · refine ⟨hf, ?_⟩
          rw [hb, hmf, htake]
          simp
      · rw [if_neg hw] at hbytes hfirst
        rw [hbytes]
        rw [hfirst] at hcase
        cases hmf : m._firstRead with
        | true =>
          -- no header although the flag is set: nothing is copied
          have hk0 : k = 0 := by
            by_contra hne
            have hkpos : 0 < k := by omega
            have hnw : ¬ writesHeader m c.2 = true ∨ m.queue peerId = [] := by
              by_cases h1 : writesHeader m c.2 = true
              · right
                by_contra h2
                exact hw ⟨h1, h2⟩
              · left; exact h1
            rcases hnw with h1 | h1
            · have hsz := hsmall hkpos h1
              have hle13 : c.2 ≤ 13 := by
                unfold writesHeader at h1
                rw [hmf] at h1
                simp only [Bool.true_and, decide_eq_true_eq, not_lt] at h1
                exact h1
              cases hqq : m.queue peerId with
              | nil => rw [hqq] at hk; simp at hk; omega
              | cons p q =>
                rw [hqq] at hsz
                obtain ⟨k', rfl⟩ : ∃ k', k = k' + 1 := ⟨k - 1, by omega⟩
                simp only [List.take_succ_cons, List.flatten_cons, List.length_append] at hsz
                have := hlong p (by rw [hqq]; exact List.mem_cons_self _ _)
                omega
            · rw [h1] at hk; simp at hk; omega
          subst hk0
          rw [hmf] at hcase
          simp only [List.take_zero, List.flatten_nil, List.nil_append, Nat.zero_add,
            List.drop_zero, if_true] at hcase ⊢
          rcases hcase with ⟨hf, _, hK0, hb⟩ | ⟨hf, hb⟩
          · left; exact ⟨hf, trivial, hK0, hb⟩
          · right; exact ⟨hf, hb⟩
        | false =>
          rw [hmf] at hcase
          right
          rcases hcase with ⟨_, h, _⟩ | ⟨hf, hb⟩
          · exact absurd h (by decide)
          · refine ⟨hf, ?_⟩
            rw [hb, htake]
            simp

/-- C25 (amended): on a CONNECTED session whose packets queued for the peer
are longer than 13 bytes (those `RTMFPMediaPacket` builds have at least 15),
for every sequence of calls of `readAsync` for that peer, each with a buffer of
at least `size` bytes: the bytes returned by the calls, put end to end, are
nothing, or the first `K` packets of the queue in order, preceded by the 13
bytes of the header when the FlowManager has not given its header yet (flag
`_firstRead` set) and by nothing when it has (a read for any peer has taken
it); hence a prefix of the queue in order, with or without the header in
front; the queue left is the queue without its first `K` packets; the queues
of the other peers are unchanged; and each single call, from any state,
returns the header or nothing followed by a whole number `k` of packets from
the front of the queue, which are exactly those it removes. -/
theorem readAsync_whole_tags (m : Media) (peerId : List Nat) (calls : List (List Nat × Nat))
    (hcalls : ∀ c ∈ calls, c.2 < 2 ^ 32 ∧ c.2 ≤ c.1.length)
    (hlong : ∀ p ∈ m.queue peerId, 13 < p.length) :
    (∃ K, K ≤ (m.queue peerId).length
      ∧ ((readMany m peerId calls).1.flatten = []
          ∨ (readMany m peerId calls).1.flatten
              = (if m._firstRead then _FlvHeader else [])
                ++ ((m.queue peerId).take K).flatten)
      ∧ (m._firstRead = true → (readMany m peerId calls).1.flatten = [] → K = 0)
      ∧ (readMany m peerId calls).2.queue peerId = (m.queue peerId).drop K)
    ∧ (readMany m peerId calls).1.flatten
        <+: (if m._firstRead then _FlvHeader else []) ++ (m.queue peerId).flatten
    ∧ (∀ other, other ≠ peerId → (readMany m peerId calls).2.queue other = m.queue other)
    ∧ (∀ (m1 : Media) (buf : List Nat) (size : Nat), size < 2 ^ 32 → size ≤ buf.length →
        ∃ k, k ≤ (m1.queue peerId).length
          ∧ ((readAsync Status.CONNECTED m1 peerId buf size).buf.take
                (readAsync Status.CONNECTED m1 peerId buf size).nbRead
              = ((m1.queue peerId).take k).flatten
            ∨ (readAsync Status.CONNECTED m1 peerId buf size).buf.take
                (readAsync Status.CONNECTED m1 peerId buf size).nbRead
              = _FlvHeader ++ ((m1.queue peerId).take k).flatten)
          ∧ (readAsync Status.CONNECTED m1 peerId buf size).media.queue peerId
              = (m1.queue peerId).drop k) := by
  obtain ⟨K, hK, hq, ho, hcase⟩ := readMany_spec peerId calls m hcalls hlong
  have hpre : ∀ K, (if m._firstRead then _FlvHeader else []) ++ ((m.queue peerId).take K).flatten
      <+: (if m._firstRead then _FlvHeader else []) ++ (m.queue peerId).flatten := by
    intro K
    refine ⟨((m.queue peerId).drop K).flatten, ?_⟩
    rw [List.append_assoc, ← List.flatten_append, List.take_append_drop]
  refine ⟨?_, ?_, ho, ?_⟩
  · rcases hcase with ⟨_, _, hK0, hb⟩ | ⟨_, hb⟩
    · exact ⟨K, hK, Or.inl hb, fun _ _ => hK0, hq⟩
    · refine ⟨K, hK, Or.inr hb, fun hfresh hnil => ?_, hq⟩
      rw [hnil, hfresh] at hb
      simp [_FlvHeader] at hb
  · rcases hcase with ⟨_, _, _, hb⟩ | ⟨_, hb⟩
    · rw [hb]; exact List.nil_prefix
    · rw [hb]; exact hpre K
  · intro m1 buf size h32 hbuf
    obtain ⟨k, hk, hbytes, hqueue, _, _, _⟩ := readAsync_call m1 peerId buf size h32 hbuf
    refine ⟨k, hk, ?_, hqueue⟩
    rw [hbytes]
    by_cases hw : writesHeader m1 size = true ∧ m1.queue peerId ≠ []
    · right; simp [hw]
    · left; simp [hw]

/-- Three calls with 20, 28 and 64 bytes on a queue of two packets of 15
bytes. -/
theorem readAsync_whole_tags_witness :
    (readMany { twoPeers with _mediaPackets :=
          [([1], [RTMFPMediaPacket [] 0 true, RTMFPMediaPacket [] 1 false])] } [1]
        [(List.replicate 20 0, 20), (List.replicate 28 0, 28), (List.replicate 64 0, 64)]).1
      = [_FlvHeader, RTMFPMediaPacket [] 0 true, RTMFPMediaPacket [] 1 false]
    ∧ (readMany { twoPeers with _mediaPackets :=
          [([1], [RTMFPMediaPacket [] 0 true, RTMFPMediaPacket [] 1 false])] } [1]
        [(List.replicate 20 0, 20), (List.replicate 28 0, 28), (List.replicate 64 0, 64)]).1.flatten
      <+: (if ({ twoPeers with _mediaPackets :=
              [([1], [RTMFPMediaPacket [] 0 true, RTMFPMediaPacket [] 1 false])] }
              : Media)._firstRead then _FlvHeader else [])
          ++ (Media.queue { twoPeers with _mediaPackets :=
          [([1], [RTMFPMediaPacket [] 0 true, RTMFPMediaPacket [] 1 false])] } [1]).flatten :=
  ⟨by decide,
    (readAsync_whole_tags { twoPeers with _mediaPackets :=
          [([1], [RTMFPMediaPacket [] 0 true, RTMFPMediaPacket [] 1 false])] } [1]
        [(List.replicate 20 0, 20), (List.replicate 28 0, 28), (List.replicate 64 0, 64)]
        (by decide) (by decide)).2.1⟩

/-- C25 as stated fails: once a read for the media id 1 has taken the header,
the calls for the media id 2 return its packet without the header, which is not
a prefix of the header followed by the queue. -/
theorem readAsync_whole_tags_counterexample :
    (readMany (readAsync Status.CONNECTED twoPeers [1] (List.replicate 64 0) 64).media [2]
        [(List.replicate 64 0, 64)]).1.flatten = RTMFPMediaPacket [] 0 false
    ∧ ¬ ((readMany (readAsync Status.CONNECTED twoPeers [1] (List.replicate 64 0) 64).media [2]
          [(List.replicate 64 0, 64)]).1.flatten
        <+: _FlvHeader
          ++ (Media.queue (readAsync Status.CONNECTED twoPeers [1] (List.replicate 64 0) 64).media
              [2]).flatten) := by
  decide

end Sequence

section Failed

variable {F : Type}

theorem createFlow_of_failed (E : Env F) (s : FlowManager F) (id : Nat) (sig : List Nat)
    (hs : s.status = Status.FAILED) : s.createFlow E id sig = (none, s) := by
  unfold FlowManager.createFlow
  rw [if_pos hs]

theorem request10_of_failed (E : Env F) (m : List Nat) (s : FlowManager F) (l : Locals)
    (hs : s.status = Status.FAILED) :
    (FlowManager.request10 E m s l).state = s ∧ (FlowManager.request10 E m s l).calls = []
    ∧ (FlowManager.request10 E m s l).ctl = Ctl.next := by
  unfold FlowManager.request10
  simp only [hs, if_true]
  exact ⟨trivial, trivial, trivial⟩

theorem request11_of_failed (E : Env F) (type : Nat) (m : List Nat) (s : FlowManager F)
    (l : Locals) (hs : s.status = Status.FAILED) :
    (FlowManager.request11 E type m s l).state = s
    ∧ (FlowManager.request11 E type m s l).calls = [] := by
  rw [request11_none E type m s l (Or.inr hs)]
  exact ⟨rfl, rfl⟩

theorem commit_of_failed (E : Env F) (type : Nat) (s : FlowManager F) (l : Locals)
    (hs : s.status = Status.FAILED) :
    FlowManager.commit E type s l = ⟨Ctl.next, s, l, []⟩ := by
  unfold FlowManager.commit
  cases l.pFlow with
  | none => rfl
  | some id => simp [hs]

theorem handle_other_calls_cases (E : Env F) (type : Nat) (m : List Nat) (s : FlowManager F)
    (l : Locals) (h10 : type ≠ 0x10) (h11 : type ≠ 0x11) :
    (FlowManager.handle E type m s l).calls = [Event.handleP2PAddressExchange m]
    ∨ (FlowManager.handle E type m s l).calls = []
    ∨ (FlowManager.handle E type m s l).calls = [Event.handleProtocolFailed]
    ∨ (FlowManager.handle E type m s l).calls = s.close.2
    ∨ (FlowManager.handle E type m s l).calls = [Event.writeMessage 0x41 0]
    ∨ (FlowManager.handle E type m s l).calls
        = [Event.handleWriterFailed (read7BitLongValue m).1]
    ∨ (FlowManager.handle E type m s l).calls
        = [Event.handleAcknowledgment (read7BitLongValue m).1 (read7BitLongValue m).2] := by
  unfold FlowManager.handle
  split_ifs <;> simp

theorem close_calls (s : FlowManager F) : ∀ e ∈ s.close.2, e.onFlow = false := by
  intro e he
  unfold FlowManager.close at he
  simp only [List.mem_flatten, List.mem_map] at he
  obtain ⟨l, ⟨a, _, rfl⟩, hel⟩ := he
  simp only [List.mem_cons, List.mem_singleton, List.not_mem_nil, or_false] at hel
  rcases hel with rfl | rfl <;> rfl

theorem handle_other_calls (E : Env F) (type : Nat) (m : List Nat) (s : FlowManager F)
    (l : Locals) (h10 : type ≠ 0x10) (h11 : type ≠ 0x11) :
    ∀ e ∈ (FlowManager.handle E type m s l).calls, e.onFlow = false := by
  intro e he
  rcases handle_other_calls_cases E type m s l h10 h11 with h | h | h | h | h | h | h <;>
    rw [h] at he
  · rw [List.mem_singleton.mp he]; rfl
  · exact absurd he (List.not_mem_nil e)
  · rw [List.mem_singleton.mp he]; rfl
  · exact close_calls s e he
  · rw [List.mem_singleton.mp he]; rfl
  · rw [List.mem_singleton.mp he]; rfl
  · rw [List.mem_singleton.mp he]; rfl

/-- The switch in a FAILED session: the status stays FAILED, the flow table
is kept and no call is made on a flow. -/
theorem handle_of_failed (E : Env F)
    (hp2p : ∀ m s, s.status = Status.FAILED →
      (E.handleP2PAddressExchange m s).status = Status.FAILED
      ∧ (E.handleP2PAddressExchange m s)._flows = s._flows)
    (hfailed : ∀ s, s.status = Status.FAILED →
      (E.handleProtocolFailed s).status = Status.FAILED
      ∧ (E.handleProtocolFailed s)._flows = s._flows)
    (type : Nat) (m : List Nat) (s : FlowManager F) (l : Locals)
    (hs : s.status = Status.FAILED) :
    (FlowManager.handle E type m s l).state.status = Status.FAILED
    ∧ (FlowManager.handle E type m s l).state._flows = s._flows
    ∧ ∀ e ∈ (FlowManager.handle E type m s l).calls, e.onFlow = false := by
  by_cases h10 : type = 0x10
  · subst h10
    rw [handle_0x10]
    obtain ⟨h1, h2, _⟩ := request10_of_failed E m s l hs
    rw [h1, h2]
    exact ⟨hs, rfl, by simp⟩
  by_cases h11 : type = 0x11
  · subst h11
    rw [handle_0x11]
    obtain ⟨h1, h2⟩ := request11_of_failed E 0x11 m s l hs
    rw [h1, h2]
    exact ⟨hs, rfl, by simp⟩
  refine ⟨?_, ?_, handle_other_calls E type m s l h10 h11⟩
  · rcases handle_other_state E type m s l h10 h11 with h | h | h | h | h <;> rw [h]
    · exact (hp2p m s hs).1
    · exact hs
    · exact (hfailed s hs).1
    · rfl
    · exact hs
  · rcases handle_other_state E type m s l h10 h11 with h | h | h | h | h <;> rw [h]
    · exact (hp2p m s hs).2
    · exact (hfailed s hs).2
    · rfl

theorem body_of_failed (E : Env F)
    (hp2p : ∀ m s, s.status = Status.FAILED →
      (E.handleP2PAddressExchange m s).status = Status.FAILED
      ∧ (E.handleP2PAddressExchange m s)._flows = s._flows)
    (hfailed : ∀ s, s.status = Status.FAILED →
      (E.handleProtocolFailed s).status = Status.FAILED
      ∧ (E.handleProtocolFailed s)._flows = s._flows)
    (beyond : List Nat) (type : Nat) (reader : List Nat) (s : FlowManager F) (l : Locals)
    (hs : s.status = Status.FAILED) :
    (FlowManager.body E beyond type reader s l).step.state.status = Status.FAILED
    ∧ (FlowManager.body E beyond type reader s l).step.state._flows = s._flows
    ∧ ∀ e ∈ (FlowManager.body E beyond type reader s l).step.calls, e.onFlow = false := by
  unfold FlowManager.body
  simp only
  split
  · obtain ⟨h1, h2, h3⟩ := handle_of_failed E hp2p hfailed type
      (((read16 reader).2 ++ beyond).take (read16 reader).1) s l hs
    rw [commit_of_failed E _ _ _ h1]
    simp only [List.append_nil]
    exact ⟨h1, h2, h3⟩
  · exact handle_of_failed E hp2p hfailed type _ s l hs

theorem receiveLoop_of_failed (E : Env F)
    (hp2p : ∀ m s, s.status = Status.FAILED →
      (E.handleP2PAddressExchange m s).status = Status.FAILED
      ∧ (E.handleP2PAddressExchange m s)._flows = s._flows)
    (hfailed : ∀ s, s.status = Status.FAILED →
      (E.handleProtocolFailed s).status = Status.FAILED
      ∧ (E.handleProtocolFailed s)._flows = s._flows)
    (beyond : List Nat) :
    ∀ (fuel type : Nat) (reader : List Nat) (s : FlowManager F) (l : Locals),
      s.status = Status.FAILED →
      (FlowManager.receiveLoop E beyond fuel type reader s l).state.status = Status.FAILED
      ∧ (FlowManager.receiveLoop E beyond fuel type reader s l).state._flows = s._flows
      ∧ ∀ v ∈ (FlowManager.receiveLoop E beyond fuel type reader s l).trace,
          ∀ e ∈ v.calls, e.onFlow = false := by
  intro fuel
  induction fuel with
  | zero => intro type reader s l hs; exact ⟨hs, rfl, by simp [FlowManager.receiveLoop]⟩
  | succ fuel ih =>
    intro type reader s l hs
    unfold FlowManager.receiveLoop
    by_cases h : type = 0xFF
    · rw [if_pos h]; exact ⟨hs, rfl, by simp⟩
    · simp only [h, if_false]
      obtain ⟨h1, h2, h3⟩ := body_of_failed E hp2p hfailed beyond type reader s l hs
      split
      · refine ⟨h1, h2, ?_⟩
        intro v hv
        simp only [List.mem_singleton] at hv
        rw [hv]; exact h3
      · refine ⟨h1, h2, ?_⟩
        intro v hv
        simp only [List.mem_singleton] at hv
        rw [hv]; exact h3
      · obtain ⟨i1, i2, i3⟩ := ih (FlowManager.body E beyond type reader s l).type
          (FlowManager.body E beyond type reader s l).reader _
          (FlowManager.body E beyond type reader s l).step.locals h1
        refine ⟨i1, by rw [i2, h2], ?_⟩
        intro v hv
        rcases List.mem_cons.mp hv with hv | hv
        · rw [hv]; exact h3
        · exact i3 v hv

/-- C26: in a FAILED session, with handlers (`handleP2PAddressExchange`,
`handleProtocolFailed`) that leave a FAILED status and the flow table as they
are, for every packet: `createFlow` returns no flow and changes nothing,
`receive` makes no call on any flow (no receive, no commit, no deletion), the
status stays FAILED and the flow table after `receive` is the flow table
before. -/
theorem failed_session_no_flow (E : Env F)
    (hp2p : ∀ m s, s.status = Status.FAILED →
      (E.handleP2PAddressExchange m s).status = Status.FAILED
      ∧ (E.handleP2PAddressExchange m s)._flows = s._flows)
    (hfailed : ∀ s, s.status = Status.FAILED →
      (E.handleProtocolFailed s).status = Status.FAILED
      ∧ (E.handleProtocolFailed s)._flows = s._flows)
    (packet beyond : List Nat) (s : FlowManager F) (hs : s.status = Status.FAILED) :
    (∀ id sig, s.createFlow E id sig = (none, s))
    ∧ (∀ v ∈ (FlowManager.receive E packet beyond s).trace, ∀ e ∈ v.calls, e.onFlow = false)
    ∧ (FlowManager.receive E packet beyond s).state.status = Status.FAILED
    ∧ (FlowManager.receive E packet beyond s).state._flows = s._flows := by
  obtain ⟨h1, h2, h3⟩ := receiveLoop_of_failed E hp2p hfailed beyond
    (available packet + 1) (nextType packet).1 (nextType packet).2 s ⟨0, none, 0, 0⟩ hs
  exact ⟨fun id sig => createFlow_of_failed E s id sig hs, h3, h1, h2⟩

/-- A request for the flow 2 of the table, then a continuation, in the closed
session: the flow is left as it is. -/
theorem failed_session_no_flow_witness :
    ({ sampleSession with _flows := [(2, 5)] } : FlowManager Nat).close.1.status = Status.FAILED
    ∧ (FlowManager.receive sampleEnv [0x10, 0, 5, 0, 2, 1, 1, 9, 0x11, 0, 1, 0] []
        ({ sampleSession with _flows := [(2, 5)] } : FlowManager Nat).close.1).state._flows
        = [(2, 5)] :=
  ⟨by decide,
    (failed_session_no_flow sampleEnv (fun _ _ h => ⟨h, rfl⟩)
      (fun s _ => by constructor <;> rfl)
      [0x10, 0, 5, 0, 2, 1, 1, 9, 0x11, 0, 1, 0] []
      ({ sampleSession with _flows := [(2, 5)] } : FlowManager Nat).close.1 rfl).2.2.2⟩

end Failed

section Absent

/-- C27, the code when the connection is absent: after `close()` a keep-alive,
an acknowledgment or a writer-failure sub-message makes `receive` call
`writeMessage`, `handleAcknowledgment` or `handleWriterFailed` through the
reset `_pConnection`; so does a keep-alive that follows, in the same packet, a
`0x0C` whose handler closes the session. -/
theorem receive_absent_connection :
    sampleSession.close.1._pConnection = none
    ∧ (FlowManager.receive sampleEnv [0x01, 0, 0] [] sampleSession.close.1).exit = Exit.faulted
    ∧ (FlowManager.receive sampleEnv [0x51, 0, 2, 2, 0] [] sampleSession.close.1).exit
        = Exit.faulted
    ∧ (FlowManager.receive sampleEnv [0x5e, 0, 1, 2] [] sampleSession.close.1).exit
        = Exit.faulted
    ∧ (FlowManager.receive sampleEnv [0x0c, 0, 0, 0x01, 0, 0] [] sampleSession).exit
        = Exit.faulted := by
  decide

end Absent

section Terminates

variable {F : Type}

/-- The number of passes of the loop is at most the number of bytes from the
current type byte on. -/
theorem receiveLoop_trace_length (E : Env F) (beyond : List Nat) :
    ∀ (fuel type : Nat) (reader : List Nat) (s : FlowManager F) (l : Locals),
      (FlowManager.receiveLoop E beyond fuel type reader s l).trace.length
        ≤ if type = 0xFF then 0 else reader.length + 1 := by
  intro fuel
  induction fuel with
  | zero => intro type reader s l; simp [FlowManager.receiveLoop]
  | succ fuel ih =>
    intro type reader s l
    unfold FlowManager.receiveLoop
    by_cases h : type = 0xFF
    · simp [h]
    · simp only [h, if_false]
      split
      · simp
      · simp
      · rename_i hctl
        have hb := body_reader_fuel E beyond type reader s l hctl
        have hi := ih (FlowManager.body E beyond type reader s l).type
          (FlowManager.body E beyond type reader s l).reader
          (FlowManager.body E beyond type reader s l).step.state
          (FlowManager.body E beyond type reader s l).step.locals
        simp only [List.length_cons]
        rcases hb with hb | hb
        · rw [if_pos hb] at hi; omega
        · split_ifs at hi <;> omega

theorem nextType_length_le (r : List Nat) : (nextType r).2.length ≤ r.length := by
  cases r with
  | nil => simp [nextType, available]
  | cons b t => simp [nextType, available, read8]

/-- A pass never moves the reader backwards. -/
theorem body_reader_le (E : Env F) (beyond : List Nat) (type : Nat) (reader : List Nat)
    (s : FlowManager F) (l : Locals) :
    (FlowManager.body E beyond type reader s l).reader.length ≤ reader.length := by
  have h16 := read16_length_le reader
  unfold FlowManager.body
  simp only
  split
  · have h1 := nextType_length_le (next (read16 reader).1 (read16 reader).2)
    have h2 : (next (read16 reader).1 (read16 reader).2).length ≤ (read16 reader).2.length := by
      simp [next]
    exact Nat.le_trans h1 (Nat.le_trans h2 h16)
  · exact h16

/-- C28: `receive` terminates on every packet: the loop of the model, given
one unit of fuel per byte plus one, never runs out of it; it makes at most as
many passes as the packet has bytes; a pass that goes on to a next sub-message
leaves fewer bytes, counted from the type byte of the coming sub-message on,
than there were from its own type byte on; and the skip by `size` is clamped to
what is left. -/
theorem receive_terminates (E : Env F) (packet beyond : List Nat) (s : FlowManager F) :
    (FlowManager.receive E packet beyond s).exit ≠ Exit.outOfFuel
    ∧ (FlowManager.receive E packet beyond s).trace.length ≤ packet.length
    ∧ (∀ (type : Nat) (reader : List Nat) (s1 : FlowManager F) (l : Locals),
        (FlowManager.body E beyond type reader s1 l).step.ctl = Ctl.next →
        (FlowManager.body E beyond type reader s1 l).reader.length
          + (if (FlowManager.body E beyond type reader s1 l).type = 0xFF then 0 else 1)
          < reader.length + 1)
    ∧ (∀ (size : Nat) (reader : List Nat),
        (next size reader).length = reader.length - size) := by
  refine ⟨receive_exit_ne_outOfFuel E packet beyond s, ?_, ?_, ?_⟩
  · unfold FlowManager.receive
    refine Nat.le_trans (receiveLoop_trace_length E beyond _ _ _ _ _) ?_
    cases packet with
    | nil => simp [nextType, available]
    | cons b t =>
      have hn : nextType (b :: t) = (b, t) := by simp [nextType, available, read8]
      rw [hn]
      simp only [List.length_cons]
      split_ifs <;> omega
  · intro type reader s1 l hctl
    have hb := body_reader_fuel E beyond type reader s1 l hctl
    have hle : (FlowManager.body E beyond type reader s1 l).reader.length ≤ reader.length :=
      body_reader_le E beyond type reader s1 l
    split_ifs <;> omega
  · intro size reader
    simp [next]

end Terminates

section Rebase

theorem touch_fields (m : Media) (peerId : List Nat) :
    (m.touch peerId)._timeStart = m._timeStart
    ∧ (m.touch peerId)._codecInfosRead = m._codecInfosRead
    ∧ (m.touch peerId)._firstMedia = m._firstMedia
    ∧ (m.touch peerId)._pOnMedia = m._pOnMedia := by
  unfold Media.touch
  split <;> exact ⟨rfl, rfl, rfl, rfl⟩

theorem push_fields (m : Media) (peerId packet : List Nat) :
    (m.push peerId packet)._timeStart = m._timeStart
    ∧ (m.push peerId packet)._codecInfosRead = m._codecInfosRead
    ∧ (m.push peerId packet)._firstMedia = m._firstMedia
    ∧ (m.push peerId packet)._pOnMedia = m._pOnMedia := by
  obtain ⟨h1, h2, h3, h4⟩ := touch_fields m peerId
  exact ⟨h1, h2, h3, h4⟩

/-- The members `deliver` leaves and what it hands over. -/
theorem deliver_spec (m : Media) (i : MediaInput) :
    (m.deliver i).2 = some { i with time := (i.time + 2 ^ 32 - m._timeStart) % 2 ^ 32 }
    ∧ (m.deliver i).1._timeStart = m._timeStart
    ∧ (m.deliver i).1._codecInfosRead = m._codecInfosRead
    ∧ (m.deliver i).1._firstMedia = m._firstMedia
    ∧ (m.deliver i).1._pOnMedia = m._pOnMedia := by
  unfold Media.deliver
  cases hp : m._pOnMedia with
  | true => simp [hp]
  | false =>
    simp only [Bool.false_eq_true, if_false, true_and]
    obtain ⟨h1, h2, h3, h4⟩ := push_fields m i.peerId
      (RTMFPMediaPacket i.data ((i.time + 2 ^ 32 - m._timeStart) % 2 ^ 32) i.audio)
    exact ⟨h1, h2, h3, by rw [h4, hp]⟩

/-- Once the codec infos are read and the first packet is past, every packet
not older than the start time is handed over with its time rebased, the others
are dropped, and the start time stays. -/
theorem onMediaMany_started (isH264 : List Nat → Bool) :
    ∀ (inputs : List MediaInput) (m : Media),
      m._codecInfosRead = true → m._firstMedia = false →
      (∀ i ∈ inputs, i.time < 2 ^ 32) →
      (Media.onMediaMany isH264 m inputs).2
          = (inputs.filter (fun i => decide (m._timeStart ≤ i.time))).map
              (fun i => { i with time := i.time - m._timeStart })
      ∧ (Media.onMediaMany isH264 m inputs).1._timeStart = m._timeStart
      ∧ (Media.onMediaMany isH264 m inputs).1._codecInfosRead = true
      ∧ (Media.onMediaMany isH264 m inputs).1._firstMedia = false := by
  intro inputs
  induction inputs with
  | nil => intro m hc hf _; exact ⟨rfl, rfl, hc, hf⟩
  | cons i rest ih =>
    intro m hc hf htime
    have hi := htime i (List.mem_cons_self _ _)
    have hrest : ∀ j ∈ rest, j.time < 2 ^ 32 := fun j hj => htime j (List.mem_cons_of_mem _ hj)
    obtain ⟨fr, mp, fm, ts, ci, po⟩ := m
    simp only at hc hf
    subst hc hf
    simp only [Media.onMediaMany]
    by_cases hlt : i.time < ts
    · have hstep : Media.onMedia isH264 ⟨fr, mp, false, ts, true, po⟩ i
          = (⟨fr, mp, false, ts, true, po⟩, none) := by
        unfold Media.onMedia
        simp only [hlt, Bool.true_eq_false, false_and, Bool.false_eq_true, if_false, if_true]
      rw [hstep]
      obtain ⟨h1, h2, h3, h4⟩ := ih ⟨fr, mp, false, ts, true, po⟩ rfl rfl hrest
      refine ⟨?_, h2, h3, h4⟩
      rw [h1, List.filter_cons_of_neg (by simpa using hlt)]
      rfl
    · have hstep : Media.onMedia isH264 ⟨fr, mp, false, ts, true, po⟩ i
          = (⟨fr, mp, false, ts, true, po⟩ : Media).deliver i := by
        unfold Media.onMedia
        simp only [hlt, Bool.true_eq_false, false_and, Bool.false_eq_true, if_false]
      rw [hstep]
      obtain ⟨d1, d2, d3, d4, _⟩ := deliver_spec ⟨fr, mp, false, ts, true, po⟩ i
      obtain ⟨h1, h2, h3, h4⟩ := ih ((⟨fr, mp, false, ts, true, po⟩ : Media).deliver i).1
        (by rw [d3]) (by rw [d4]) hrest
      refine ⟨?_, by rw [h2, d2], h3, h4⟩
      rw [h1, d1, d2, List.filter_cons_of_pos (by simpa using hlt)]
      have ht : (i.time + 2 ^ 32 - ts) % 2 ^ 32 = i.time - ts := by
        simp only at hlt ⊢
        omega
      simp only [ht, Option.toList_some, List.singleton_append, List.map_cons]

/-- From the state the constructor leaves: nothing is handed over before the
first video packet with H264 codec infos; that packet is handed over with the
time 0 and its time is the start time from then on. -/
theorem onMediaMany_fresh (isH264 : List Nat → Bool) :
    ∀ (inputs : List MediaInput) (m : Media),
      m._codecInfosRead = false → m._firstMedia = true →
      (∀ i ∈ inputs, i.time < 2 ^ 32) →
      (Media.onMediaMany isH264 m inputs).2
          = (match inputs.dropWhile (fun i => !(!i.audio && isH264 i.data)) with
            | [] => []
            | c :: post =>
              { c with time := 0 }
                :: (post.filter (fun i => decide (c.time ≤ i.time))).map
                    (fun i => { i with time := i.time - c.time }))
      ∧ (match inputs.dropWhile (fun i => !(!i.audio && isH264 i.data)) with
          | [] => (Media.onMediaMany isH264 m inputs).1 = m
          | c :: _ =>
            (Media.onMediaMany isH264 m inputs).1._timeStart = c.time
            ∧ (Media.onMediaMany isH264 m inputs).1._codecInfosRead = true
            ∧ (Media.onMediaMany isH264 m inputs).1._firstMedia = false) := by
  intro inputs
  induction inputs with
  | nil => intro m _ _ _; exact ⟨rfl, rfl⟩
  | cons i rest ih =>
    intro m hc hf htime
    have hi := htime i (List.mem_cons_self _ _)
    have hrest : ∀ j ∈ rest, j.time < 2 ^ 32 := fun j hj => htime j (List.mem_cons_of_mem _ hj)
    simp only [Media.onMediaMany]
    by_cases hcodec : i.audio = false ∧ isH264 i.data = true
    · have hd : (!(!i.audio && isH264 i.data)) = false := by simp [hcodec.1, hcodec.2]
      have hstep : Media.onMedia isH264 m i
          = ({ m with _codecInfosRead := true, _firstMedia := false,
                      _timeStart := i.time } : Media).deliver i := by
        unfold Media.onMedia
        simp only [hc, hf, hcodec, and_self, not_true_eq_false, and_false, if_false, if_true]
      rw [hstep, List.dropWhile_cons_of_neg (by simp [hd])]
      obtain ⟨d1, d2, d3, d4, _⟩ := deliver_spec
        ({ m with _codecInfosRead := true, _firstMedia := false, _timeStart := i.time } : Media) i
      obtain ⟨h1, h2, h3, h4⟩ := onMediaMany_started isH264 rest
        (({ m with _codecInfosRead := true, _firstMedia := false,
                   _timeStart := i.time } : Media).deliver i).1
        (by rw [d3]) (by rw [d4]) hrest
      simp only
      refine ⟨?_, by rw [h2, d2], h3, h4⟩
      rw [h1, d1, d2]
      have ht : (i.time + 2 ^ 32 - i.time) % 2 ^ 32 = 0 := by omega
      simp only [ht, Option.toList_some, List.singleton_append]
    · have hd : (!(!i.audio && isH264 i.data)) = true := by
        cases ha : i.audio <;> cases hh : isH264 i.data <;> simp_all
      have hstep : Media.onMedia isH264 m i = (m, none) := by
        unfold Media.onMedia
        simp only [hc, hcodec, not_false_eq_true, and_self, if_true]
      rw [hstep, List.dropWhile_cons_of_pos (by simp [hd])]
      exact ih m hc hf hrest

theorem touch_lookup (m : Media) (peerId : List Nat) :
    ((m.touch peerId)._mediaPackets.lookup peerId).isSome = true := by
  unfold Media.touch
  by_cases h : (m._mediaPackets.lookup peerId).isSome = true
  · rw [if_pos h]; exact h
  · rw [if_neg h]
    simp only [lookup_append_absent]
    cases hl : m._mediaPackets.lookup peerId with
    | some x => rw [hl] at h; simp at h
    | none => simp

/-- The queues after `_mediaPackets[peerId].emplace_back(packet)`. -/
theorem queue_push (m : Media) (peerId packet : List Nat) :
    (m.push peerId packet).queue peerId = m.queue peerId ++ [packet]
    ∧ ∀ other, other ≠ peerId → (m.push peerId packet).queue other = m.queue other := by
  unfold Media.push
  refine ⟨?_, fun other ho => ?_⟩
  · rw [queue_setQueue _ _ _ (touch_lookup m peerId), queue_touch]
  · rw [queue_setQueue_ne _ _ _ _ ho, queue_touch]

/-- C29: from the state the constructor leaves, for every sequence of media
packets with 32-bit times: nothing is handed over (to the callback or to a
queue) before the first video packet carrying H264 codec infos; that packet is
handed over with the time 0 and its time becomes the start time, which does
not change afterwards; every later packet whose time `t` is at least the start
time is handed over with the time `t - timeStart`, and every later packet with
a smaller time is dropped, so no subtraction underflows.  Handing over means:
with a callback the members are left as they are, without one the packet built
by `RTMFPMediaPacket` with the rebased time is appended to the queue of its
peer and the other queues are unchanged. -/
theorem media_time_rebased (isH264 : List Nat → Bool) (pOnMedia : Bool)
    (inputs : List MediaInput) (htime : ∀ i ∈ inputs, i.time < 2 ^ 32) :
    (Media.onMediaMany isH264 (Media.create pOnMedia) inputs).2
        = (match inputs.dropWhile (fun i => !(!i.audio && isH264 i.data)) with
          | [] => []
          | c :: post =>
            { c with time := 0 }
              :: (post.filter (fun i => decide (c.time ≤ i.time))).map
                  (fun i => { i with time := i.time - c.time }))
    ∧ (match inputs.dropWhile (fun i => !(!i.audio && isH264 i.data)) with
        | [] => (Media.onMediaMany isH264 (Media.create pOnMedia) inputs).1
                  = Media.create pOnMedia
        | c :: _ =>
          (Media.onMediaMany isH264 (Media.create pOnMedia) inputs).1._timeStart = c.time
          ∧ (Media.onMediaMany isH264 (Media.create pOnMedia) inputs).1._codecInfosRead = true
          ∧ (Media.onMediaMany isH264 (Media.create pOnMedia) inputs).1._firstMedia = false)
    ∧ (∀ (m : Media) (i : MediaInput), m._pOnMedia = true → (m.deliver i).1 = m)
    ∧ (∀ (m : Media) (i : MediaInput), m._pOnMedia = false →
        (m.deliver i).1.queue i.peerId
          = m.queue i.peerId
            ++ [RTMFPMediaPacket i.data ((i.time + 2 ^ 32 - m._timeStart) % 2 ^ 32) i.audio]
        ∧ ∀ other, other ≠ i.peerId → (m.deliver i).1.queue other = m.queue other) := by
  obtain ⟨h1, h2⟩ := onMediaMany_fresh isH264 inputs (Media.create pOnMedia) rfl rfl htime
  refine ⟨h1, h2, ?_, ?_⟩
  · intro m i hp
    unfold Media.deliver
    simp [hp]
  · intro m i hp
    unfold Media.deliver
    simp only [hp, Bool.false_eq_true, if_false]
    exact queue_push m i.peerId _

/-- An audio packet and a video frame before the codec infos, the codec infos
at time 110, then packets at times 105, 120 and 110. -/
theorem media_time_rebased_witness :
    (∀ i ∈ ([⟨[1], [5], 100, [1, 2], true⟩, ⟨[1], [5], 90, [0x27, 1], false⟩,
        ⟨[1], [5], 110, [0x17, 0, 9], false⟩, ⟨[1], [5], 105, [3], true⟩,
        ⟨[1], [5], 120, [4], true⟩, ⟨[1], [5], 110, [4], false⟩] : List MediaInput),
        i.time < 2 ^ 32)
    ∧ (Media.onMediaMany (fun d => d.take 2 == [0x17, 0]) (Media.create false)
        [⟨[1], [5], 100, [1, 2], true⟩, ⟨[1], [5], 90, [0x27, 1], false⟩,
          ⟨[1], [5], 110, [0x17, 0, 9], false⟩, ⟨[1], [5], 105, [3], true⟩,
          ⟨[1], [5], 120, [4], true⟩, ⟨[1], [5], 110, [4], false⟩]).2
      = [⟨[1], [5], 0, [0x17, 0, 9], false⟩, ⟨[1], [5], 10, [4], true⟩,
          ⟨[1], [5], 0, [4], false⟩]
    ∧ (Media.onMediaMany (fun d => d.take 2 == [0x17, 0]) (Media.create false)
        [⟨[1], [5], 100, [1, 2], true⟩, ⟨[1], [5], 90, [0x27, 1], false⟩,
          ⟨[1], [5], 110, [0x17, 0, 9], false⟩, ⟨[1], [5], 105, [3], true⟩,
          ⟨[1], [5], 120, [4], true⟩, ⟨[1], [5], 110, [4], false⟩]).2
      = (match ([⟨[1], [5], 100, [1, 2], true⟩, ⟨[1], [5], 90, [0x27, 1], false⟩,
          ⟨[1], [5], 110, [0x17, 0, 9], false⟩, ⟨[1], [5], 105, [3], true⟩,
          ⟨[1], [5], 120, [4], true⟩, ⟨[1], [5], 110, [4], false⟩] : List MediaInput).dropWhile
            (fun i => !(!i.audio && (fun d => d.take 2 == [0x17, 0]) i.data)) with
          | [] => []
          | c :: post =>
            { c with time := 0 }
              :: (post.filter (fun i => decide (c.time ≤ i.time))).map
                  (fun i => { i with time := i.time - c.time })) :=
  ⟨by decide, by decide,
    (media_time_rebased (fun d => d.take 2 == [0x17, 0]) false
      [⟨[1], [5], 100, [1, 2], true⟩, ⟨[1], [5], 90, [0x27, 1], false⟩,
        ⟨[1], [5], 110, [0x17, 0, 9], false⟩, ⟨[1], [5], 105, [3], true⟩,
        ⟨[1], [5], 120, [4], true⟩, ⟨[1], [5], 110, [4], false⟩] (by decide)).1⟩

end Rebase

section Group

theorem read16_snd (r : List Nat) : (read16 r).2 = r.drop 2 := by
  unfold read16
  split <;> rfl

theorem read32_snd (r : List Nat) : (read32 r).2 = r.drop 4 := by
  unfold read32
  simp only [read16_snd, List.drop_drop]

theorem readString_full (n : Nat) (r : List Nat) (h : n ≤ r.length) :
    (readString n r).1 = r.take n := by
  unfold readString
  simp only
  rw [Nat.sub_eq_zero_of_le h]
  simp

/-- The two bytes `read16` reads, when they are there. -/
theorem read16_eq_iff (r : List Nat) (hb : ∀ b ∈ r, b < 256) (hl : 2 ≤ r.length)
    (x y : Nat) (hx : x < 256) (hy : y < 256) :
    (read16 r).1 = x * 256 + y ↔ r.take 2 = [x, y] := by
  match r, hl, hb with
  | a :: b :: t, _, hb =>
    have ha := hb a (by simp)
    have hb' := hb b (by simp)
    simp only [read16, List.take_succ_cons, List.take_zero, List.cons.injEq, and_true]
    constructor
    · intro h; constructor <;> omega
    · rintro ⟨rfl, rfl⟩; rfl

/-- The four bytes `read32` reads, when they are there. -/
theorem read32_eq_iff (r : List Nat) (hb : ∀ b ∈ r, b < 256) (hl : 4 ≤ r.length)
    (w x y z : Nat) (hw : w < 256) (hx : x < 256) (hy : y < 256) (hz : z < 256) :
    (read32 r).1 = (w * 256 + x) * 65536 + (y * 256 + z) ↔ r.take 4 = [w, x, y, z] := by
  match r, hl, hb with
  | a :: b :: c :: d :: t, _, hb =>
    have ha := hb a (by simp)
    have hb' := hb b (by simp)
    have hc := hb c (by simp)
    have hd := hb d (by simp)
    simp only [read32, read16, List.take_succ_cons, List.take_zero, List.cons.injEq, and_true]
    constructor
    · intro h; refine ⟨?_, ?_, ?_, ?_⟩ <;> omega
    · rintro ⟨rfl, rfl, rfl, rfl⟩; rfl

/-- A reader with fewer than four bytes does not give the third marker. -/
theorem read32_short (r : List Nat) (hb : ∀ b ∈ r, b < 256) (hl : r.length < 4) :
    (read32 r).1 ≠ 0x2303210F := by
  match r, hl, hb with
  | [], _, _ => simp [read32, read16]
  | [a], _, hb =>
    have ha := hb a (by simp)
    simp only [read32, read16]
    omega
  | [a, b], _, hb =>
    have ha := hb a (by simp)
    have hb' := hb b (by simp)
    simp only [read32, read16]
    omega
  | [a, b, c], _, hb =>
    have ha := hb a (by simp)
    have hb' := hb b (by simp)
    have hc := hb c (by simp)
    simp only [read32, read16]
    omega

/-- The case `GROUP_INIT`: the handshake event is raised exactly when the three
markers are in the packet at their places. -/
theorem groupInit_spec (G : GroupEnv) (rest : List Nat) (hb : ∀ b ∈ rest, b < 256) :
    GroupStream.groupInit G rest
      = if rest.take 2 = [0x41, 0x00] ∧ (rest.drop 66).take 2 = [0x21, 0x01]
            ∧ (rest.drop 100).take 4 = [0x23, 0x03, 0x21, 0x0F] then
          [GroupEvent.OnGroupHandshake ((rest.drop 2).take 0x40) ((rest.drop 68).take 0x20)
            (readString G.PEER_ID_SIZE (rest.drop 104)).1]
        else [] := by
  have hdrop : ∀ n, ∀ b ∈ rest.drop n, b < 256 := fun n b h => hb b (List.mem_of_mem_drop h)
  have hrest3 : (readString 0x20 (read16 (rest.drop 66)).2).2 = rest.drop 100 := by
    simp only [readString, read16_snd, List.drop_drop]
  have hrest2 : (readString 0x40 (read16 rest).2).2 = rest.drop 66 := by
    simp only [readString, read16_snd, List.drop_drop]
  unfold GroupStream.groupInit
  simp only [hrest2]
  simp only [hrest3]
  by_cases hlen : 104 ≤ rest.length
  · have m1 := read16_eq_iff rest hb (by omega) 0x41 0x00 (by decide) (by decide)
    have m2 := read16_eq_iff (rest.drop 66) (hdrop 66) (by rw [List.length_drop]; omega)
      0x21 0x01 (by decide) (by decide)
    have m3 := read32_eq_iff (rest.drop 100) (hdrop 100) (by rw [List.length_drop]; omega)
      0x23 0x03 0x21 0x0F (by decide) (by decide) (by decide) (by decide)
    have e1 : (0x41 * 256 + 0x00 : Nat) = 0x4100 := by decide
    have e2 : (0x21 * 256 + 0x01 : Nat) = 0x2101 := by decide
    have e3 : ((0x23 * 256 + 0x03) * 65536 + (0x21 * 256 + 0x0F) : Nat) = 0x2303210F := by
      decide
    rw [e1] at m1
    rw [e2] at m2
    rw [e3] at m3
    have hg : (readString 0x40 (read16 rest).2).1 = (rest.drop 2).take 0x40 := by
      rw [read16_snd]
      exact readString_full _ _ (by rw [List.length_drop]; omega)
    have hk : (readString 0x20 (read16 (rest.drop 66)).2).1 = (rest.drop 68).take 0x20 := by
      rw [read16_snd, List.drop_drop]
      exact readString_full _ _ (by rw [List.length_drop]; omega)
    have hp : (read32 (rest.drop 100)).2 = rest.drop 104 := by
      rw [read32_snd, List.drop_drop]
    rw [hg, hk, hp]
    by_cases c1 : (read16 rest).1 = 0x4100
    · by_cases c2 : (read16 (rest.drop 66)).1 = 0x2101
      · by_cases c3 : (read32 (rest.drop 100)).1 = 0x2303210F
        · rw [if_neg (not_not.mpr c1), if_neg (not_not.mpr c2), if_neg (not_not.mpr c3),
            if_pos ⟨m1.mp c1, m2.mp c2, m3.mp c3⟩]
        · rw [if_neg (not_not.mpr c1), if_neg (not_not.mpr c2), if_pos c3,
            if_neg (fun h => c3 (m3.mpr h.2.2))]
      · rw [if_neg (not_not.mpr c1), if_pos c2, if_neg (fun h => c2 (m2.mpr h.2.1))]
    · rw [if_pos c1, if_neg (fun h => c1 (m1.mpr h.1))]
  · have hshort : (rest.drop 100).length < 4 := by rw [List.length_drop]; omega
    have c3 := read32_short (rest.drop 100) (hdrop 100) hshort
    have hno : ¬ (rest.take 2 = [0x41, 0x00] ∧ (rest.drop 66).take 2 = [0x21, 0x01]
        ∧ (rest.drop 100).take 4 = [0x23, 0x03, 0x21, 0x0F]) := by
      intro h
      have := congrArg List.length h.2.2
      simp only [List.length_take, List.length_cons, List.length_nil] at this
      omega
    rw [if_neg hno]
    by_cases c1 : (read16 rest).1 = 0x4100
    · by_cases c2 : (read16 (rest.drop 66)).1 = 0x2101
      · rw [if_neg (not_not.mpr c1), if_neg (not_not.mpr c2), if_pos c3]
      · rw [if_neg (not_not.mpr c1), if_pos c2]
    · rw [if_pos c1]

/-- Only the case `GROUP_INIT` raises the handshake, and at most once. -/
theorem switch_handshake (G : GroupEnv) (type : ContentType) (r : List Nat) :
    ((GroupStream.switch G type r).1.filter GroupEvent.isHandshake).length ≤ 1
    ∧ (type ≠ ContentType.GROUP_INIT →
        (GroupStream.switch G type r).1.filter GroupEvent.isHandshake = []) := by
  cases type
  case GROUP_INIT =>
    refine ⟨?_, fun h => absurd rfl h⟩
    simp only [GroupStream.switch, GroupStream.groupInit]
    split_ifs <;> simp [GroupEvent.isHandshake]
  all_goals
    simp only [GroupStream.switch]
    refine ⟨?_, fun _ => ?_⟩ <;>
      first
      | (split_ifs <;> simp [GroupEvent.isHandshake])
      | simp [GroupEvent.isHandshake]

/-- C30: for a packet of bytes whose type byte stands for `GROUP_INIT`,
`GroupStream::process` raises the group-handshake event if and only if the 2
bytes behind the type byte are 41 00, the 2 bytes behind the 64 bytes that
follow are 21 01 and the 4 bytes behind the 32 bytes that follow are
23 03 21 0F; it is then raised once, with these 64 bytes as group id, these 32
bytes as key and, as peer id, the next PEER_ID_SIZE bytes (all of them when the
packet holds them); otherwise no event is raised; in both cases the value
returned is whether the writer is not CLOSED.  For every packet, whatever its
type, the handshake is raised at most once, and not at all when the type is
not `GROUP_INIT`. -/
theorem group_handshake (G : GroupEnv) (closed : Bool) (type : Nat) (rest : List Nat)
    (hinit : G.typeOf type = ContentType.GROUP_INIT) (hb : ∀ b ∈ rest, b < 256) :
    (GroupStream.process G closed (type :: rest)).1 = !closed
    ∧ (GroupStream.process G closed (type :: rest)).2
        = (if rest.take 2 = [0x41, 0x00] ∧ (rest.drop 66).take 2 = [0x21, 0x01]
              ∧ (rest.drop 100).take 4 = [0x23, 0x03, 0x21, 0x0F] then
            [GroupEvent.OnGroupHandshake ((rest.drop 2).take 0x40) ((rest.drop 68).take 0x20)
              (readString G.PEER_ID_SIZE (rest.drop 104)).1]
          else [])
    ∧ (104 + G.PEER_ID_SIZE ≤ rest.length →
        (readString G.PEER_ID_SIZE (rest.drop 104)).1 = (rest.drop 104).take G.PEER_ID_SIZE)
    ∧ (∀ (flag : Bool) (packet : List Nat),
        ((GroupStream.process G flag packet).2.filter GroupEvent.isHandshake).length ≤ 1
        ∧ (G.typeOf (read8 packet).1 ≠ ContentType.GROUP_INIT →
            (GroupStream.process G flag packet).2.filter GroupEvent.isHandshake = [])) := by
  have hsw : GroupStream.switch G (G.typeOf (read8 (type :: rest)).1) (read8 (type :: rest)).2
      = (GroupStream.groupInit G rest, false) := by
    simp only [read8, hinit, GroupStream.switch]
  refine ⟨?_, ?_, ?_, ?_⟩
  · unfold GroupStream.process
    simp only [hsw, Bool.false_eq_true, if_false]
  · unfold GroupStream.process
    simp only [hsw, Bool.false_eq_true, if_false]
    exact groupInit_spec G rest hb
  · intro h
    exact readString_full _ _ (by rw [List.length_drop]; omega)
  · intro flag packet
    have h := switch_handshake G (G.typeOf (read8 packet).1) (read8 packet).2
    unfold GroupStream.process
    simp only
    split_ifs <;> exact h

set_option maxRecDepth 100000 in
/-- A well-formed GROUP_INIT message of 137 bytes. -/
theorem group_handshake_witness :
    (sampleGroup.typeOf 0x01 = ContentType.GROUP_INIT
      ∧ ∀ b ∈ [0x41, 0x00] ++ List.replicate 64 7 ++ [0x21, 0x01] ++ List.replicate 32 9
          ++ [0x23, 0x03, 0x21, 0x0F] ++ List.replicate 32 5, b < 256)
    ∧ GroupStream.process sampleGroup false
        (0x01 :: ([0x41, 0x00] ++ List.replicate 64 7 ++ [0x21, 0x01] ++ List.replicate 32 9
          ++ [0x23, 0x03, 0x21, 0x0F] ++ List.replicate 32 5))
      = (true, [GroupEvent.OnGroupHandshake (List.replicate 64 7) (List.replicate 32 9)
          (List.replicate 32 5)])
    ∧ (GroupStream.process sampleGroup false
        (0x01 :: ([0x41, 0x00] ++ List.replicate 64 7 ++ [0x21, 0x01] ++ List.replicate 32 9
          ++ [0x23, 0x03, 0x21, 0x0F] ++ List.replicate 32 5))).1 = !false :=
  ⟨⟨by decide, by decide⟩, by decide,
    (group_handshake sampleGroup false 0x01
      ([0x41, 0x00] ++ List.replicate 64 7 ++ [0x21, 0x01] ++ List.replicate 32 9
          ++ [0x23, 0x03, 0x21, 0x0F] ++ List.replicate 32 5) (by decide) (by decide)).1⟩

end Group

end Librtmfp
